import Mathlib

/-!
# Resource-tiered manifest engine: a shallow embedding

The Go sources under `services/` and `handlers/` are embedded as Lean functions.

* A Go `string` is modelled as the list of its Unicode code points (`GoString`);
  every pattern the program searches for is ASCII, so prefix, substring and split
  operations on code points agree with the byte-level Go operations on valid UTF-8.
* `int64` / `int` values are mathematical integers, and every machine addition is
  wrapped explicitly with `wrap64`.
* The object store is an explicit environment (`Store`): credentials, whether the
  client can be constructed, and the answers of `StatObject` / `ListObjects`.
-/

set_option maxRecDepth 200000

namespace Hynix

/-! ## Go strings -/

/-- A Go string, as the list of its code points. -/
abbrev GoString := List Char

/-- The Go function `unicode.IsSpace`. -/
def isSpace (c : Char) : Bool :=
  c = '\t' || c = '\n' || c.toNat = 0x0B || c.toNat = 0x0C || c = '\r' || c = ' '
    || c.toNat = 0x85 || c.toNat = 0xA0 || c.toNat = 0x1680
    || (0x2000 ≤ c.toNat && c.toNat ≤ 0x200A)
    || c.toNat = 0x2028 || c.toNat = 0x2029 || c.toNat = 0x202F
    || c.toNat = 0x205F || c.toNat = 0x3000

/-- The Go function `strings.TrimSpace`. -/
def TrimSpace (s : GoString) : GoString :=
  ((s.dropWhile isSpace).reverse.dropWhile isSpace).reverse

/-- The Go call `strings.TrimLeft(s, " ")`. -/
def TrimLeftSpaces (s : GoString) : GoString :=
  s.dropWhile (fun c => c == ' ')

/-- The Go call `strings.TrimRight(s, "/")`. -/
def TrimRightSlash (s : GoString) : GoString :=
  (s.reverse.dropWhile (fun c => c == '/')).reverse

/-- The Go function `strings.HasPrefix(s, p)`. -/
def HasPrefix (s p : GoString) : Bool := p.isPrefixOf s

/-- The Go function `strings.HasSuffix(s, p)`. -/
def HasSuffix (s p : GoString) : Bool := p.reverse.isPrefixOf s.reverse

/-- The Go function `strings.Contains(s, sub)`. -/
def Contains : GoString → GoString → Bool
  | [], sub => sub.isPrefixOf []
  | c :: cs, sub => sub.isPrefixOf (c :: cs) || Contains cs sub

/-- The Go call `strings.Repeat(" ", n)`. -/
def RepeatSpace (n : Nat) : GoString := List.replicate n ' '

/-- The Go call `strings.Split(s, "\n")`: always at least one line. -/
def SplitLines : GoString → List GoString
  | [] => [[]]
  | c :: cs =>
    if c = '\n' then [] :: SplitLines cs
    else
      match SplitLines cs with
      | [] => [[c]]
      | l :: ls => (c :: l) :: ls

/-- The Go call `strings.Join(lines, "\n")`. -/
def JoinLines : List GoString → GoString
  | [] => []
  | [l] => l
  | l :: l2 :: ls => l ++ '\n' :: JoinLines (l2 :: ls)

/-- Scanner of `strings.ReplaceAll` for a non-empty `old`: `skip` counts the code
points of a match that are still to be consumed. -/
def replaceScan (old new : GoString) : Nat → GoString → GoString
  | _, [] => []
  | k + 1, _ :: cs => replaceScan old new k cs
  | 0, c :: cs =>
    if old.isPrefixOf (c :: cs) then new ++ replaceScan old new (old.length - 1) cs
    else c :: replaceScan old new 0 cs

/-- The Go function `strings.ReplaceAll(s, old, new)`. With an empty `old` Go inserts
`new` before every code point and at the end. -/
def ReplaceAll (s old new : GoString) : GoString :=
  if old = [] then new ++ s.flatMap (fun c => c :: new)
  else replaceScan old new 0 s

/-- Decimal digits of a natural number, as `%d` prints them. -/
def fmtNat (n : Nat) : GoString := Nat.toDigits 10 n

/-- The Go verb `%d` on an integer. -/
def fmtInt : Int → GoString
  | Int.ofNat n => fmtNat n
  | Int.negSucc n => '-' :: fmtNat (n + 1)

/-- Two's-complement wrap of a 64-bit signed machine integer. -/
def wrap64 (x : Int) : Int := (x + 2 ^ 63) % 2 ^ 64 - 2 ^ 63

/-- Number of leading spaces of a line, computed as the source does:
`len(line) - len(strings.TrimLeft(line, " "))`. -/
def indentWidth (line : GoString) : Nat :=
  line.length - (TrimLeftSpaces line).length

/-! ## services/config.go -/

/-- The struct `MinIOMetadata`. -/
structure MinIOMetadata where
  Path : GoString
  Size : Int
  ETag : GoString
  LastModified : Int
  ContentType : GoString
  StorageClass : GoString
  UserMetadata : List (GoString × GoString)
deriving DecidableEq, Repr

/-- One element received from the `ListObjects` channel / returned by `StatObject`. -/
structure ObjectInfo where
  Err : Option GoString
  Size : Int
  ETag : GoString
  LastModified : Int
  ContentType : GoString
  StorageClass : GoString
  UserMetadata : List (GoString × GoString)
deriving DecidableEq, Repr

/-- An object of the given size with no error and empty attributes. -/
def ObjectInfo.ofSize (n : Int) : ObjectInfo :=
  { Err := none, Size := n, ETag := [], LastModified := 0, ContentType := [],
    StorageClass := [], UserMetadata := [] }

/-- Errors of the sizing functions (the Go code wraps messages with `fmt.Errorf`). -/
inductive SizingError where
  | envNotSet
  | clientInit
  | badPath (path : GoString)
  | statFailed (cause : GoString)
  | listFailed (cause : GoString)
  | emptyFolder (pfx : GoString)
  | folderWrap (inner : SizingError) (minQueue : GoString)
  | fileWrap (inner : SizingError) (minQueue : GoString)
deriving DecidableEq, Repr

/-- The object store and process environment the sizing functions talk to. -/
structure Store where
  accessKey : GoString
  secretKey : GoString
  clientOk : Bool
  statObject : GoString → GoString → Except GoString ObjectInfo
  listObjects : GoString → GoString → List ObjectInfo

/-- Scanner of `splitPath`: `cur` is the part being collected, reversed. -/
def splitPathGo (delim : Char) : GoString → GoString → List GoString
  | cur, [] => [cur.reverse]
  | cur, c :: cs =>
    if c = delim then cur.reverse :: splitPathGo delim [] cs
    else splitPathGo delim (c :: cur) cs

/-- The helper `splitPath(s, "/")`. -/
def splitPath (s : GoString) : List GoString :=
  if s = [] then [] else splitPathGo '/' [] s

/-- The helper `joinPath(parts, "/")`. -/
def joinPath : List GoString → GoString
  | [] => []
  | p :: ps => ps.foldl (fun acc q => acc ++ '/' :: q) p

/-- The function `parseMinioPath`: bucket and object name. -/
def parseMinioPath (path : GoString) : Except SizingError (GoString × GoString) :=
  match splitPath path with
  | bucket :: p :: ps => .ok (bucket, joinPath (p :: ps))
  | _ => .error (.badPath path)

/-- The summation loop of `getMinioFolderSize` over the received objects; the state
is `(totalSize, count)`. A listing error aborts the loop. -/
def folderLoop : List ObjectInfo → Int → Int → Except SizingError (Int × Int)
  | [], total, count => .ok (total, count)
  | o :: os, total, count =>
    match o.Err with
    | some e => .error (.listFailed e)
    | none =>
      if o.Size > 0 then folderLoop os (wrap64 (total + o.Size)) (wrap64 (count + 1))
      else folderLoop os total count

/-- The part of `getMinioFolderSize` after the listing has been requested
(source lines 342-363). -/
def folderSizeOf (pfx : GoString) (objs : List ObjectInfo) : Except SizingError (Int × Int) :=
  match folderLoop objs 0 0 with
  | .error e => .error e
  | .ok (total, count) =>
    if count = 0 then .error (.emptyFolder pfx) else .ok (total, count)

/-- The function `getMinioFolderSize`. -/
def getMinioFolderSize (st : Store) (minioPath : GoString) : Except SizingError (Int × Int) :=
  if st.accessKey = [] ∨ st.secretKey = [] then .error .envNotSet
  else if st.clientOk = false then .error .clientInit
  else
    match parseMinioPath minioPath with
    | .error e => .error e
    | .ok (bucket, pfx) =>
      let pfx := if HasSuffix pfx ['/'] then pfx else pfx ++ ['/']
      folderSizeOf pfx (st.listObjects bucket pfx)

/-- The function `getMinIOMetadata`. -/
def getMinIOMetadata (st : Store) (minioPath : GoString) : Except SizingError MinIOMetadata :=
  if st.accessKey = [] ∨ st.secretKey = [] then .error .envNotSet
  else if st.clientOk = false then .error .clientInit
  else
    match parseMinioPath minioPath with
    | .error e => .error e
    | .ok (bucket, object) =>
      match st.statObject bucket object with
      | .error e => .error (.statFailed e)
      | .ok o =>
        .ok { Path := minioPath, Size := o.Size, ETag := o.ETag,
              LastModified := o.LastModified, ContentType := o.ContentType,
              StorageClass := o.StorageClass, UserMetadata := o.UserMetadata }

/-- The function `getMinIOObjectSize`. -/
def getMinIOObjectSize (st : Store) (minioPath : GoString) : Except SizingError Int :=
  match getMinIOMetadata st minioPath with
  | .error e => .error e
  | .ok m => .ok m.Size

/-- The placeholder `<<service_id>>` of the configured object path. -/
def serviceIdToken : GoString := "<<service_id>>".toList

/-- Scanner of `strings.Replace(s, old, new, 1)` for a non-empty `old`. -/
def replaceFirst (old new : GoString) : GoString → GoString
  | [] => []
  | c :: cs =>
    if old.isPrefixOf (c :: cs) then new ++ (c :: cs).drop old.length
    else c :: replaceFirst old new cs

/-- The function `BuildMinioPath`. -/
def BuildMinioPath (minioConfigPath serviceID : GoString) : GoString :=
  if Contains minioConfigPath serviceIdToken then
    replaceFirst serviceIdToken serviceID minioConfigPath
  else minioConfigPath ++ '/' :: serviceID

/-- The five values returned by `CalculateQueueWithMetadata`. -/
structure QueueResult where
  queue : GoString
  size : Int
  metadata : Option MinIOMetadata
  count : Int
  err : Option SizingError
deriving DecidableEq, Repr

/-- The function `CalculateQueueWithMetadata`. -/
def CalculateQueueWithMetadata (st : Store) (minioConfigPath serviceID : GoString)
    (threshold : Int) (minQueue maxQueue : GoString) : QueueResult :=
  let minioPath := BuildMinioPath minioConfigPath serviceID
  if HasSuffix serviceID ['/'] then
    match getMinioFolderSize st minioPath with
    | .error e =>
      { queue := minQueue, size := 0, metadata := none, count := 0,
        err := some (.folderWrap e minQueue) }
    | .ok (totalSize, count) =>
      let selectedQueue := if totalSize < threshold then minQueue else maxQueue
      { queue := selectedQueue, size := totalSize,
        metadata := some { Path := minioPath, Size := totalSize, ETag := [],
                           LastModified := 0, ContentType := [], StorageClass := [],
                           UserMetadata := [] },
        count := count, err := none }
  else
    match getMinIOMetadata st minioPath with
    | .error e =>
      { queue := minQueue, size := 0, metadata := none, count := 0,
        err := some (.fileWrap e minQueue) }
    | .ok metadata =>
      if metadata.Size < threshold then
        { queue := minQueue, size := metadata.Size, metadata := some metadata,
          count := 0, err := none }
      else
        { queue := maxQueue, size := metadata.Size, metadata := some metadata,
          count := 0, err := none }

/-- The function `CalculateQueue`: queue, size and error. -/
def CalculateQueue (st : Store) (minioPath : GoString) (threshold : Int)
    (minQueue maxQueue : GoString) : GoString × Int × Option SizingError :=
  match getMinIOObjectSize st minioPath with
  | .error e => (minQueue, 0, some (.fileWrap e minQueue))
  | .ok fileSize =>
    if fileSize < threshold then (minQueue, fileSize, none)
    else (maxQueue, fileSize, none)

/-- The function `FindProvisionConfig` works on these records (struct `ConfigSpec`,
with the nested structs flattened into fields). -/
structure ConfigSpec where
  ProvisionID : GoString
  Enabled : GoString
  Minio : GoString
  Threshold : Int
  MinQueue : GoString
  MaxQueue : GoString
  CPU : GoString
  Memory : GoString
  Executor : GoString
  BuildNumber : GoString
deriving DecidableEq, Repr

/-- The function `IsProvisionEnabled`. -/
def IsProvisionEnabled (spec : ConfigSpec) : Bool := spec.Enabled = "true".toList

/-- The error of `FindProvisionConfig`: no entry has the requested provision id. -/
inductive LookupError where
  | notFound (provisionID : GoString)
deriving DecidableEq, Repr

/-- The function `FindProvisionConfig` over the entries of `config.ConfigSpecs`. -/
def FindProvisionConfig : List ConfigSpec → GoString → Except LookupError ConfigSpec
  | [], provisionID => .error (.notFound provisionID)
  | spec :: rest, provisionID =>
    if spec.ProvisionID = provisionID then .ok spec
    else FindProvisionConfig rest provisionID

/-- Value of a decimal digit, `none` for any other code point. -/
def digitValue (c : Char) : Option Nat :=
  if 48 ≤ c.toNat ∧ c.toNat ≤ 57 then some (c.toNat - 48) else none

/-- Digit loop of `strconv.Atoi`: `n = n*10 + digit`, failing on a non-digit. -/
def parseDigits : Nat → GoString → Option Nat
  | acc, [] => some acc
  | acc, c :: cs =>
    match digitValue c with
    | none => none
    | some d => parseDigits (acc * 10 + d) cs

/-- The Go function `strconv.Atoi` for a 64-bit `int`: an optional sign, at least one
decimal digit, nothing else, and a value in the `int64` range; `none` is the error. -/
def Atoi (s : GoString) : Option Int :=
  let negative := s.head? = some '-'
  let digits := if s.head? = some '-' ∨ s.head? = some '+' then s.tail else s
  if digits = [] then none
  else
    match parseDigits 0 digits with
    | none => none
    | some n =>
      let v : Int := if negative then -(n : Int) else (n : Int)
      if -(2 ^ 63) ≤ v ∧ v < 2 ^ 63 then some v else none

/-- The function `GetExecutorInt`. -/
def GetExecutorInt (executorStr : GoString) : Option Int := Atoi executorStr

/-! ## services/template.go -/

/-- The token `SERVICE_ID_PLACEHOLDER`. -/
def servicePlaceholder : GoString := "SERVICE_ID_PLACEHOLDER".toList

/-- The token `BUILD_NUMBER`. -/
def buildToken : GoString := "BUILD_NUMBER".toList

/-- The function `ApplyServiceIDLabelsToYAML`. -/
def ApplyServiceIDLabelsToYAML (yamlStr serviceID : GoString) : GoString :=
  let k8sSafeName := TrimRightSlash serviceID
  ReplaceAll yamlStr servicePlaceholder k8sSafeName

/-- The replacement text computed by `ApplyServiceIDLabelsWithUIDToYAML`. -/
def uidReplacement (serviceID category uid : GoString) : GoString :=
  let k8sSafeName := TrimRightSlash serviceID
  if uid ≠ [] then k8sSafeName ++ '-' :: category ++ '-' :: uid
  else k8sSafeName ++ '-' :: category

/-- The function `ApplyServiceIDLabelsWithUIDToYAML`. -/
def ApplyServiceIDLabelsWithUIDToYAML (yamlStr serviceID category uid : GoString) : GoString :=
  ReplaceAll yamlStr servicePlaceholder (uidReplacement serviceID category uid)

/-- The function `ApplyBuildNumberToYAML`. -/
def ApplyBuildNumberToYAML (yamlStr buildNumber : GoString) : GoString :=
  ReplaceAll yamlStr buildToken buildNumber

/-- A line whose trimmed content starts with `key`. -/
def startsWithKey (key : String) (line : GoString) : Bool :=
  HasPrefix (TrimSpace line) key.toList

/-- The line written by `UpdateExecutorInstances`. -/
def instancesLine (line : GoString) (instances : Int) : GoString :=
  RepeatSpace (indentWidth line) ++ "instances: ".toList ++ fmtInt instances

/-- The test of source line 102 for the start of a sibling section: trimmed content
starting with `driver:`, `sparkConf:` or `batchScheduler:`. -/
def sectionEnd (line : GoString) : Bool :=
  startsWithKey "driver:" line || startsWithKey "sparkConf:" line
    || startsWithKey "batchScheduler:" line

/-- The loop of `UpdateExecutorInstances`; the flag is `inExecutorSection`. -/
def instancesScan (instances : Int) : Bool → List GoString → List GoString
  | _, [] => []
  | inExecutorSection, line :: rest =>
    if startsWithKey "executor:" line then line :: instancesScan instances true rest
    else
      let inSection :=
        if inExecutorSection && sectionEnd line then false else inExecutorSection
      if inSection && startsWithKey "instances:" line then
        instancesLine line instances :: rest
      else line :: instancesScan instances inSection rest

/-- The function `UpdateExecutorInstances`. -/
def UpdateExecutorInstances (yamlStr : GoString) (instances : Int) : GoString :=
  JoinLines (instancesScan instances false (SplitLines yamlStr))

/-- The value of `inExecutorSection` after the loop of `UpdateExecutorInstances` has
passed the given lines without rewriting one. -/
def sectionState : Bool → List GoString → Bool
  | b, [] => b
  | b, l :: ls =>
    sectionState
      (if startsWithKey "executor:" l then true
       else if b && sectionEnd l then false else b) ls

/-- The Go builtin `copy(dst, src)`: the first `min(len dst, len src)` elements of
`dst` are overwritten. -/
def goCopy {α : Type} (dst src : List α) : List α :=
  src.take dst.length ++ dst.drop src.length

/-- The slice built at an insertion point of `ApplySparkFileCountToYAML`:
`make([]string, len(lines)+1)`, `copy(newLines, lines[:k])`, `newLines[k] = entry`,
`append(newLines, lines[k:]...)`. -/
def insertEntry (lines : List GoString) (k : Nat) (entry : GoString) : List GoString :=
  let newLines := List.replicate (lines.length + 1) ([] : GoString)
  let newLines := goCopy newLines (lines.take k)
  let newLines := newLines.set k entry
  newLines ++ lines.drop k

/-- The line `spark.file.count: <count>` behind the given indentation. -/
def fileCountLine (indent : GoString) (count : Int) : GoString :=
  indent ++ "spark.file.count: ".toList ++ fmtInt count

/-- Outcome of the first loop of `ApplySparkFileCountToYAML`: it either returns the
new line slice from inside the loop, or ends with the flag `found`. -/
def fileCountLoop (lines : List GoString) (count : Int) :
    Nat → Bool → List GoString → Option (List GoString) × Bool
  | _, found, [] => (none, found)
  | i, found, line :: rest =>
    if startsWithKey "spark.file.count:" line then (none, true)
    else if found && decide (i > 0) &&
        (startsWithKey "sparkConf:" (lines.getD (i - 1) []) ||
          startsWithKey "spark." (lines.getD (i - 1) [])) then
      (some (insertEntry lines i (fileCountLine (RepeatSpace (indentWidth line)) count)), found)
    else fileCountLoop lines count (i + 1) (found || startsWithKey "sparkConf:" line) rest

/-- The second loop of `ApplySparkFileCountToYAML`, run when `found` is false. -/
def fileCountFallback (lines : List GoString) (count : Int) :
    Nat → List GoString → Option (List GoString)
  | _, [] => none
  | i, line :: rest =>
    if startsWithKey "sparkConf:" line then
      some (insertEntry lines (i + 1) (fileCountLine (RepeatSpace 8) count))
    else fileCountFallback lines count (i + 1) rest

/-- The function `ApplySparkFileCountToYAML`. -/
def ApplySparkFileCountToYAML (yamlStr : GoString) (count : Int) : GoString :=
  let lines := SplitLines yamlStr
  match fileCountLoop lines count 0 false lines with
  | (some newLines, _) => JoinLines newLines
  | (none, found) =>
    if found then yamlStr
    else
      match fileCountFallback lines count 0 lines with
      | some newLines => JoinLines newLines
      | none => yamlStr

/-! ## handlers/create.go and handlers/reference.go -/

/-- The struct `CreateRequest`. -/
structure CreateRequest where
  ProvisionID : GoString
  ServiceID : GoString
  Category : GoString
  Region : GoString
  UID : GoString
deriving DecidableEq, Repr

/-- The struct `ReferenceRequest`. -/
structure ReferenceRequest where
  ProvisionID : GoString
  ServiceID : GoString
  Category : GoString
  UID : GoString
deriving DecidableEq, Repr

/-- The line written by `updateQueueInYAML`. -/
def queueLine (line queue : GoString) : GoString :=
  RepeatSpace (indentWidth line) ++ "queue: root.".toList ++ queue

/-- The loop of `updateQueueInYAML`. -/
def queueScan (queue : GoString) : List GoString → List GoString
  | [] => []
  | line :: rest =>
    if startsWithKey "queue:" line then queueLine line queue :: rest
    else line :: queueScan queue rest

/-- The function `updateQueueInYAML`. -/
def updateQueueInYAML (yamlStr queue : GoString) : GoString :=
  JoinLines (queueScan queue (SplitLines yamlStr))

/-- The marker `yunikorn.apache.org/task-groups:`. -/
def taskGroupsMarker : GoString := "yunikorn.apache.org/task-groups:".toList

/-- The text `"name": "spark-executor"`. -/
def executorNameText : GoString := "\"name\": \"spark-executor\"".toList

/-- The text `"minMember":`. -/
def minMemberText : GoString := "\"minMember\":".toList

/-- The condition under which `updateExecutorMinMemberInYAML` leaves the task-groups
section (the parenthesised part of source line 558). -/
def endsTaskGroups (trimmed : GoString) : Bool :=
  HasPrefix trimmed "serviceAccount:".toList ||
    (!HasPrefix trimmed ['|'] && !HasPrefix trimmed ['['] && trimmed != [] &&
      !HasPrefix trimmed ['-'] && !HasPrefix trimmed ['{'] && !HasPrefix trimmed ['}'])

/-- The line written by `updateExecutorMinMemberInYAML`. -/
def minMemberLine (line : GoString) (minMember : Int) : GoString :=
  RepeatSpace (indentWidth line) ++ "\"minMember\": ".toList ++ fmtInt minMember ++ [',']

/-- The loop of `updateExecutorMinMemberInYAML`; the flags are `inTaskGroups` and
`taskGroupStarted`. -/
def minMemberScan (minMember : Int) : Bool → Bool → List GoString → List GoString
  | _, _, [] => []
  | inTaskGroups, taskGroupStarted, line :: rest =>
    let trimmed := TrimSpace line
    if Contains trimmed taskGroupsMarker then
      line :: minMemberScan minMember true taskGroupStarted rest
    else
      let leave := inTaskGroups && endsTaskGroups trimmed
      let inTG := if leave then false else inTaskGroups
      let started := if leave then false else taskGroupStarted
      let started := if inTG && Contains trimmed executorNameText then true else started
      if started && Contains trimmed minMemberText then
        minMemberLine line minMember :: rest
      else line :: minMemberScan minMember inTG started rest

/-- The function `updateExecutorMinMemberInYAML`. -/
def updateExecutorMinMemberInYAML (yamlStr : GoString) (minMember : Int) : GoString :=
  JoinLines (minMemberScan minMember false false (SplitLines yamlStr))

/-- The manifest that `handleDisabledProvision` logs and submits. -/
def disabledCreateManifest (req : CreateRequest) (provisionConfig : ConfigSpec)
    (yamlTemplate : GoString) : GoString :=
  let yamlTemplate := ApplyServiceIDLabelsToYAML yamlTemplate req.ServiceID
  ApplyBuildNumberToYAML yamlTemplate provisionConfig.BuildNumber

/-- The manifest that `handleReferenceDisabled` sends back. -/
def disabledReferenceManifest (req : ReferenceRequest) (provisionConfig : ConfigSpec)
    (yamlTemplate : GoString) : GoString :=
  let yamlTemplate := ApplyBuildNumberToYAML yamlTemplate provisionConfig.BuildNumber
  ApplyServiceIDLabelsToYAML yamlTemplate req.ServiceID

/-- The error that ends an enabled flow: the configured executor count is not an
integer (`handleExecutorConfigError` / `handleReferenceExecutorError`). -/
inductive FlowError where
  | executorConfig (executorStr : GoString)
deriving DecidableEq, Repr

/-- The manifest that `handleEnabledProvision` logs and submits (source lines 334-391),
or the executor configuration error that ends the flow. -/
def enabledCreateManifest (st : Store) (req : CreateRequest) (provisionConfig : ConfigSpec)
    (yamlTemplate : GoString) : Except FlowError GoString :=
  let r := CalculateQueueWithMetadata st provisionConfig.Minio req.ServiceID
    provisionConfig.Threshold provisionConfig.MinQueue provisionConfig.MaxQueue
  let yamlTemplate :=
    if r.count > 0 then ApplySparkFileCountToYAML yamlTemplate r.count else yamlTemplate
  let yamlTemplate := updateQueueInYAML yamlTemplate r.queue
  match GetExecutorInt provisionConfig.Executor with
  | none => .error (.executorConfig provisionConfig.Executor)
  | some executorMinMember =>
    let yamlTemplate := updateExecutorMinMemberInYAML yamlTemplate executorMinMember
    let yamlTemplate := UpdateExecutorInstances yamlTemplate executorMinMember
    let yamlTemplate := ApplyBuildNumberToYAML yamlTemplate provisionConfig.BuildNumber
    .ok (ApplyServiceIDLabelsWithUIDToYAML yamlTemplate req.ServiceID req.Category req.UID)

/-- The manifest that `handleReferenceEnabled` sends back (source lines 206-266), or the
executor configuration error that ends the flow. -/
def enabledReferenceManifest (st : Store) (req : ReferenceRequest)
    (provisionConfig : ConfigSpec) (yamlTemplate : GoString) : Except FlowError GoString :=
  let r := CalculateQueueWithMetadata st provisionConfig.Minio req.ServiceID
    provisionConfig.Threshold provisionConfig.MinQueue provisionConfig.MaxQueue
  let yamlTemplate :=
    if r.count > 0 then ApplySparkFileCountToYAML yamlTemplate r.count else yamlTemplate
  let yamlTemplate := updateQueueInYAML yamlTemplate r.queue
  match Atoi provisionConfig.Executor with
  | none => .error (.executorConfig provisionConfig.Executor)
  | some executorMinMember =>
    let yamlTemplate := updateExecutorMinMemberInYAML yamlTemplate executorMinMember
    let yamlTemplate := UpdateExecutorInstances yamlTemplate executorMinMember
    let yamlTemplate := ApplyBuildNumberToYAML yamlTemplate provisionConfig.BuildNumber
    .ok (ApplyServiceIDLabelsWithUIDToYAML yamlTemplate req.ServiceID req.Category req.UID)

/-- Steps 6-7 of `CreateSparkApplication`: the manifest of the create flow once the
config entry and the template are loaded. -/
def createFlowManifest (st : Store) (req : CreateRequest) (provisionConfig : ConfigSpec)
    (yamlTemplate : GoString) : Except FlowError GoString :=
  if !IsProvisionEnabled provisionConfig then
    .ok (disabledCreateManifest req provisionConfig yamlTemplate)
  else enabledCreateManifest st req provisionConfig yamlTemplate

/-- Steps 4-5 of `GetSparkReference`: the manifest of the reference flow once the config
entry and the template are loaded. -/
def referenceFlowManifest (st : Store) (req : ReferenceRequest) (provisionConfig : ConfigSpec)
    (yamlTemplate : GoString) : Except FlowError GoString :=
  if !IsProvisionEnabled provisionConfig then
    .ok (disabledReferenceManifest req provisionConfig yamlTemplate)
  else enabledReferenceManifest st req provisionConfig yamlTemplate

/-! ## services/k8s.go -/

/-- The parsed manifest (`unstructured.Unstructured`), reduced to the fields the
submitter reads or writes; `ns` is `metadata.namespace` and `body` stands for the rest of the document.
An absent `metadata.name` or `metadata.namespace` reads as the empty string. -/
structure Resource where
  apiVersion : GoString
  kind : GoString
  name : GoString
  ns : GoString
  body : GoString
deriving DecidableEq, Repr

/-- The struct `CreateResult`. -/
structure CreateResult where
  Name : GoString
  Namespace : GoString
deriving DecidableEq, Repr

/-- A request sent to the control plane. The submitter contains calls of `Get`, `Delete`
and `Create` only. -/
inductive Call where
  | get (name ns : GoString)
  | delete (existing : Resource)
  | create (u : Resource)
deriving DecidableEq, Repr

/-- Why `Get` returned an error: the resource does not exist, or the request itself
failed (connectivity, authorization). -/
inductive GetFailure where
  | notFound
  | unavailable (cause : GoString)
deriving DecidableEq, Repr

/-- The control plane and the libraries around it: whether `initK8sClient` succeeds, the
YAML parser, and the answers of the client, which may depend on the calls issued so far. -/
structure ControlPlane where
  initError : Option GoString
  parse : GoString → Except GoString Resource
  get : List Call → GoString → GoString → Except GetFailure Resource
  delete : List Call → Resource → Option GoString
  create : List Call → Resource → Option GoString

/-- Errors returned by `CreateSparkApplicationCRFromYAML`. -/
inductive SubmitError where
  | clientInit (cause : GoString)
  | yamlParse (cause : GoString)
  | noName
  | deleteFailed (cause : GoString)
  | createFailed (cause : GoString)
deriving DecidableEq, Repr

/-- The call `u.SetGroupVersionKind(...)` with the fixed SparkApplication identity. -/
def setSparkGVK (u : Resource) : Resource :=
  { u with apiVersion := "sparkoperator.k8s.io/v1beta2".toList,
           kind := "SparkApplication".toList }

/-- The function `CreateSparkApplicationCRFromYAML`: its result and the calls it sent to
the control plane, in order. -/
def CreateSparkApplicationCRFromYAML (cp : ControlPlane) (yamlStr : GoString) :
    Except SubmitError CreateResult × List Call :=
  match cp.initError with
  | some e => (.error (.clientInit e), [])
  | none =>
    match cp.parse yamlStr with
    | .error e => (.error (.yamlParse e), [])
    | .ok u =>
      let u := setSparkGVK u
      let name := u.name
      if name = [] then (.error .noName, [])
      else
        let ns := if u.ns = [] then "default".toList else u.ns
        let u := if u.ns = [] then { u with ns := ns } else u
        let calls := [Call.get name ns]
        match cp.get [] name ns with
        | .ok existing =>
          match cp.delete calls existing with
          | some e => (.error (.deleteFailed e), calls ++ [Call.delete existing])
          | none =>
            let calls := calls ++ [Call.delete existing]
            match cp.create calls u with
            | some e => (.error (.createFailed e), calls ++ [Call.create u])
            | none => (.ok { Name := name, Namespace := ns }, calls ++ [Call.create u])
        | .error _ =>
          match cp.create calls u with
          | some e => (.error (.createFailed e), calls ++ [Call.create u])
          | none => (.ok { Name := name, Namespace := ns }, calls ++ [Call.create u])

/-! ## Request handlers -/

/-- The call `c.ShouldBindJSON(&req)` of `CreateSparkApplication`, on a body that has been
decoded into the five string fields (an absent key is the empty string): `true` when
binding fails. Every field of `CreateRequest` carries the tag `binding:"required"`
(types.go), which rejects the empty string. -/
def ShouldBindJSON (req : CreateRequest) : Bool :=
  req.ProvisionID = [] || req.ServiceID = [] || req.Category = [] || req.Region = []
    || req.UID = []

/-- The function `validateRequest`: `true` when the request is rejected. -/
def validateRequest (req : CreateRequest) : Bool :=
  req.ProvisionID = [] || req.ServiceID = [] || req.Category = [] || req.Region = []

/-- The function `validateReferenceRequest`: `true` when the request is rejected. -/
def validateReferenceRequest (req : ReferenceRequest) : Bool :=
  req.ProvisionID = [] || req.ServiceID = [] || req.Category = [] || req.UID = []

/-- What the handlers read besides the request: `LoadConfig`, `LoadTemplateRaw` (whose
file reader is not part of the sources and is taken as given), the object store and the
control plane. -/
structure Env where
  loadConfig : Except GoString (List ConfigSpec)
  loadTemplate : GoString → Except GoString GoString
  store : Store
  controlPlane : ControlPlane

/-- The error responses of the two handlers. -/
inductive HandlerError where
  | binding
  | validation
  | configLoad (cause : GoString)
  | provisionConfig (e : LookupError)
  | templateLoad (cause : GoString)
  | executorConfig (e : FlowError)
  | k8s (e : SubmitError)
deriving DecidableEq, Repr

/-- The handler `CreateSparkApplication` on a decoded request body: its response and the
calls sent to the control plane. Binding comes first, then `validateRequest`. -/
def CreateSparkApplication (env : Env) (req : CreateRequest) :
    Except HandlerError CreateResult × List Call :=
  if ShouldBindJSON req then (.error .binding, [])
  else if validateRequest req then (.error .validation, [])
  else
    match env.loadConfig with
    | .error e => (.error (.configLoad e), [])
    | .ok config =>
      match FindProvisionConfig config req.ProvisionID with
      | .error e => (.error (.provisionConfig e), [])
      | .ok provisionConfig =>
        match env.loadTemplate req.ProvisionID with
        | .error e => (.error (.templateLoad e), [])
        | .ok yamlTemplate =>
          match createFlowManifest env.store req provisionConfig yamlTemplate with
          | .error e => (.error (.executorConfig e), [])
          | .ok manifest =>
            match CreateSparkApplicationCRFromYAML env.controlPlane manifest with
            | (.error e, calls) => (.error (.k8s e), calls)
            | (.ok result, calls) => (.ok result, calls)

/-- The handler `GetSparkReference`: the YAML it sends back, or its error response. -/
def GetSparkReference (env : Env) (req : ReferenceRequest) : Except HandlerError GoString :=
  if validateReferenceRequest req then .error .validation
  else
    match env.loadTemplate req.ProvisionID with
    | .error e => .error (.templateLoad e)
    | .ok yamlTemplate =>
      match env.loadConfig with
      | .error e => .error (.configLoad e)
      | .ok config =>
        match FindProvisionConfig config req.ProvisionID with
        | .error e => .error (.provisionConfig e)
        | .ok provisionConfig =>
          match referenceFlowManifest env.store req provisionConfig yamlTemplate with
          | .error e => .error (.executorConfig e)
          | .ok manifest => .ok manifest

/-! ## Executor section, in the words of the specification -/

/-- The line starts a sibling section of the executor section: its trimmed content starts
with `driver:`, `sparkConf:` or `batchScheduler:`. -/
def StartsSiblingSection (l : GoString) : Prop :=
  HasPrefix (TrimSpace l) "driver:".toList = true ∨
  HasPrefix (TrimSpace l) "sparkConf:".toList = true ∨
  HasPrefix (TrimSpace l) "batchScheduler:".toList = true

instance (l : GoString) : Decidable (StartsSiblingSection l) := by
  unfold StartsSiblingSection
  infer_instance

/-- The lines `pre` end inside an executor section: one of them has trimmed content
starting with `executor:` and no later line of `pre` starts a sibling section. -/
def InExecutorSection (pre : List GoString) : Prop :=
  ∃ a e b, pre = a ++ e :: b ∧ HasPrefix (TrimSpace e) "executor:".toList = true ∧
    ∀ l ∈ b, ¬ StartsSiblingSection l

/-! ## Indentation, in the words of the specification -/

/-- The leading spaces of a line: its longest prefix made of space characters. -/
def leadingSpaces (line : GoString) : GoString := line.takeWhile (fun c => c == ' ')

/-! ## Occurrences of a token, in the words of the specification -/

/-- The text made of the given segments with `sep` written between neighbours. -/
def joinWith (sep : GoString) : List GoString → GoString
  | [] => []
  | [s] => s
  | s :: t :: rest => s ++ sep ++ joinWith sep (t :: rest)

/-- No proper suffix of the token is a prefix of it, so two occurrences of the token in
a text never overlap. -/
def Borderless (p : GoString) : Prop :=
  ∀ k, k < p.length → 0 < k → (p.drop k).isPrefixOf p = false

instance (p : GoString) : Decidable (Borderless p) := by
  unfold Borderless; infer_instance

/-! ## Mutation orders, in the words of the specification -/

/-- The six mutations in the order queue assignment, gang-scheduling sizing, executor
instance count, file-count annotation (when `count > 0`), identity labeling, build
stamping. -/
def mutationsInClaimedOrder (template queue : GoString) (count executors : Int)
    (buildNumber serviceID category uid : GoString) : GoString :=
  let y := updateQueueInYAML template queue
  let y := updateExecutorMinMemberInYAML y executors
  let y := UpdateExecutorInstances y executors
  let y := if count > 0 then ApplySparkFileCountToYAML y count else y
  let y := ApplyServiceIDLabelsWithUIDToYAML y serviceID category uid
  ApplyBuildNumberToYAML y buildNumber

/-- The six mutations in the order file-count annotation (when `count > 0`), queue
assignment, gang-scheduling sizing, executor instance count, build stamping, identity
labeling. -/
def mutationsInFlowOrder (template queue : GoString) (count executors : Int)
    (buildNumber serviceID category uid : GoString) : GoString :=
  let y := if count > 0 then ApplySparkFileCountToYAML template count else template
  let y := updateQueueInYAML y queue
  let y := updateExecutorMinMemberInYAML y executors
  let y := UpdateExecutorInstances y executors
  let y := ApplyBuildNumberToYAML y buildNumber
  ApplyServiceIDLabelsWithUIDToYAML y serviceID category uid

/-! ## Decimal integers, in the words of the specification -/

/-- The ten decimal digits. -/
def decimalDigits : GoString := "0123456789".toList

/-- The text without its sign, if it starts with `+` or `-`. -/
def unsignedPart : GoString → GoString
  | '+' :: r => r
  | '-' :: r => r
  | s => s

/-- A decimal integer: an optional sign followed by one or more decimal digits. -/
def IsDecimalInteger (s : GoString) : Bool :=
  unsignedPart s != [] && (unsignedPart s).all (fun c => decimalDigits.contains c)

/-- The number a decimal integer denotes. -/
def decimalValue (s : GoString) : Int :=
  let v : Nat := (unsignedPart s).foldl (fun acc c => acc * 10 + decimalDigits.indexOf c) 0
  if s.head? = some '-' then -(v : Int) else (v : Int)

/-- The executor count string denotes an integer that a 64-bit `int` can hold. -/
def ValidExecutorCount (s : GoString) : Prop :=
  IsDecimalInteger s = true ∧ -(2 ^ 63) ≤ decimalValue s ∧ decimalValue s < 2 ^ 63

/-! ## Submission, in the words of the specification -/

/-- The namespace a manifest is submitted to: its own, or `default` if it gives none. -/
def submittedNamespace (u : Resource) : GoString :=
  if u.ns = [] then "default".toList else u.ns

/-- The resource that is created: the parsed manifest with the SparkApplication identity
and the submitted namespace. -/
def submittedResource (u : Resource) : Resource :=
  { u with apiVersion := "sparkoperator.k8s.io/v1beta2".toList,
           kind := "SparkApplication".toList, ns := submittedNamespace u }

/-! ## Line-wise difference, in the words of the specification -/

/-- The two texts have the same number of lines and differ in at most one of them: there
is a line number such that all other lines coincide. -/
def DiffersInAtMostOneLine (a b : GoString) : Prop :=
  (SplitLines a).length = (SplitLines b).length ∧
    ∃ i : Nat, ∀ j : Nat, j ≠ i → (SplitLines a)[j]? = (SplitLines b)[j]?

/-! ## Sample manifests -/

/-- A manifest whose task-groups annotation is a literal block scalar holding a JSON
array written one key per line; `n` is the executor group's `minMember`. -/
def blockScalarManifest (n : Int) : GoString :=
  JoinLines
    [ "metadata:".toList,
      "  annotations:".toList,
      "    yunikorn.apache.org/task-groups: |".toList,
      "      [".toList,
      "        \x7b".toList,
      "          \"name\": \"spark-driver\",".toList,
      "          \"minMember\": 1,".toList,
      "          \"minResource\": \x7b\"cpu\": \"1\"\x7d".toList,
      "        \x7d,".toList,
      "        \x7b".toList,
      "          \"name\": \"spark-executor\",".toList,
      "          \"minMember\": ".toList ++ fmtInt n ++ [','],
      "          \"minResource\": \x7b\"cpu\": \"1\"\x7d".toList,
      "        \x7d".toList,
      "      ]".toList,
      "spec:".toList,
      "  executor:".toList,
      "    instances: 1".toList ]

/-! ## Specification-side notions -/

/-- Sizes of the listed objects that are counted: those with `Size > 0`. -/
def positiveSizes (objs : List ObjectInfo) : List Int :=
  (objs.filter (fun o => decide (o.Size > 0))).map (fun o => o.Size)

/-- A store with credentials whose `StatObject` answers every request with an object of
the given size and whose listings are the given objects. -/
def sampleStore (size : Int) (objs : List ObjectInfo) : Store :=
  { accessKey := "minio".toList, secretKey := "secret".toList, clientOk := true,
    statObject := fun _ _ => .ok (ObjectInfo.ofSize size),
    listObjects := fun _ _ => objs }

/-- A store with credentials in which no object exists: `StatObject` fails and every
listing is empty. -/
def emptyStore : Store :=
  { accessKey := "minio".toList, secretKey := "secret".toList, clientOk := true,
    statObject := fun _ _ => .error "The specified key does not exist.".toList,
    listObjects := fun _ _ => [] }

/-- A config entry with threshold 1000, queues `small` / `large` and build number `42`,
for the given `enabled` and executor strings. -/
def sampleConfig (enabled executor : String) : ConfigSpec :=
  { ProvisionID := "p2".toList, Enabled := enabled.toList,
    Minio := "bkt/<<service_id>>".toList, Threshold := 1000,
    MinQueue := "small".toList, MaxQueue := "large".toList, CPU := "1".toList,
    Memory := "2".toList, Executor := executor.toList, BuildNumber := "42".toList }

/-- A create request for the given workload id, with category `cat` and uid `u7`. -/
def sampleCreate (serviceID : String) : CreateRequest :=
  { ProvisionID := "p2".toList, ServiceID := serviceID.toList, Category := "cat".toList,
    Region := "ic".toList, UID := "u7".toList }

/-- A reference request for the given workload id, with category `cat` and uid `u7`. -/
def sampleReference (serviceID : String) : ReferenceRequest :=
  { ProvisionID := "p2".toList, ServiceID := serviceID.toList, Category := "cat".toList,
    UID := "u7".toList }

/-- A control plane that parses every manifest to a resource named `job` without
namespace, in which `job` does not exist yet and every request succeeds. -/
def sampleControlPlane : ControlPlane :=
  { initError := none,
    parse := fun y => .ok { apiVersion := [], kind := [], name := "job".toList, ns := [],
                            body := y },
    get := fun _ _ _ => .error .notFound,
    delete := fun _ _ => none,
    create := fun _ _ => none }

/-- An environment holding one config entry and one template, over `emptyStore`. -/
def sampleEnv (cfg : ConfigSpec) (template : String) (cp : ControlPlane) : Env :=
  { loadConfig := .ok [cfg], loadTemplate := fun _ => .ok template.toList,
    store := emptyStore, controlPlane := cp }

/-- A control plane that parses every manifest to a resource with the given name and
namespace and gives fixed answers to `Get`, `Delete` and `Create`. -/
def controlPlaneWith (name ns : String) (getAnswer : Except GetFailure Resource)
    (deleteAnswer createAnswer : Option GoString) : ControlPlane :=
  { initError := none,
    parse := fun y => .ok { apiVersion := [], kind := [], name := name.toList,
                            ns := ns.toList, body := y },
    get := fun _ _ _ => getAnswer,
    delete := fun _ _ => deleteAnswer,
    create := fun _ _ => createAnswer }

/-- A SparkApplication named `job` that already exists in namespace `default`. -/
def existingJob : Resource :=
  { apiVersion := "sparkoperator.k8s.io/v1beta2".toList, kind := "SparkApplication".toList,
    name := "job".toList, ns := "default".toList, body := "old".toList }

/-! ## Tier selection -/

/-- C1: whenever sizing succeeds with size `s`, `CalculateQueueWithMetadata` (folder
branch and single-object branch) and `CalculateQueue` select `minQueue` if `s < t` and
`maxQueue` otherwise, report no error and return `s` as the size; in particular
`s = t` selects `maxQueue`. -/
theorem tier_selection (st : Store) (cfgPath serviceID minioPath : GoString) (t : Int)
    (minQueue maxQueue : GoString) :
    (∀ s c, HasSuffix serviceID ['/'] = true →
        getMinioFolderSize st (BuildMinioPath cfgPath serviceID) = .ok (s, c) →
        (CalculateQueueWithMetadata st cfgPath serviceID t minQueue maxQueue).queue
            = (if s < t then minQueue else maxQueue) ∧
        (CalculateQueueWithMetadata st cfgPath serviceID t minQueue maxQueue).size = s ∧
        (CalculateQueueWithMetadata st cfgPath serviceID t minQueue maxQueue).err = none) ∧
    (∀ m, HasSuffix serviceID ['/'] = false →
        getMinIOMetadata st (BuildMinioPath cfgPath serviceID) = .ok m →
        (CalculateQueueWithMetadata st cfgPath serviceID t minQueue maxQueue).queue
            = (if m.Size < t then minQueue else maxQueue) ∧
        (CalculateQueueWithMetadata st cfgPath serviceID t minQueue maxQueue).size = m.Size ∧
        (CalculateQueueWithMetadata st cfgPath serviceID t minQueue maxQueue).err = none) ∧
    (∀ s, getMinIOObjectSize st minioPath = .ok s →
        CalculateQueue st minioPath t minQueue maxQueue
            = (if s < t then minQueue else maxQueue, s, none)) ∧
    (if t < t then minQueue else maxQueue) = maxQueue := by
  refine ⟨?_, ?_, ?_, ?_⟩
  · intro s c hs hf
    simp [CalculateQueueWithMetadata, hs, hf]
  · intro m hs hf
    simp only [CalculateQueueWithMetadata, hs, hf]
    by_cases h : m.Size < t <;> simp [h]
  · intro s hf
    simp only [CalculateQueue, hf]
    by_cases h : s < t <;> simp [h]
  · simp

/-- C1, evaluated: threshold 1000 with queues `small` / `large`; a single object of
size 500 selects `small`, and a folder whose objects sum to 1500 selects `large`. -/
theorem tier_selection_witness :
    (CalculateQueueWithMetadata (sampleStore 500 []) "bkt/<<service_id>>/in".toList
        "svc-002".toList 1000 "small".toList "large".toList).queue = "small".toList ∧
    (CalculateQueueWithMetadata (sampleStore 0 [ObjectInfo.ofSize 1000, ObjectInfo.ofSize 500])
        "bkt/<<service_id>>".toList "svc-002/".toList 1000 "small".toList "large".toList).queue
      = "large".toList ∧
    CalculateQueue (sampleStore 1000 []) "bkt/obj".toList 1000 "small".toList "large".toList
      = ("large".toList, 1000, none) := by
  have h1 := (tier_selection (sampleStore 500 []) "bkt/<<service_id>>/in".toList
    "svc-002".toList [] 1000 "small".toList "large".toList).2.1
      { Path := "bkt/svc-002/in".toList, Size := 500, ETag := [], LastModified := 0,
        ContentType := [], StorageClass := [], UserMetadata := [] }
      (by decide) rfl
  have h2 := (tier_selection (sampleStore 0 [ObjectInfo.ofSize 1000, ObjectInfo.ofSize 500])
    "bkt/<<service_id>>".toList "svc-002/".toList [] 1000 "small".toList "large".toList).1
      1500 2 (by decide) rfl
  have h3 := (tier_selection (sampleStore 1000 []) [] [] "bkt/obj".toList 1000
    "small".toList "large".toList).2.2.1 1000 rfl
  exact ⟨h1.1, h2.1, h3⟩

/-! ## Folder aggregation -/

theorem wrap64_of_range (x : Int) (h0 : 0 ≤ x) (h1 : x < 2 ^ 63) : wrap64 x = x := by
  unfold wrap64
  rw [Int.emod_eq_of_lt (by omega) (by omega)]
  omega

theorem positiveSizes_cons (o : ObjectInfo) (os : List ObjectInfo) :
    positiveSizes (o :: os)
      = if o.Size > 0 then o.Size :: positiveSizes os else positiveSizes os := by
  unfold positiveSizes
  by_cases h : o.Size > 0 <;> simp [List.filter_cons, h]

theorem positiveSizes_sum_nonneg (objs : List ObjectInfo) : 0 ≤ (positiveSizes objs).sum := by
  induction objs with
  | nil => simp [positiveSizes]
  | cons o os ih =>
    rw [positiveSizes_cons]
    by_cases h : o.Size > 0
    · simp only [h, if_true, List.sum_cons]; omega
    · simp only [h, if_false]; exact ih

theorem folderLoop_exact (objs : List ObjectInfo) :
    ∀ total count : Int, (∀ o ∈ objs, o.Err = none) → 0 ≤ count → count ≤ total →
      total + (positiveSizes objs).sum < 2 ^ 63 →
      folderLoop objs total count
        = .ok (total + (positiveSizes objs).sum, count + (positiveSizes objs).length) := by
  induction objs with
  | nil => intro total count _ _ _ _; simp [folderLoop, positiveSizes]
  | cons o os ih =>
    intro total count herr hc hct hsum
    have ho : o.Err = none := herr o (List.mem_cons_self _ _)
    have hos : ∀ x ∈ os, x.Err = none := fun x hx => herr x (List.mem_cons_of_mem _ hx)
    have hnn := positiveSizes_sum_nonneg os
    rw [positiveSizes_cons] at hsum ⊢
    unfold folderLoop
    simp only [ho]
    by_cases h : o.Size > 0
    · simp only [h, if_true, List.sum_cons, List.length_cons] at hsum ⊢
      rw [wrap64_of_range (total + o.Size) (by omega) (by omega),
        wrap64_of_range (count + 1) (by omega) (by omega),
        ih (total + o.Size) (count + 1) hos (by omega) (by omega) (by omega)]
      congr 2
      · omega
      · push_cast; omega
    · simp only [h, if_false] at hsum ⊢
      exact ih total count hos hc hct hsum

/-- C2 as stated fails: two listed objects of `2^62` bytes each sum to `2^63`, but the
`int64` accumulator wraps and the function returns total `-2^63` (count 2). -/
theorem folder_aggregation_overflow :
    (∀ o ∈ [ObjectInfo.ofSize (2 ^ 62), ObjectInfo.ofSize (2 ^ 62)], o.Err = none) ∧
    (positiveSizes [ObjectInfo.ofSize (2 ^ 62), ObjectInfo.ofSize (2 ^ 62)]).sum = 2 ^ 63 ∧
    getMinioFolderSize (sampleStore 0 [ObjectInfo.ofSize (2 ^ 62), ObjectInfo.ofSize (2 ^ 62)])
        "bkt/data/".toList = .ok (-(2 ^ 63), 2) ∧
    getMinioFolderSize (sampleStore 0 [ObjectInfo.ofSize (2 ^ 62), ObjectInfo.ofSize (2 ^ 62)])
        "bkt/data/".toList ≠
      .ok ((positiveSizes [ObjectInfo.ofSize (2 ^ 62), ObjectInfo.ofSize (2 ^ 62)]).sum,
           (positiveSizes [ObjectInfo.ofSize (2 ^ 62), ObjectInfo.ofSize (2 ^ 62)]).length) := by
  refine ⟨by decide, by decide, rfl, ?_⟩
  intro h
  have h2 : getMinioFolderSize
      (sampleStore 0 [ObjectInfo.ofSize (2 ^ 62), ObjectInfo.ofSize (2 ^ 62)])
      "bkt/data/".toList = .ok (-(2 ^ 63), 2) := rfl
  rw [h2] at h
  injection h with h
  have h3 := congrArg Prod.fst h
  revert h3
  decide

/-- C2 (amended): for a store with credentials and a parsable path, if the listing
carries no error and the sizes `> 0` sum to less than `2^63`, `getMinioFolderSize`
fails with the empty-folder error exactly when no listed object has size `> 0`, and
otherwise returns the sum of the sizes `> 0` and the number of such objects. -/
theorem folder_aggregation (st : Store) (minioPath bucket pfx : GoString)
    (hkey : st.accessKey ≠ []) (hsec : st.secretKey ≠ []) (hcl : st.clientOk = true)
    (hparse : parseMinioPath minioPath = .ok (bucket, pfx))
    (herr : ∀ o ∈ st.listObjects bucket (if HasSuffix pfx ['/'] then pfx else pfx ++ ['/']),
      o.Err = none)
    (hfit : (positiveSizes (st.listObjects bucket
      (if HasSuffix pfx ['/'] then pfx else pfx ++ ['/']))).sum < 2 ^ 63) :
    getMinioFolderSize st minioPath
      = (if positiveSizes (st.listObjects bucket
            (if HasSuffix pfx ['/'] then pfx else pfx ++ ['/'])) = []
         then .error (.emptyFolder (if HasSuffix pfx ['/'] then pfx else pfx ++ ['/']))
         else .ok ((positiveSizes (st.listObjects bucket
            (if HasSuffix pfx ['/'] then pfx else pfx ++ ['/']))).sum,
            ((positiveSizes (st.listObjects bucket
            (if HasSuffix pfx ['/'] then pfx else pfx ++ ['/']))).length : Int))) := by
  generalize hp : (if HasSuffix pfx ['/'] then pfx else pfx ++ ['/']) = pfx2 at *
  generalize ho : st.listObjects bucket pfx2 = objs at *
  have hloop := folderLoop_exact objs 0 0 herr (le_refl _) (le_refl _) (by omega)
  simp only [zero_add] at hloop
  unfold getMinioFolderSize
  simp only [hkey, hsec, hcl, hparse, or_self, if_false, hp, ho, folderSizeOf, hloop]
  by_cases hl : positiveSizes objs = []
  · simp [hl]
  · have : (positiveSizes objs).length ≠ 0 := by simpa using hl
    simp [hl]

/-- C2, evaluated: sizes `[10, 10, 10, 0]` give total 30 and count 3, and a listing of
only zero-size entries fails as an empty folder. -/
theorem folder_aggregation_witness :
    getMinioFolderSize (sampleStore 0 [ObjectInfo.ofSize 10, ObjectInfo.ofSize 10,
        ObjectInfo.ofSize 10, ObjectInfo.ofSize 0]) "bkt/data/".toList = .ok (30, 3) ∧
    getMinioFolderSize (sampleStore 0 [ObjectInfo.ofSize 0, ObjectInfo.ofSize 0])
        "bkt/data".toList = .error (.emptyFolder "data/".toList) :=
  ⟨folder_aggregation (sampleStore 0 [ObjectInfo.ofSize 10, ObjectInfo.ofSize 10,
        ObjectInfo.ofSize 10, ObjectInfo.ofSize 0]) "bkt/data/".toList "bkt".toList
        "data/".toList (by decide) (by decide) rfl rfl (by decide) (by decide),
   folder_aggregation (sampleStore 0 [ObjectInfo.ofSize 0, ObjectInfo.ofSize 0])
        "bkt/data".toList "bkt".toList "data".toList (by decide) (by decide) rfl rfl
        (by decide) (by decide)⟩

/-! ## Lines of a text -/

theorem SplitLines_ne_nil (s : GoString) : SplitLines s ≠ [] := by
  cases s with
  | nil => simp [SplitLines]
  | cons c cs =>
    unfold SplitLines
    by_cases h : c = '\n'
    · simp [h]
    · simp only [h, if_false]
      cases SplitLines cs <;> simp

theorem JoinLines_cons_cons (l l2 : GoString) (ls : List GoString) :
    JoinLines (l :: l2 :: ls) = l ++ '\n' :: JoinLines (l2 :: ls) := rfl

theorem JoinLines_cons_of_ne_nil (l : GoString) (ls : List GoString) (h : ls ≠ []) :
    JoinLines (l :: ls) = l ++ '\n' :: JoinLines ls := by
  cases ls with
  | nil => exact absurd rfl h
  | cons l2 ls => rfl

theorem JoinLines_SplitLines (s : GoString) : JoinLines (SplitLines s) = s := by
  induction s with
  | nil => rfl
  | cons c cs ih =>
    unfold SplitLines
    by_cases h : c = '\n'
    · simp only [h, if_true]
      rw [JoinLines_cons_of_ne_nil _ _ (SplitLines_ne_nil cs), ih]
      rfl
    · simp only [h, if_false]
      cases hs : SplitLines cs with
      | nil => exact absurd hs (SplitLines_ne_nil cs)
      | cons l ls =>
        rw [hs] at ih
        cases ls with
        | nil =>
          simp only [JoinLines] at ih ⊢
          rw [ih]
        | cons l2 ls =>
          rw [JoinLines_cons_cons] at ih ⊢
          rw [← ih]
          rfl

theorem SplitLines_cons_of_ne (c : Char) (cs : GoString) (hc : c ≠ '\n') :
    SplitLines (c :: cs)
      = match SplitLines cs with
        | [] => [[c]]
        | l :: ls => (c :: l) :: ls := by
  rw [SplitLines]
  simp only [hc, if_false]

theorem SplitLines_line (l : GoString) (h : '\n' ∉ l) : SplitLines l = [l] := by
  induction l with
  | nil => rfl
  | cons c cs ih =>
    have hc : c ≠ '\n' := fun e => h (by simp [e])
    have hcs : '\n' ∉ cs := fun e => h (List.mem_cons_of_mem _ e)
    unfold SplitLines
    simp only [hc, if_false, ih hcs]

theorem SplitLines_append_newline (l rest : GoString) (h : '\n' ∉ l) :
    SplitLines (l ++ '\n' :: rest) = l :: SplitLines rest := by
  induction l with
  | nil => simp [SplitLines]
  | cons c cs ih =>
    have hc : c ≠ '\n' := fun e => h (by simp [e])
    have hcs : '\n' ∉ cs := fun e => h (List.mem_cons_of_mem _ e)
    rw [List.cons_append, SplitLines_cons_of_ne _ _ hc, ih hcs]

theorem SplitLines_JoinLines (ls : List GoString) (hne : ls ≠ [])
    (h : ∀ l ∈ ls, '\n' ∉ l) : SplitLines (JoinLines ls) = ls := by
  induction ls with
  | nil => exact absurd rfl hne
  | cons l ls ih =>
    cases ls with
    | nil => exact SplitLines_line l (h l (List.mem_cons_self _ _))
    | cons l2 ls =>
      rw [JoinLines_cons_cons, SplitLines_append_newline _ _ (h l (List.mem_cons_self _ _)),
        ih (by simp) (fun x hx => h x (List.mem_cons_of_mem _ hx))]

theorem SplitLines_no_newline (s : GoString) : ∀ l ∈ SplitLines s, '\n' ∉ l := by
  induction s with
  | nil => intro l hl; simp [SplitLines] at hl; simp [hl]
  | cons c cs ih =>
    intro l hl
    unfold SplitLines at hl
    by_cases h : c = '\n'
    · simp only [h, if_true, List.mem_cons] at hl
      rcases hl with hl | hl
      · simp [hl]
      · exact ih l hl
    · simp only [h, if_false] at hl
      cases hs : SplitLines cs with
      | nil => exact absurd hs (SplitLines_ne_nil cs)
      | cons l1 ls =>
        rw [hs] at hl ih
        simp only [List.mem_cons] at hl
        rcases hl with hl | hl
        · rw [hl]
          intro hm
          rcases List.mem_cons.mp hm with e | e
          · exact h e.symm
          · exact ih l1 (List.mem_cons_self _ _) e
        · exact ih l (List.mem_cons_of_mem _ hl)

theorem RepeatSpace_indentWidth (line : GoString) :
    RepeatSpace (indentWidth line) = leadingSpaces line := by
  have hsplit : leadingSpaces line ++ TrimLeftSpaces line = line :=
    List.takeWhile_append_dropWhile _ _
  have hlen : indentWidth line = (leadingSpaces line).length := by
    unfold indentWidth
    have := congrArg List.length hsplit
    rw [List.length_append] at this
    omega
  rw [hlen]
  unfold RepeatSpace
  symm
  apply List.eq_replicate_iff.mpr
  refine ⟨rfl, ?_⟩
  intro c hc
  have := List.mem_takeWhile_imp hc
  simpa using this

theorem leadingSpaces_all (line : GoString) : ∀ c ∈ leadingSpaces line, c = ' ' := by
  intro c hc
  have := List.mem_takeWhile_imp hc
  simpa using this

theorem leadingSpaces_append (sp rest : GoString) (hsp : ∀ c ∈ sp, c = ' ')
    (hrest : rest.head? ≠ some ' ') : leadingSpaces (sp ++ rest) = sp := by
  induction sp with
  | nil =>
    cases rest with
    | nil => rfl
    | cons r rs =>
      have : r ≠ ' ' := fun e => hrest (by simp [e])
      simp [leadingSpaces, List.takeWhile_cons, this]
  | cons c cs ih =>
    have hc : c = ' ' := hsp c (List.mem_cons_self _ _)
    have := ih (fun x hx => hsp x (List.mem_cons_of_mem _ hx))
    unfold leadingSpaces at this ⊢
    simp [List.takeWhile_cons, hc, this]

theorem leadingSpaces_no_newline (line : GoString) : '\n' ∉ leadingSpaces line := by
  intro h
  have := leadingSpaces_all line _ h
  revert this
  decide

/-! ## Queue assignment -/

theorem queueScan_at (queue : GoString) (pre post : List GoString) (line : GoString)
    (hpre : ∀ l ∈ pre, startsWithKey "queue:" l = false)
    (hline : startsWithKey "queue:" line = true) :
    queueScan queue (pre ++ line :: post) = pre ++ queueLine line queue :: post := by
  induction pre with
  | nil => simp [queueScan, hline]
  | cons p ps ih =>
    have hp := hpre p (List.mem_cons_self _ _)
    rw [List.cons_append, queueScan]
    simp only [hp, Bool.false_eq_true, if_false]
    rw [ih (fun l hl => hpre l (List.mem_cons_of_mem _ hl))]
    rfl

/-- C3: if the lines of the manifest are `pre ++ line :: post`, no line of `pre` has
trimmed content starting with `queue:` and `line` has, then `updateQueueInYAML` returns
the text whose lines are `pre`, then `<leading spaces of line>queue: root.<queue>`, then
`post`: earlier and later lines (later `queue:` lines included) are unchanged, and the
new line has exactly the leading spaces of the old one. For a queue name without a
newline these are the lines of the returned text. -/
theorem queue_assignment (y queue : GoString) (pre post : List GoString) (line : GoString)
    (hsplit : SplitLines y = pre ++ line :: post)
    (hpre : ∀ l ∈ pre, startsWithKey "queue:" l = false)
    (hline : startsWithKey "queue:" line = true) :
    updateQueueInYAML y queue
      = JoinLines (pre ++ (leadingSpaces line ++ "queue: root.".toList ++ queue) :: post) ∧
    leadingSpaces (leadingSpaces line ++ "queue: root.".toList ++ queue)
      = leadingSpaces line ∧
    ('\n' ∉ queue → SplitLines (updateQueueInYAML y queue)
      = pre ++ (leadingSpaces line ++ "queue: root.".toList ++ queue) :: post) := by
  have hmain : updateQueueInYAML y queue
      = JoinLines (pre ++ (leadingSpaces line ++ "queue: root.".toList ++ queue) :: post) := by
    unfold updateQueueInYAML
    rw [hsplit, queueScan_at queue pre post line hpre hline, queueLine,
      RepeatSpace_indentWidth]
  refine ⟨hmain, ?_, ?_⟩
  · rw [List.append_assoc]
    exact leadingSpaces_append _ _ (leadingSpaces_all line) (by simp)
  · intro hq
    rw [hmain]
    apply SplitLines_JoinLines _ (by simp)
    have hall := SplitLines_no_newline y
    rw [hsplit] at hall
    intro l hl
    rcases List.mem_append.mp hl with h | h
    · exact hall l (List.mem_append_left _ h)
    · rcases List.mem_cons.mp h with h | h
      · rw [h]
        intro hm
        rcases List.mem_append.mp hm with h1 | h1
        · rcases List.mem_append.mp h1 with h2 | h2
          · exact leadingSpaces_no_newline line h2
          · revert h2; decide
        · exact hq h1
      · exact hall l (List.mem_append_right _ (List.mem_cons_of_mem _ h))

/-- C3, evaluated: only the first `queue:` line is rewritten, with its two leading
spaces kept; the later `queue:` line stays. -/
theorem queue_assignment_witness :
    updateQueueInYAML "spec:\n  queue: old\n    queue: other".toList "small".toList
      = "spec:\n  queue: root.small\n    queue: other".toList :=
  (queue_assignment "spec:\n  queue: old\n    queue: other".toList "small".toList
    ["spec:".toList] ["    queue: other".toList] "  queue: old".toList
    (by decide) (by decide) (by decide)).1

/-! ## Gang-scheduling sizing -/

theorem endsTaskGroups_of_quote (t : GoString) (h : t.head? = some '"') :
    endsTaskGroups t = true := by
  cases t with
  | nil => simp at h
  | cons c cs =>
    simp only [List.head?_cons, Option.some.injEq] at h
    subst h
    simp [endsTaskGroups, HasPrefix, List.isPrefixOf]

/-- Whenever every line that contains `"minMember":` begins (after trimming) with a
double quote, as in a JSON object written one key per line, the scan rewrites nothing:
such a line closes the task-groups section before it can be matched. -/
theorem minMemberScan_key_per_line (n : Int) (lines : List GoString) :
    ∀ inTG started : Bool, (started = true → inTG = true) →
      (∀ l ∈ lines, Contains (TrimSpace l) minMemberText = true →
        (TrimSpace l).head? = some '"') →
      minMemberScan n inTG started lines = lines := by
  induction lines with
  | nil => intro _ _ _ _; rfl
  | cons line rest ih =>
    intro inTG started hinv hall
    have hrest : ∀ l ∈ rest, Contains (TrimSpace l) minMemberText = true →
        (TrimSpace l).head? = some '"' := fun l hl => hall l (List.mem_cons_of_mem _ hl)
    have hline := hall line (List.mem_cons_self _ _)
    rw [minMemberScan]
    by_cases hm : Contains (TrimSpace line) taskGroupsMarker = true
    · simp only [hm, if_true]
      rw [ih true started (fun _ => rfl) hrest]
    · simp only [hm, Bool.false_eq_true, if_false]
      by_cases hc : Contains (TrimSpace line) minMemberText = true
      · have hq := endsTaskGroups_of_quote _ (hline hc)
        cases inTG with
        | true =>
          simp only [hq, Bool.and_self, if_true, Bool.false_and, Bool.false_eq_true, if_false]
          rw [ih false false (fun h => h) hrest]
        | false =>
          have hs : started = false := by
            cases started with
            | false => rfl
            | true => exact absurd (hinv rfl) (by decide)
          subst hs
          simp only [Bool.false_and, Bool.false_eq_true, if_false]
          rw [ih false false (fun h => h) hrest]
      · simp only [hc, Bool.and_false, Bool.false_eq_true, if_false]
        congr 1
        apply ih _ _ _ hrest
        cases inTG <;> cases started <;> simp at hinv ⊢
        all_goals
          cases endsTaskGroups (TrimSpace line) <;>
          cases Contains (TrimSpace line) executorNameText <;> simp

/-- On every manifest in which each `"minMember":` line begins with a double quote
after trimming, `updateExecutorMinMemberInYAML` returns the text unchanged. -/
theorem updateExecutorMinMemberInYAML_key_per_line (y : GoString) (n : Int)
    (h : ∀ l ∈ SplitLines y, Contains (TrimSpace l) minMemberText = true →
      (TrimSpace l).head? = some '"') :
    updateExecutorMinMemberInYAML y n = y := by
  unfold updateExecutorMinMemberInYAML
  rw [minMemberScan_key_per_line n _ false false (fun h => h) h, JoinLines_SplitLines]

/-- C4 (failing input): on a manifest whose task-groups annotation is a literal block
scalar with one JSON key per line and executor `minMember` 2, asking for 5 executors
returns the manifest unchanged; the executor's `"minMember":` line is not rewritten. -/
theorem minMember_block_scalar_unchanged :
    updateExecutorMinMemberInYAML (blockScalarManifest 2) 5 = blockScalarManifest 2 ∧
    updateExecutorMinMemberInYAML (blockScalarManifest 2) 5 ≠ blockScalarManifest 5 := by
  constructor <;> decide

/-! ## File-count annotation -/

theorem insertEntry_eq (lines : List GoString) (k : Nat) (entry : GoString)
    (hk : k ≤ lines.length) :
    insertEntry lines k entry
      = lines.take k ++ entry :: List.replicate (lines.length - k) [] ++ lines.drop k := by
  unfold insertEntry goCopy
  have h1 : (lines.take k).length = k := by simp [hk]
  have h2 : List.take (List.replicate (lines.length + 1) ([] : GoString)).length (lines.take k)
      = lines.take k := by
    apply List.take_of_length_le
    rw [h1, List.length_replicate]; omega
  simp only [h2, h1, List.drop_replicate]
  have h3 : lines.length + 1 - k = (lines.length - k) + 1 := by omega
  rw [h3, List.replicate_succ, List.set_append_right _ _ (by rw [h1])]
  simp [h1]

theorem fileCountLoop_skip (lines : List GoString) (count : Int) (pre rest : List GoString)
    (hpre : ∀ l ∈ pre, startsWithKey "spark.file.count:" l = false ∧
      startsWithKey "sparkConf:" l = false) :
    ∀ i, fileCountLoop lines count i false (pre ++ rest)
      = fileCountLoop lines count (i + pre.length) false rest := by
  induction pre with
  | nil => intro i; rfl
  | cons p ps ih =>
    intro i
    have hp := hpre p (List.mem_cons_self _ _)
    rw [List.cons_append, fileCountLoop]
    simp only [hp.1, hp.2, Bool.false_eq_true, if_false, Bool.false_and, Bool.or_self]
    rw [ih (fun l hl => hpre l (List.mem_cons_of_mem _ hl)) (i + 1), List.length_cons]
    congr 1
    omega

/-- What `ApplySparkFileCountToYAML` does when the first `sparkConf:` line has a
following line that is not a `spark.file.count:` line, and no earlier line is one: the
entry is inserted after `sparkConf:` and is followed by as many empty lines as there
were lines after `sparkConf:`; later lines are not inspected. -/
theorem ApplySparkFileCountToYAML_inserts (y : GoString) (count : Int)
    (pre post : List GoString) (sc nxt : GoString)
    (hsplit : SplitLines y = pre ++ sc :: nxt :: post)
    (hpre : ∀ l ∈ pre, startsWithKey "spark.file.count:" l = false ∧
      startsWithKey "sparkConf:" l = false)
    (hsc : startsWithKey "sparkConf:" sc = true)
    (hsc2 : startsWithKey "spark.file.count:" sc = false)
    (hnxt : startsWithKey "spark.file.count:" nxt = false) :
    ApplySparkFileCountToYAML y count
      = JoinLines (pre ++ sc :: fileCountLine (leadingSpaces nxt) count
          :: List.replicate (post.length + 1) [] ++ nxt :: post) := by
  have hget : (pre ++ sc :: nxt :: post).getD (0 + pre.length + 1 - 1) [] = sc := by
    simp only [Nat.zero_add, Nat.add_sub_cancel]
    rw [List.getD_eq_getElem?_getD, List.getElem?_append_right (le_refl _)]
    simp
  have hpos : decide (0 + pre.length + 1 > 0) = true := by
    apply decide_eq_true
    omega
  have hloop : fileCountLoop (pre ++ sc :: nxt :: post) count 0 false
        (pre ++ sc :: nxt :: post)
      = (some (insertEntry (pre ++ sc :: nxt :: post) (0 + pre.length + 1)
          (fileCountLine (RepeatSpace (indentWidth nxt)) count)), true) := by
    rw [fileCountLoop_skip _ _ pre _ hpre 0, fileCountLoop]
    simp only [hsc2, hsc, Bool.false_eq_true, if_false, Bool.false_and, Bool.false_or]
    rw [fileCountLoop]
    simp only [hnxt, hget, hsc, hpos, Bool.false_eq_true, if_false, Bool.true_and,
      Bool.true_or, Bool.and_true, if_true]
  unfold ApplySparkFileCountToYAML
  simp only [hsplit, hloop]
  rw [insertEntry_eq _ _ _ (by simp), RepeatSpace_indentWidth]
  congr 1
  have h1 : (pre ++ sc :: nxt :: post).take (0 + pre.length + 1) = pre ++ [sc] := by
    rw [List.take_append_eq_append_take]
    simp
  have h2 : (pre ++ sc :: nxt :: post).drop (0 + pre.length + 1) = nxt :: post := by
    rw [List.drop_append_eq_append_drop]
    simp
  have h3 : (pre ++ sc :: nxt :: post).length - (0 + pre.length + 1) = post.length + 1 := by
    simp only [List.length_append, List.length_cons]; omega
  rw [h1, h2, h3]
  simp

/-- C5 (failing input): with the lines `spec:`, `  sparkConf:`, `    spark.a: "1"`,
`  driver:`, `    cores: 1` and count 3, the entry is inserted after `sparkConf:` with
the indentation of the following entry, but three empty lines follow it: the result is
not the input with exactly one line added. -/
theorem fileCount_inserts_blank_lines :
    ApplySparkFileCountToYAML
        "spec:\n  sparkConf:\n    spark.a: \"1\"\n  driver:\n    cores: 1".toList 3
      = ("spec:\n  sparkConf:\n    spark.file.count: 3\n\n\n\n" ++
          "    spark.a: \"1\"\n  driver:\n    cores: 1").toList ∧
    ApplySparkFileCountToYAML
        "spec:\n  sparkConf:\n    spark.a: \"1\"\n  driver:\n    cores: 1".toList 3
      ≠ ("spec:\n  sparkConf:\n    spark.file.count: 3\n" ++
          "    spark.a: \"1\"\n  driver:\n    cores: 1").toList ∧
    (SplitLines (ApplySparkFileCountToYAML
        "spec:\n  sparkConf:\n    spark.a: \"1\"\n  driver:\n    cores: 1".toList 3)).length
      = (SplitLines
        "spec:\n  sparkConf:\n    spark.a: \"1\"\n  driver:\n    cores: 1".toList).length + 4 := by
  refine ⟨by decide, by decide, by decide⟩

/-- C6 (failing input): `sparkConf:` already holds `spark.file.count: 7` as its second
entry; applying count 3 does not return the manifest unchanged but inserts a second
`spark.file.count:` line (and two empty lines) after `sparkConf:`. -/
theorem fileCount_duplicate_key :
    ApplySparkFileCountToYAML
        "spec:\n  sparkConf:\n    spark.a: \"1\"\n    spark.file.count: 7".toList 3
      = ("spec:\n  sparkConf:\n    spark.file.count: 3\n\n\n" ++
          "    spark.a: \"1\"\n    spark.file.count: 7").toList ∧
    ApplySparkFileCountToYAML
        "spec:\n  sparkConf:\n    spark.a: \"1\"\n    spark.file.count: 7".toList 3
      ≠ "spec:\n  sparkConf:\n    spark.a: \"1\"\n    spark.file.count: 7".toList ∧
    ((SplitLines (ApplySparkFileCountToYAML
        "spec:\n  sparkConf:\n    spark.a: \"1\"\n    spark.file.count: 7".toList 3)).filter
          (startsWithKey "spark.file.count:")).length = 2 := by
  refine ⟨by decide, by decide, by decide⟩

/-! ## Executor instance count -/

theorem sectionState_append (b : Bool) (xs ys : List GoString) :
    sectionState b (xs ++ ys) = sectionState (sectionState b xs) ys := by
  induction xs generalizing b with
  | nil => rfl
  | cons x xs ih =>
    rw [List.cons_append]
    simp only [sectionState]
    exact ih _

theorem InExecutorSection_nil : ¬ InExecutorSection [] := by
  rintro ⟨a, e, b, h, _⟩
  simp at h

theorem sectionEnd_iff (l : GoString) : sectionEnd l = true ↔ StartsSiblingSection l := by
  simp [sectionEnd, startsWithKey, StartsSiblingSection, or_assoc]

theorem sectionEnd_false_iff (l : GoString) :
    sectionEnd l = false ↔ ¬ StartsSiblingSection l := by
  rw [← sectionEnd_iff]
  simp

theorem InExecutorSection_snoc (pre : List GoString) (l : GoString) :
    InExecutorSection (pre ++ [l]) ↔
      (startsWithKey "executor:" l = true ∨ (sectionEnd l = false ∧ InExecutorSection pre)) := by
  constructor
  · rintro ⟨a, e, b, h, he, hb⟩
    rcases List.eq_nil_or_concat b with hb0 | ⟨b1, x, hb1⟩
    · subst hb0
      have h2 : pre ++ [l] = a ++ [e] := h
      have := List.append_inj' h2 rfl
      left
      have hle : l = e := by simpa using this.2
      rw [hle]; exact he
    · subst hb1
      have h2 : pre ++ [l] = (a ++ e :: b1) ++ [x] := by
        rw [h]; simp
      have := List.append_inj' h2 rfl
      have hlx : l = x := by simpa using this.2
      right
      refine ⟨?_, a, e, b1, this.1, he, fun y hy => hb y (by simp [hy])⟩
      rw [hlx]; exact (sectionEnd_false_iff x).mpr (hb x (by simp))
  · rintro (h | ⟨h, a, e, b, hp, he, hb⟩)
    · exact ⟨pre, l, [], rfl, h, by simp⟩
    · refine ⟨a, e, b ++ [l], by rw [hp]; simp, he, ?_⟩
      intro y hy
      rcases List.mem_append.mp hy with hy | hy
      · exact hb y hy
      · simp at hy; rw [hy]; exact (sectionEnd_false_iff l).mp h

theorem sectionState_iff (pre : List GoString) :
    sectionState false pre = true ↔ InExecutorSection pre := by
  induction pre using List.reverseRecOn with
  | nil => simp [sectionState, InExecutorSection_nil]
  | append_singleton pre l ih =>
    rw [sectionState_append, InExecutorSection_snoc, ← ih]
    simp only [sectionState]
    cases startsWithKey "executor:" l <;> cases sectionEnd l <;>
      cases sectionState false pre <;> simp

theorem instances_not_section_key (l : GoString) (h : startsWithKey "instances:" l = true) :
    startsWithKey "executor:" l = false ∧ sectionEnd l = false := by
  unfold sectionEnd
  unfold startsWithKey at *
  cases ht : TrimSpace l with
  | nil => rw [ht] at h; simp [HasPrefix, List.isPrefixOf] at h
  | cons c cs =>
    rw [ht] at h
    have hc : c = 'i' := by
      simp only [HasPrefix, String.toList, List.isPrefixOf, Bool.and_eq_true, beq_iff_eq] at h
      exact h.1.symm
    subst hc
    simp [HasPrefix, List.isPrefixOf]

theorem sectionState_shift (b : Bool) (x : GoString) (xs : List GoString)
    (hno : ∀ p l q, x :: xs = p ++ l :: q → startsWithKey "instances:" l = true →
      sectionState b p = false) :
    ∀ p l q, xs = p ++ l :: q → startsWithKey "instances:" l = true →
      sectionState (if startsWithKey "executor:" x then true
        else if b && sectionEnd x then false else b) p = false := by
  intro p l q hp hl
  have := hno (x :: p) l q (by rw [hp]; rfl) hl
  simpa [sectionState] using this

theorem instancesScan_at (n : Int) (pre post : List GoString) (line : GoString) :
    ∀ b : Bool, sectionState b pre = true → startsWithKey "instances:" line = true →
      (∀ p l q, pre = p ++ l :: q → startsWithKey "instances:" l = true →
        sectionState b p = false) →
      instancesScan n b (pre ++ line :: post) = pre ++ instancesLine line n :: post := by
  induction pre with
  | nil =>
    intro b hb hline _
    have hk := instances_not_section_key line hline
    simp only [sectionState] at hb
    subst hb
    rw [List.nil_append, instancesScan]
    simp only [hk.1, hk.2, hline, Bool.false_eq_true, if_false, Bool.and_false, Bool.and_self,
      if_true]
    rfl
  | cons x xs ih =>
    intro b hb hline hno
    have hshift := sectionState_shift b x xs hno
    have hx := hno [] x xs rfl
    simp only [sectionState] at hb hx
    have hrec := ih _ hb hline hshift
    rw [List.cons_append, instancesScan]
    by_cases he : startsWithKey "executor:" x = true
    · simp only [he, if_true] at hrec ⊢
      rw [hrec]; rfl
    · simp only [he, Bool.false_eq_true, if_false] at hrec ⊢
      by_cases hi : startsWithKey "instances:" x = true
      · have hbf := hx hi
        subst hbf
        simp only [Bool.false_and, Bool.false_eq_true, if_false] at hrec ⊢
        rw [hrec]; rfl
      · simp only [hi, Bool.and_false, Bool.false_eq_true, if_false]
        rw [hrec]; rfl

theorem instancesScan_none (n : Int) (lines : List GoString) :
    ∀ b : Bool, (∀ p l q, lines = p ++ l :: q → startsWithKey "instances:" l = true →
        sectionState b p = false) →
      instancesScan n b lines = lines := by
  induction lines with
  | nil => intro _ _; rfl
  | cons x xs ih =>
    intro b hno
    have hshift := sectionState_shift b x xs hno
    have hx := hno [] x xs rfl
    simp only [sectionState] at hx
    have hrec := ih _ hshift
    rw [instancesScan]
    by_cases he : startsWithKey "executor:" x = true
    · simp only [he, if_true] at hrec ⊢
      rw [hrec]
    · simp only [he, Bool.false_eq_true, if_false] at hrec ⊢
      by_cases hi : startsWithKey "instances:" x = true
      · have hbf := hx hi
        subst hbf
        simp only [Bool.false_and, Bool.false_eq_true, if_false] at hrec ⊢
        rw [hrec]
      · simp only [hi, Bool.and_false, Bool.false_eq_true, if_false]
        rw [hrec]

/-- A checkable form of "no line of `pre` is an `instances:` line inside an executor
section": it is enough to look at every prefix of `pre`. -/
theorem no_section_instances_of_prefixes (pre : List GoString)
    (h : ∀ i, i < pre.length → sectionState false (pre.take i) = true →
      startsWithKey "instances:" (pre.getD i []) = false) :
    ∀ p l q, pre = p ++ l :: q →
      ¬ (InExecutorSection p ∧ startsWithKey "instances:" l = true) := by
  intro p l q hp ⟨hin, hl⟩
  have hi := h p.length (by rw [hp]; simp)
  rw [hp] at hi
  simp only [List.take_left', List.getD_eq_getElem?_getD] at hi
  rw [List.getElem?_append_right (le_refl _)] at hi
  simp only [Nat.sub_self, List.getElem?_cons_zero, Option.getD_some] at hi
  rw [hi ((sectionState_iff p).mpr hin)] at hl
  exact absurd hl (by decide)

/-- C7: let the lines of the manifest be `pre ++ line :: post` where `line` is the first
line whose trimmed content starts with `instances:` and that lies inside an executor
section (after a line starting with `executor:`, with no line starting with `driver:`,
`sparkConf:` or `batchScheduler:` in between). Then `UpdateExecutorInstances` returns the text with the lines `pre`,
`<leading spaces of line>instances: <count>`, `post`; all other lines are unchanged. If
the manifest has no such line (every `instances:` line is outside an executor section),
the text is returned unchanged. -/
theorem executor_instances (y : GoString) (count : Int) :
    (∀ pre line post, SplitLines y = pre ++ line :: post →
      InExecutorSection pre → startsWithKey "instances:" line = true →
      (∀ p l q, pre = p ++ l :: q →
        ¬ (InExecutorSection p ∧ startsWithKey "instances:" l = true)) →
      UpdateExecutorInstances y count
        = JoinLines (pre ++ (leadingSpaces line ++ "instances: ".toList ++ fmtInt count) :: post)) ∧
    ((∀ p l q, SplitLines y = p ++ l :: q →
        ¬ (InExecutorSection p ∧ startsWithKey "instances:" l = true)) →
      UpdateExecutorInstances y count = y) := by
  constructor
  · intro pre line post hsplit hin hline hfirst
    unfold UpdateExecutorInstances
    rw [hsplit, instancesScan_at count pre post line false
      ((sectionState_iff pre).mpr hin) hline ?_, instancesLine, RepeatSpace_indentWidth]
    intro p l q hp hl
    have := hfirst p l q hp
    rw [← sectionState_iff] at this
    cases hs : sectionState false p with
    | false => rfl
    | true => exact absurd ⟨hs, hl⟩ this
  · intro hnone
    unfold UpdateExecutorInstances
    rw [instancesScan_none count _ false ?_, JoinLines_SplitLines]
    intro p l q hp hl
    have := hnone p l q hp
    rw [← sectionState_iff] at this
    cases hs : sectionState false p with
    | false => rfl
    | true => exact absurd ⟨hs, hl⟩ this

/-- C7, evaluated: the `instances:` line before the executor section and the one in
the driver section stay, the one inside the executor section is rewritten; without an
executor section nothing changes; an `instances:` line that follows `executor:` only
after `driver:` or `sparkConf:` stays; after `batchScheduler:` the section is closed until
the next `executor:` line, whose `instances:` line is the one rewritten. -/
theorem executor_instances_witness :
    UpdateExecutorInstances
      ("spec:\n  instances: 9\n  executor:\n    cores: 1\n    instances: 1\n" ++
        "  driver:\n    instances: 7").toList 4
    = ("spec:\n  instances: 9\n  executor:\n    cores: 1\n    instances: 4\n" ++
        "  driver:\n    instances: 7").toList ∧
    UpdateExecutorInstances "spec:\n  instances: 9\n  driver:\n    instances: 7".toList 4
    = "spec:\n  instances: 9\n  driver:\n    instances: 7".toList ∧
    UpdateExecutorInstances "  executor:\n    cores: 1\n  driver:\n    instances: 7".toList 4
    = "  executor:\n    cores: 1\n  driver:\n    instances: 7".toList ∧
    UpdateExecutorInstances "  executor:\n  sparkConf:\n    instances: 7".toList 4
    = "  executor:\n  sparkConf:\n    instances: 7".toList ∧
    UpdateExecutorInstances
      ("  executor:\n  batchScheduler:\n    instances: 7\n" ++
        "  executor:\n    instances: 1").toList 4
    = ("  executor:\n  batchScheduler:\n    instances: 7\n" ++
        "  executor:\n    instances: 4").toList :=
  ⟨(executor_instances
    ("spec:\n  instances: 9\n  executor:\n    cores: 1\n    instances: 1\n" ++
        "  driver:\n    instances: 7").toList 4).1
    ["spec:".toList, "  instances: 9".toList, "  executor:".toList, "    cores: 1".toList]
    "    instances: 1".toList
    ["  driver:".toList, "    instances: 7".toList]
    (by decide)
    ⟨["spec:".toList, "  instances: 9".toList], "  executor:".toList,
      ["    cores: 1".toList], rfl, by decide, by decide⟩
    (by decide)
    (no_section_instances_of_prefixes _ (by decide)),
   (executor_instances "spec:\n  instances: 9\n  driver:\n    instances: 7".toList 4).2
    (fun p l q hp => no_section_instances_of_prefixes
      (SplitLines "spec:\n  instances: 9\n  driver:\n    instances: 7".toList)
      (by decide) p l q hp),
   (executor_instances
      "  executor:\n    cores: 1\n  driver:\n    instances: 7".toList 4).2
    (fun p l q hp => no_section_instances_of_prefixes
      (SplitLines "  executor:\n    cores: 1\n  driver:\n    instances: 7".toList)
      (by decide) p l q hp),
   (executor_instances "  executor:\n  sparkConf:\n    instances: 7".toList 4).2
    (fun p l q hp => no_section_instances_of_prefixes
      (SplitLines "  executor:\n  sparkConf:\n    instances: 7".toList)
      (by decide) p l q hp),
   (executor_instances
    ("  executor:\n  batchScheduler:\n    instances: 7\n" ++
        "  executor:\n    instances: 1").toList 4).1
    ["  executor:".toList, "  batchScheduler:".toList, "    instances: 7".toList,
      "  executor:".toList]
    "    instances: 1".toList
    []
    (by decide)
    ⟨["  executor:".toList, "  batchScheduler:".toList, "    instances: 7".toList],
      "  executor:".toList, [], rfl, by decide, by decide⟩
    (by decide)
    (no_section_instances_of_prefixes _ (by decide))⟩

/-! ## Replacing a token -/

theorem servicePlaceholder_borderless : Borderless servicePlaceholder := by decide

theorem buildToken_borderless : Borderless buildToken := by decide

theorem replaceScan_skip (old new : GoString) (xs rest : GoString) :
    replaceScan old new xs.length (xs ++ rest) = replaceScan old new 0 rest := by
  induction xs with
  | nil => cases rest <;> rfl
  | cons x xs ih =>
    rw [List.length_cons, List.cons_append, replaceScan]
    exact ih

theorem Contains_cons_false (c : Char) (cs old : GoString)
    (h : Contains (c :: cs) old = false) :
    old.isPrefixOf (c :: cs) = false ∧ Contains cs old = false := by
  rw [Contains] at h
  exact Bool.or_eq_false_iff.mp h

theorem replaceScan_free (old new s : GoString) (h : Contains s old = false) :
    replaceScan old new 0 s = s := by
  induction s with
  | nil => rfl
  | cons c cs ih =>
    have hc := Contains_cons_false c cs old h
    rw [replaceScan]
    simp only [hc.1, Bool.false_eq_true, if_false, ih hc.2]

theorem not_prefix_before_occurrence (old t rest : GoString) (hb : Borderless old)
    (ht : t ≠ []) (hfree : old.isPrefixOf t = false) :
    old.isPrefixOf (t ++ old ++ rest) = false := by
  cases hp : old.isPrefixOf (t ++ old ++ rest) with
  | false => rfl
  | true =>
    exfalso
    rw [List.isPrefixOf_iff_prefix, List.append_assoc] at hp
    have htp : t <+: t ++ (old ++ rest) := List.prefix_append _ _
    by_cases hlen : old.length ≤ t.length
    · have := List.prefix_of_prefix_length_le hp htp hlen
      rw [← List.isPrefixOf_iff_prefix, hfree] at this
      exact absurd this (by decide)
    · have hlt : t.length < old.length := by omega
      obtain ⟨u, hu⟩ := List.prefix_of_prefix_length_le htp hp (by omega)
      have hp2 : t ++ u <+: t ++ (old ++ rest) := by rw [hu]; exact hp
      have hu2 : u <+: old ++ rest := (List.prefix_append_right_inj t).mp hp2
      have hulen : u.length ≤ old.length := by
        have := congrArg List.length hu
        rw [List.length_append] at this
        omega
      have hu3 : u <+: old := List.prefix_of_prefix_length_le hu2 (List.prefix_append _ _) hulen
      have hdrop : old.drop t.length = u := by
        rw [← hu, List.drop_left]
      have hpos : 0 < t.length := List.length_pos.mpr ht
      have := hb t.length hlt hpos
      rw [hdrop] at this
      rw [← List.isPrefixOf_iff_prefix, this] at hu3
      exact absurd hu3 (by decide)

theorem replaceScan_occurrence (old new s rest : GoString) (hb : Borderless old)
    (hold : old ≠ []) (h : Contains s old = false) :
    replaceScan old new 0 (s ++ old ++ rest) = s ++ new ++ replaceScan old new 0 rest := by
  induction s with
  | nil =>
    cases old with
    | nil => exact absurd rfl hold
    | cons o os =>
      have hpre : (o :: os).isPrefixOf (o :: (os ++ rest)) = true := by
        rw [List.isPrefixOf_iff_prefix]
        exact List.prefix_append (o :: os) rest
      simp only [List.nil_append, List.cons_append]
      rw [replaceScan]
      simp only [hpre, if_true, List.length_cons, Nat.add_sub_cancel]
      rw [replaceScan_skip]
  | cons c cs ih =>
    have hc := Contains_cons_false c cs old h
    have hnp := not_prefix_before_occurrence old (c :: cs) rest hb (by simp) hc.1
    simp only [List.cons_append] at hnp ⊢
    rw [replaceScan]
    simp only [hnp, Bool.false_eq_true, if_false]
    rw [ih hc.2]

theorem replaceScan_joinWith (old new : GoString) (segs : List GoString)
    (hb : Borderless old) (hold : old ≠ [])
    (h : ∀ s ∈ segs, Contains s old = false) :
    replaceScan old new 0 (joinWith old segs) = joinWith new segs := by
  induction segs with
  | nil => rfl
  | cons s rest ih =>
    cases rest with
    | nil => exact replaceScan_free old new s (h s (List.mem_cons_self _ _))
    | cons t rest =>
      simp only [joinWith]
      rw [replaceScan_occurrence old new s _ hb hold (h s (List.mem_cons_self _ _)),
        ih (fun x hx => h x (List.mem_cons_of_mem _ hx))]

theorem ReplaceAll_joinWith (old new : GoString) (segs : List GoString)
    (hb : Borderless old) (hold : old ≠ [])
    (h : ∀ s ∈ segs, Contains s old = false) :
    ReplaceAll (joinWith old segs) old new = joinWith new segs := by
  unfold ReplaceAll
  simp only [hold, if_false]
  exact replaceScan_joinWith old new segs hb hold h

theorem ReplaceAll_free (old new s : GoString) (hold : old ≠ [])
    (h : Contains s old = false) : ReplaceAll s old new = s := by
  unfold ReplaceAll
  simp only [hold, if_false]
  exact replaceScan_free old new s h

theorem first_occurrence (old : GoString) (hold : old ≠ []) (y : GoString)
    (h : Contains y old = true) :
    ∃ s rest, y = s ++ old ++ rest ∧ Contains s old = false := by
  have hnil : old.isPrefixOf [] = false := by
    cases old with
    | nil => exact absurd rfl hold
    | cons o os => rfl
  induction y with
  | nil =>
    rw [Contains, hnil] at h
    exact absurd h (by decide)
  | cons c cs ih =>
    by_cases hp : old.isPrefixOf (c :: cs) = true
    · obtain ⟨rest, hr⟩ := List.isPrefixOf_iff_prefix.mp hp
      exact ⟨[], rest, by simpa using hr.symm, by rw [Contains, hnil]⟩
    · have hp2 : old.isPrefixOf (c :: cs) = false := Bool.eq_false_iff.mpr hp
      rw [Contains, hp2, Bool.false_or] at h
      obtain ⟨s, rest, hs, hfree⟩ := ih h
      refine ⟨c :: s, rest, by rw [hs]; rfl, ?_⟩
      rw [Contains, hfree, Bool.or_false]
      cases hq : old.isPrefixOf (c :: s) with
      | false => rfl
      | true =>
        exfalso
        have h1 : old <+: c :: s := List.isPrefixOf_iff_prefix.mp hq
        have h2 : old <+: c :: cs := by
          rw [hs, List.append_assoc, ← List.cons_append]
          exact h1.trans (List.prefix_append _ _)
        rw [← List.isPrefixOf_iff_prefix, hp2] at h2
        exact absurd h2 (by decide)

theorem token_decomposition (old : GoString) (hold : old ≠ []) :
    ∀ (n : Nat) (y : GoString), y.length ≤ n →
      ∃ segs, segs ≠ [] ∧ y = joinWith old segs ∧ ∀ s ∈ segs, Contains s old = false := by
  intro n
  induction n with
  | zero =>
    intro y hy
    cases hc : Contains y old with
    | false => exact ⟨[y], by simp, rfl, by simpa using hc⟩
    | true =>
      obtain ⟨s, rest, hs, _⟩ := first_occurrence old hold y hc
      have := congrArg List.length hs
      simp only [List.length_append] at this
      have hpos : 0 < old.length := List.length_pos.mpr hold
      omega
  | succ n ih =>
    intro y hy
    cases hc : Contains y old with
    | false => exact ⟨[y], by simp, rfl, by simpa using hc⟩
    | true =>
      obtain ⟨s, rest, hs, hfree⟩ := first_occurrence old hold y hc
      have hlen := congrArg List.length hs
      simp only [List.length_append] at hlen
      have hpos : 0 < old.length := List.length_pos.mpr hold
      obtain ⟨segs, hne, hrest, hall⟩ := ih rest (by omega)
      cases segs with
      | nil => exact absurd rfl hne
      | cons t r =>
        refine ⟨s :: t :: r, by simp, ?_, ?_⟩
        · rw [hs, hrest]; rfl
        · intro x hx
          rcases List.mem_cons.mp hx with hx | hx
          · rw [hx]; exact hfree
          · exact hall x hx

theorem TrimRightSlash_spec (s : GoString) :
    s = TrimRightSlash s ++ List.replicate (s.length - (TrimRightSlash s).length) '/' ∧
    (TrimRightSlash s).getLast? ≠ some '/' := by
  have hsplit := List.takeWhile_append_dropWhile (fun c => c == '/') s.reverse
  have hrev : s = TrimRightSlash s ++ (s.reverse.takeWhile (fun c => c == '/')).reverse := by
    have := congrArg List.reverse hsplit
    rw [List.reverse_append, List.reverse_reverse] at this
    exact this.symm
  have hall : ∀ c ∈ (s.reverse.takeWhile (fun c => c == '/')).reverse, c = '/' := by
    intro c hc
    have := List.mem_takeWhile_imp (List.mem_reverse.mp hc)
    simpa using this
  have hrep := List.eq_replicate_iff.mpr ⟨rfl, hall⟩
  constructor
  · have hlen := congrArg List.length hrev
    rw [List.length_append] at hlen
    have : s.length - (TrimRightSlash s).length
        = (s.reverse.takeWhile (fun c => c == '/')).reverse.length := by omega
    rw [this, ← hrep]
    exact hrev
  · unfold TrimRightSlash
    rw [List.getLast?_reverse]
    have := List.head?_dropWhile_not (fun c => c == '/') s.reverse
    intro h
    rw [h] at this
    simp at this

/-! ## Identity labeling -/

/-- C8: write the text as segments that do not contain `SERVICE_ID_PLACEHOLDER`, with
the token between neighbours (every text has such a form). Then
`ApplyServiceIDLabelsWithUIDToYAML` returns the same segments with `<id>-<category>-<uid>`
between them when `uid` is non-empty and `<id>-<category>` when it is empty, and
`ApplyServiceIDLabelsToYAML` returns them with `<id>` between them, where `<id>` is the
workload id without its trailing `/` characters. -/
theorem identity_labeling (serviceID category uid : GoString) :
    (∀ segs : List GoString, (∀ s ∈ segs, Contains s servicePlaceholder = false) →
      ApplyServiceIDLabelsWithUIDToYAML (joinWith servicePlaceholder segs) serviceID category uid
        = joinWith (if uid = [] then TrimRightSlash serviceID ++ "-".toList ++ category
            else TrimRightSlash serviceID ++ "-".toList ++ category ++ "-".toList ++ uid) segs ∧
      ApplyServiceIDLabelsToYAML (joinWith servicePlaceholder segs) serviceID
        = joinWith (TrimRightSlash serviceID) segs) ∧
    (∀ y : GoString, ∃ segs, segs ≠ [] ∧ y = joinWith servicePlaceholder segs ∧
      ∀ s ∈ segs, Contains s servicePlaceholder = false) ∧
    (serviceID = TrimRightSlash serviceID
        ++ List.replicate (serviceID.length - (TrimRightSlash serviceID).length) '/' ∧
      (TrimRightSlash serviceID).getLast? ≠ some '/') := by
  refine ⟨?_, ?_, TrimRightSlash_spec serviceID⟩
  · intro segs hsegs
    constructor
    · unfold ApplyServiceIDLabelsWithUIDToYAML
      rw [ReplaceAll_joinWith _ _ segs servicePlaceholder_borderless (by decide) hsegs]
      congr 1
      unfold uidReplacement
      by_cases hu : uid = [] <;> simp [hu]
    · unfold ApplyServiceIDLabelsToYAML
      exact ReplaceAll_joinWith _ _ segs servicePlaceholder_borderless (by decide) hsegs
  · intro y
    exact token_decomposition servicePlaceholder (by decide) y.length y (le_refl _)

/-- C8, evaluated: two occurrences, workload id `svc-001/`, category `catA`. -/
theorem identity_labeling_witness :
    ApplyServiceIDLabelsWithUIDToYAML
        "name: SERVICE_ID_PLACEHOLDER\napp: SERVICE_ID_PLACEHOLDER!".toList
        "svc-001/".toList "catA".toList "u7".toList
      = "name: svc-001-catA-u7\napp: svc-001-catA-u7!".toList ∧
    ApplyServiceIDLabelsToYAML
        "name: SERVICE_ID_PLACEHOLDER\napp: SERVICE_ID_PLACEHOLDER!".toList "svc-001/".toList
      = "name: svc-001\napp: svc-001!".toList :=
  (identity_labeling "svc-001/".toList "catA".toList "u7".toList).1
    ["name: ".toList, "\napp: ".toList, "!".toList] (by decide)

/-! ## Re-applying identity labeling -/

theorem isPrefixOf_nil_false (old : GoString) (hold : old ≠ []) :
    old.isPrefixOf [] = false := by
  cases old with
  | nil => exact absurd rfl hold
  | cons o os => rfl

theorem isPrefixOf_foreign_head (old : GoString) (c : Char) (xs : GoString)
    (hc : c ∉ old) : old.isPrefixOf (c :: xs) = true → old = [] := by
  intro h
  cases old with
  | nil => rfl
  | cons o os =>
    exfalso
    simp only [List.isPrefixOf, Bool.and_eq_true, beq_iff_eq] at h
    exact hc (by simp [h.1])

theorem Contains_foreign_prefix (old r b : GoString) (hold : old ≠ [])
    (hr : ∀ c ∈ r, c ∉ old) : Contains (r ++ b) old = Contains b old := by
  induction r with
  | nil => rfl
  | cons c cs ih =>
    have hc : old.isPrefixOf (c :: (cs ++ b)) = false := by
      cases h : old.isPrefixOf (c :: (cs ++ b)) with
      | false => rfl
      | true =>
        exact absurd (isPrefixOf_foreign_head old c _ (hr c (List.mem_cons_self _ _)) h) hold
    rw [List.cons_append, Contains, hc, Bool.false_or]
    exact ih (fun x hx => hr x (List.mem_cons_of_mem _ hx))

theorem prefix_across_foreign (old a r b : GoString) (hrne : r ≠ [])
    (hr : ∀ c ∈ r, c ∉ old) (h : old.isPrefixOf (a ++ r ++ b) = true) :
    old.isPrefixOf a = true := by
  rw [List.isPrefixOf_iff_prefix, List.append_assoc] at h
  rw [List.isPrefixOf_iff_prefix]
  have ha : a <+: a ++ (r ++ b) := List.prefix_append _ _
  by_cases hlen : old.length ≤ a.length
  · exact List.prefix_of_prefix_length_le h ha hlen
  · exfalso
    obtain ⟨u, hu⟩ := List.prefix_of_prefix_length_le ha h (by omega)
    have h2 : a ++ u <+: a ++ (r ++ b) := by rw [hu]; exact h
    have hu2 : u <+: r ++ b := (List.prefix_append_right_inj a).mp h2
    have hune : u ≠ [] := by
      intro hnil
      rw [hnil, List.append_nil] at hu
      rw [hu] at hlen
      exact hlen (le_refl _)
    cases r with
    | nil => exact hrne rfl
    | cons c cs =>
      cases u with
      | nil => exact hune rfl
      | cons x xs =>
        obtain ⟨t, ht⟩ := hu2
        simp only [List.cons_append, List.cons.injEq] at ht
        have hmem : c ∈ old := by
          rw [← hu, ← ht.1]
          simp
        exact hr c (List.mem_cons_self _ _) hmem

theorem Contains_of_isPrefixOf (old s : GoString) (h : old.isPrefixOf s = true) :
    Contains s old = true := by
  cases s with
  | nil => rw [Contains]; exact h
  | cons c cs => rw [Contains, h, Bool.true_or]

theorem Contains_around_foreign (old a r b : GoString) (hold : old ≠ []) (hrne : r ≠ [])
    (hr : ∀ c ∈ r, c ∉ old) (h : Contains (a ++ r ++ b) old = true) :
    Contains a old = true ∨ Contains b old = true := by
  induction a with
  | nil =>
    right
    rw [List.nil_append, Contains_foreign_prefix old r b hold hr] at h
    exact h
  | cons x xs ih =>
    rw [List.cons_append, List.cons_append, Contains] at h
    rcases Bool.or_eq_true_iff.mp h with h1 | h1
    · left
      apply Contains_of_isPrefixOf
      exact prefix_across_foreign old (x :: xs) r b hrne hr h1
    · rcases ih h1 with h2 | h2
      · left
        rw [Contains, h2, Bool.or_true]
      · right; exact h2

theorem joinWith_foreign_free (old r : GoString) (segs : List GoString) (hold : old ≠ [])
    (hrne : r ≠ []) (hr : ∀ c ∈ r, c ∉ old)
    (hsegs : ∀ s ∈ segs, Contains s old = false) :
    Contains (joinWith r segs) old = false := by
  induction segs with
  | nil => rw [joinWith, Contains]; exact isPrefixOf_nil_false old hold
  | cons s rest ih =>
    cases rest with
    | nil => exact hsegs s (List.mem_cons_self _ _)
    | cons t rest =>
      have hs := hsegs s (List.mem_cons_self _ _)
      have hrest := ih (fun x hx => hsegs x (List.mem_cons_of_mem _ hx))
      cases hc : Contains (joinWith r (s :: t :: rest)) old with
      | false => rfl
      | true =>
        exfalso
        rw [joinWith] at hc
        rcases Contains_around_foreign old s r _ hold hrne hr hc with h | h
        · rw [hs] at h; exact absurd h (by decide)
        · rw [hrest] at h; exact absurd h (by decide)

theorem ReplaceAll_foreign_free (old r y : GoString) (hb : Borderless old) (hold : old ≠ [])
    (hrne : r ≠ []) (hr : ∀ c ∈ r, c ∉ old) :
    Contains (ReplaceAll y old r) old = false := by
  obtain ⟨segs, _, hy, hsegs⟩ := token_decomposition old hold y.length y (le_refl _)
  rw [hy, ReplaceAll_joinWith old r segs hb hold hsegs]
  exact joinWith_foreign_free old r segs hold hrne hr hsegs

/-- C9 as stated fails: when the replacement text itself contains the token, the second
application changes the text again (workload id `a-SERVICE_ID_PLACEHOLDER`; category
`SERVICE_ID_PLACEHOLDER` for the variant with uid). -/
theorem identity_relabel_changes :
    ApplyServiceIDLabelsToYAML (ApplyServiceIDLabelsToYAML
        "name: SERVICE_ID_PLACEHOLDER".toList "a-SERVICE_ID_PLACEHOLDER".toList)
        "a-SERVICE_ID_PLACEHOLDER".toList
      ≠ ApplyServiceIDLabelsToYAML
        "name: SERVICE_ID_PLACEHOLDER".toList "a-SERVICE_ID_PLACEHOLDER".toList ∧
    ApplyServiceIDLabelsWithUIDToYAML (ApplyServiceIDLabelsWithUIDToYAML
        "name: SERVICE_ID_PLACEHOLDER".toList "a".toList "SERVICE_ID_PLACEHOLDER".toList
        "u".toList) "a".toList "SERVICE_ID_PLACEHOLDER".toList "u".toList
      ≠ ApplyServiceIDLabelsWithUIDToYAML
        "name: SERVICE_ID_PLACEHOLDER".toList "a".toList "SERVICE_ID_PLACEHOLDER".toList
        "u".toList := by
  constructor <;> decide

/-- C9 (amended): once the placeholder is consumed, i.e. the labeled text contains no
`SERVICE_ID_PLACEHOLDER`, applying identity labeling again returns the labeled text
unchanged (both functions). The placeholder is consumed in particular when the
replacement is non-empty and none of its characters occurs in the token: a non-empty
trimmed workload id for `ApplyServiceIDLabelsToYAML`, and id, category and uid for
`ApplyServiceIDLabelsWithUIDToYAML`. -/
theorem identity_relabel (y serviceID category uid : GoString) :
    (Contains (ApplyServiceIDLabelsToYAML y serviceID) servicePlaceholder = false →
      ApplyServiceIDLabelsToYAML (ApplyServiceIDLabelsToYAML y serviceID) serviceID
        = ApplyServiceIDLabelsToYAML y serviceID) ∧
    (Contains (ApplyServiceIDLabelsWithUIDToYAML y serviceID category uid)
        servicePlaceholder = false →
      ApplyServiceIDLabelsWithUIDToYAML
          (ApplyServiceIDLabelsWithUIDToYAML y serviceID category uid) serviceID category uid
        = ApplyServiceIDLabelsWithUIDToYAML y serviceID category uid) ∧
    (TrimRightSlash serviceID ≠ [] →
      (∀ c ∈ TrimRightSlash serviceID, c ∉ servicePlaceholder) →
      ApplyServiceIDLabelsToYAML (ApplyServiceIDLabelsToYAML y serviceID) serviceID
        = ApplyServiceIDLabelsToYAML y serviceID) ∧
    ((∀ c ∈ TrimRightSlash serviceID, c ∉ servicePlaceholder) →
      (∀ c ∈ category, c ∉ servicePlaceholder) → (∀ c ∈ uid, c ∉ servicePlaceholder) →
      ApplyServiceIDLabelsWithUIDToYAML
          (ApplyServiceIDLabelsWithUIDToYAML y serviceID category uid) serviceID category uid
        = ApplyServiceIDLabelsWithUIDToYAML y serviceID category uid) := by
  have hne : servicePlaceholder ≠ [] := by decide
  have hdash : '-' ∉ servicePlaceholder := by decide
  refine ⟨?_, ?_, ?_, ?_⟩
  · intro h
    exact ReplaceAll_free _ _ _ hne h
  · intro h
    exact ReplaceAll_free _ _ _ hne h
  · intro hid hchars
    apply ReplaceAll_free _ _ _ hne
    exact ReplaceAll_foreign_free _ _ y servicePlaceholder_borderless hne hid hchars
  · intro hid hcat huid
    apply ReplaceAll_free _ _ _ hne
    apply ReplaceAll_foreign_free _ _ y servicePlaceholder_borderless hne
    · unfold uidReplacement
      by_cases hu : uid = [] <;> simp [hu]
    · intro c hc
      unfold uidReplacement at hc
      by_cases hu : uid = []
      · simp only [hu, ne_eq, not_true_eq_false, if_false, List.mem_append,
          List.mem_cons] at hc
        rcases hc with hc | hc | hc
        · exact hid c hc
        · rw [hc]; exact hdash
        · exact hcat c hc
      · simp only [hu, ne_eq, not_false_eq_true, if_true, List.mem_append,
          List.mem_cons] at hc
        rcases hc with (hc | hc | hc) | hc | hc
        · exact hid c hc
        · rw [hc]; exact hdash
        · exact hcat c hc
        · rw [hc]; exact hdash
        · exact huid c hc

/-- C9 (amended), evaluated on a two-occurrence text with workload id `svc-001/`. -/
theorem identity_relabel_witness :
    ApplyServiceIDLabelsToYAML (ApplyServiceIDLabelsToYAML
        "name: SERVICE_ID_PLACEHOLDER\napp: SERVICE_ID_PLACEHOLDER".toList "svc-001/".toList)
        "svc-001/".toList
      = "name: svc-001\napp: svc-001".toList ∧
    ApplyServiceIDLabelsWithUIDToYAML (ApplyServiceIDLabelsWithUIDToYAML
        "name: SERVICE_ID_PLACEHOLDER".toList "svc-001/".toList "cat".toList "u7".toList)
        "svc-001/".toList "cat".toList "u7".toList
      = "name: svc-001-cat-u7".toList ∧
    ApplyServiceIDLabelsToYAML (ApplyServiceIDLabelsToYAML
        "name: SERVICE_ID_PLACEHOLDER".toList "svc-001".toList) "svc-001".toList
      = "name: svc-001".toList ∧
    ApplyServiceIDLabelsWithUIDToYAML (ApplyServiceIDLabelsWithUIDToYAML
        "name: SERVICE_ID_PLACEHOLDER".toList "svc".toList "cat".toList [])
        "svc".toList "cat".toList []
      = "name: svc-cat".toList :=
  ⟨(identity_relabel "name: SERVICE_ID_PLACEHOLDER\napp: SERVICE_ID_PLACEHOLDER".toList
      "svc-001/".toList [] []).1 (by decide),
   (identity_relabel "name: SERVICE_ID_PLACEHOLDER".toList "svc-001/".toList "cat".toList
      "u7".toList).2.1 (by decide),
   (identity_relabel "name: SERVICE_ID_PLACEHOLDER".toList "svc-001".toList [] []).2.2.1
      (by decide) (by decide),
   (identity_relabel "name: SERVICE_ID_PLACEHOLDER".toList "svc".toList "cat".toList
      []).2.2.2 (by decide) (by decide) (by decide)⟩

/-! ## Disabled mode -/

/-- C10 (failing input): config with `enabled = "false"`, template
`name: SERVICE_ID_PLACEHOLDER` / `build: BUILD_NUMBER`, workload `svc-001`, build `42`.
Whatever the category, both disabled paths produce the identity `svc-001`, not
`svc-001-catA`. -/
theorem disabled_identity_without_category :
    IsProvisionEnabled
      { ProvisionID := "p1".toList, Enabled := "false".toList, Minio := [], Threshold := 1000,
        MinQueue := "small".toList, MaxQueue := "large".toList, CPU := [], Memory := [],
        Executor := "2".toList, BuildNumber := "42".toList } = false ∧
    (∀ category : GoString,
      disabledCreateManifest
        { ProvisionID := "p1".toList, ServiceID := "svc-001".toList, Category := category,
          Region := "ic".toList, UID := "u7".toList }
        { ProvisionID := "p1".toList, Enabled := "false".toList, Minio := [],
          Threshold := 1000, MinQueue := "small".toList, MaxQueue := "large".toList,
          CPU := [], Memory := [], Executor := "2".toList, BuildNumber := "42".toList }
        "name: SERVICE_ID_PLACEHOLDER\nbuild: BUILD_NUMBER".toList
      = "name: svc-001\nbuild: 42".toList ∧
      disabledReferenceManifest
        { ProvisionID := "p1".toList, ServiceID := "svc-001".toList, Category := category,
          UID := "u7".toList }
        { ProvisionID := "p1".toList, Enabled := "false".toList, Minio := [],
          Threshold := 1000, MinQueue := "small".toList, MaxQueue := "large".toList,
          CPU := [], Memory := [], Executor := "2".toList, BuildNumber := "42".toList }
        "name: SERVICE_ID_PLACEHOLDER\nbuild: BUILD_NUMBER".toList
      = "name: svc-001\nbuild: 42".toList) ∧
    "name: svc-001\nbuild: 42".toList ≠ "name: svc-001-catA\nbuild: 42".toList := by
  refine ⟨by decide, fun category => ⟨?_, ?_⟩, by decide⟩
  · show ApplyBuildNumberToYAML (ApplyServiceIDLabelsToYAML
      "name: SERVICE_ID_PLACEHOLDER\nbuild: BUILD_NUMBER".toList "svc-001".toList)
      "42".toList = _
    decide
  · show ApplyServiceIDLabelsToYAML (ApplyBuildNumberToYAML
      "name: SERVICE_ID_PLACEHOLDER\nbuild: BUILD_NUMBER".toList "42".toList)
      "svc-001".toList = _
    decide

/-! ## Disabled mode leaves resource fields alone -/

theorem IsProvisionEnabled_false (cfg : ConfigSpec) (h : cfg.Enabled ≠ "true".toList) :
    IsProvisionEnabled cfg = false := by
  unfold IsProvisionEnabled
  exact decide_eq_false h

/-- C11: for a config whose `enabled` string is not `true`, the manifest of the create flow
is `ApplyBuildNumberToYAML (ApplyServiceIDLabelsToYAML template id) build` and that of the
reference flow is the two replacements in the other order; neither depends on the store
(sizing), nor on any other field of the config or request (threshold, queues, executor
count, category, uid): two runs that share template, workload id and build number give the
same manifest. A template containing neither token is returned unchanged. -/
theorem disabled_frame (st st' : Store) (req req' : CreateRequest)
    (rreq rreq' : ReferenceRequest) (cfg cfg' : ConfigSpec) (tpl : GoString)
    (hdis : cfg.Enabled ≠ "true".toList) (hdis' : cfg'.Enabled ≠ "true".toList)
    (hid : req'.ServiceID = req.ServiceID) (hrid : rreq'.ServiceID = rreq.ServiceID)
    (hb : cfg'.BuildNumber = cfg.BuildNumber) :
    createFlowManifest st req cfg tpl
      = .ok (ApplyBuildNumberToYAML (ApplyServiceIDLabelsToYAML tpl req.ServiceID)
          cfg.BuildNumber) ∧
    referenceFlowManifest st rreq cfg tpl
      = .ok (ApplyServiceIDLabelsToYAML (ApplyBuildNumberToYAML tpl cfg.BuildNumber)
          rreq.ServiceID) ∧
    createFlowManifest st' req' cfg' tpl = createFlowManifest st req cfg tpl ∧
    referenceFlowManifest st' rreq' cfg' tpl = referenceFlowManifest st rreq cfg tpl ∧
    (Contains tpl servicePlaceholder = false → Contains tpl buildToken = false →
      createFlowManifest st req cfg tpl = .ok tpl ∧
      referenceFlowManifest st rreq cfg tpl = .ok tpl) := by
  have he := IsProvisionEnabled_false cfg hdis
  have he' := IsProvisionEnabled_false cfg' hdis'
  have hc : createFlowManifest st req cfg tpl
      = .ok (ApplyBuildNumberToYAML (ApplyServiceIDLabelsToYAML tpl req.ServiceID)
          cfg.BuildNumber) := by
    simp [createFlowManifest, he, disabledCreateManifest]
  have hr : referenceFlowManifest st rreq cfg tpl
      = .ok (ApplyServiceIDLabelsToYAML (ApplyBuildNumberToYAML tpl cfg.BuildNumber)
          rreq.ServiceID) := by
    simp [referenceFlowManifest, he, disabledReferenceManifest]
  refine ⟨hc, hr, ?_, ?_, ?_⟩
  · rw [hc]
    simp [createFlowManifest, he', disabledCreateManifest, hid, hb]
  · rw [hr]
    simp [referenceFlowManifest, he', disabledReferenceManifest, hrid, hb]
  · intro hs hbt
    have h1 : ApplyServiceIDLabelsToYAML tpl req.ServiceID = tpl :=
      ReplaceAll_free _ _ _ (by decide) hs
    have h2 : ApplyBuildNumberToYAML tpl cfg.BuildNumber = tpl :=
      ReplaceAll_free _ _ _ (by decide) hbt
    have h3 : ApplyServiceIDLabelsToYAML tpl rreq.ServiceID = tpl :=
      ReplaceAll_free _ _ _ (by decide) hs
    rw [hc, hr, h1, h2, h3]
    exact ⟨rfl, rfl⟩

/-- C11, evaluated: two disabled configs that differ in threshold, queues and executor
count, two stores and two categories give the same manifest; the `queue:` and
`instances:` lines of the template are not touched. -/
theorem disabled_frame_witness :
    createFlowManifest (sampleStore 500 [])
        { ProvisionID := "p1".toList, ServiceID := "svc-001".toList,
          Category := "catA".toList, Region := "ic".toList, UID := "u7".toList }
        { ProvisionID := "p1".toList, Enabled := "false".toList, Minio := "bkt".toList,
          Threshold := 1000, MinQueue := "small".toList, MaxQueue := "large".toList,
          CPU := [], Memory := [], Executor := "2".toList, BuildNumber := "42".toList }
        "name: SERVICE_ID_PLACEHOLDER\nqueue: q\ninstances: 1\nv: BUILD_NUMBER".toList
      = .ok "name: svc-001\nqueue: q\ninstances: 1\nv: 42".toList ∧
    createFlowManifest (sampleStore 5000 [ObjectInfo.ofSize 7])
        { ProvisionID := "p1".toList, ServiceID := "svc-001".toList,
          Category := "catB".toList, Region := "kr".toList, UID := "u8".toList }
        { ProvisionID := "p1".toList, Enabled := "TRUE".toList, Minio := "other".toList,
          Threshold := 1, MinQueue := "a".toList, MaxQueue := "b".toList,
          CPU := [], Memory := [], Executor := "x".toList, BuildNumber := "42".toList }
        "name: SERVICE_ID_PLACEHOLDER\nqueue: q\ninstances: 1\nv: BUILD_NUMBER".toList
      = .ok "name: svc-001\nqueue: q\ninstances: 1\nv: 42".toList :=
  have h := disabled_frame (sampleStore 500 []) (sampleStore 5000 [ObjectInfo.ofSize 7])
    { ProvisionID := "p1".toList, ServiceID := "svc-001".toList,
      Category := "catA".toList, Region := "ic".toList, UID := "u7".toList }
    { ProvisionID := "p1".toList, ServiceID := "svc-001".toList,
      Category := "catB".toList, Region := "kr".toList, UID := "u8".toList }
    { ProvisionID := "p1".toList, ServiceID := "svc-001".toList,
      Category := "catA".toList, UID := "u7".toList }
    { ProvisionID := "p1".toList, ServiceID := "svc-001".toList,
      Category := "catB".toList, UID := "u8".toList }
    { ProvisionID := "p1".toList, Enabled := "false".toList, Minio := "bkt".toList,
      Threshold := 1000, MinQueue := "small".toList, MaxQueue := "large".toList,
      CPU := [], Memory := [], Executor := "2".toList, BuildNumber := "42".toList }
    { ProvisionID := "p1".toList, Enabled := "TRUE".toList, Minio := "other".toList,
      Threshold := 1, MinQueue := "a".toList, MaxQueue := "b".toList,
      CPU := [], Memory := [], Executor := "x".toList, BuildNumber := "42".toList }
    "name: SERVICE_ID_PLACEHOLDER\nqueue: q\ninstances: 1\nv: BUILD_NUMBER".toList
    (by decide) (by decide) rfl rfl rfl
  ⟨h.1.trans (congrArg Except.ok (by decide)),
    h.2.2.1.trans (h.1.trans (congrArg Except.ok (by decide)))⟩

/-! ## Sizing failure -/

theorem CalculateQueueWithMetadata_failed (st : Store) (cfgPath serviceID : GoString)
    (t : Int) (minQueue maxQueue : GoString)
    (h : (CalculateQueueWithMetadata st cfgPath serviceID t minQueue maxQueue).err ≠ none) :
    (CalculateQueueWithMetadata st cfgPath serviceID t minQueue maxQueue).queue = minQueue ∧
    (CalculateQueueWithMetadata st cfgPath serviceID t minQueue maxQueue).size = 0 ∧
    (CalculateQueueWithMetadata st cfgPath serviceID t minQueue maxQueue).metadata = none ∧
    (CalculateQueueWithMetadata st cfgPath serviceID t minQueue maxQueue).count = 0 := by
  unfold CalculateQueueWithMetadata at h ⊢
  by_cases hs : HasSuffix serviceID ['/'] = true
  · simp only [hs, if_true] at h ⊢
    cases hf : getMinioFolderSize st (BuildMinioPath cfgPath serviceID) with
    | error e => simp
    | ok v => rw [hf] at h; simp at h
  · simp only [hs, Bool.false_eq_true, if_false] at h ⊢
    cases hf : getMinIOMetadata st (BuildMinioPath cfgPath serviceID) with
    | error e => simp
    | ok m =>
      rw [hf] at h
      by_cases hm : m.Size < t <;> simp [hm] at h

/-- C12: when sizing fails, `CalculateQueueWithMetadata` returns `minQueue`, size 0, no
metadata and count 0 together with the error (folder branch and single-object branch),
and the enabled flows (create and reference) go on: with a parsable executor count `n`
the manifest is the template with `updateQueueInYAML _ minQueue`, the executor rewrites,
build stamping and identity labeling applied, and without `ApplySparkFileCountToYAML`. -/
theorem sizing_failure_degrades (st : Store) (req : CreateRequest) (rreq : ReferenceRequest)
    (cfg : ConfigSpec) (tpl : GoString) (n : Int) :
    (∀ e, HasSuffix req.ServiceID ['/'] = true →
      getMinioFolderSize st (BuildMinioPath cfg.Minio req.ServiceID) = .error e →
      CalculateQueueWithMetadata st cfg.Minio req.ServiceID cfg.Threshold cfg.MinQueue
          cfg.MaxQueue
        = { queue := cfg.MinQueue, size := 0, metadata := none, count := 0,
            err := some (.folderWrap e cfg.MinQueue) }) ∧
    (∀ e, HasSuffix req.ServiceID ['/'] = false →
      getMinIOMetadata st (BuildMinioPath cfg.Minio req.ServiceID) = .error e →
      CalculateQueueWithMetadata st cfg.Minio req.ServiceID cfg.Threshold cfg.MinQueue
          cfg.MaxQueue
        = { queue := cfg.MinQueue, size := 0, metadata := none, count := 0,
            err := some (.fileWrap e cfg.MinQueue) }) ∧
    ((CalculateQueueWithMetadata st cfg.Minio req.ServiceID cfg.Threshold cfg.MinQueue
          cfg.MaxQueue).err ≠ none →
      GetExecutorInt cfg.Executor = some n →
      enabledCreateManifest st req cfg tpl
        = .ok (ApplyServiceIDLabelsWithUIDToYAML (ApplyBuildNumberToYAML
            (UpdateExecutorInstances (updateExecutorMinMemberInYAML
              (updateQueueInYAML tpl cfg.MinQueue) n) n) cfg.BuildNumber)
            req.ServiceID req.Category req.UID)) ∧
    ((CalculateQueueWithMetadata st cfg.Minio rreq.ServiceID cfg.Threshold cfg.MinQueue
          cfg.MaxQueue).err ≠ none →
      Atoi cfg.Executor = some n →
      enabledReferenceManifest st rreq cfg tpl
        = .ok (ApplyServiceIDLabelsWithUIDToYAML (ApplyBuildNumberToYAML
            (UpdateExecutorInstances (updateExecutorMinMemberInYAML
              (updateQueueInYAML tpl cfg.MinQueue) n) n) cfg.BuildNumber)
            rreq.ServiceID rreq.Category rreq.UID)) := by
  refine ⟨?_, ?_, ?_, ?_⟩
  · intro e hs hf
    simp [CalculateQueueWithMetadata, hs, hf]
  · intro e hs hf
    simp [CalculateQueueWithMetadata, hs, hf]
  · intro herr hn
    obtain ⟨hq, _, _, hc⟩ := CalculateQueueWithMetadata_failed st cfg.Minio req.ServiceID
      cfg.Threshold cfg.MinQueue cfg.MaxQueue herr
    unfold enabledCreateManifest
    simp only [hq, hc, hn, lt_self_iff_false, if_false]
  · intro herr hn
    obtain ⟨hq, _, _, hc⟩ := CalculateQueueWithMetadata_failed st cfg.Minio rreq.ServiceID
      cfg.Threshold cfg.MinQueue cfg.MaxQueue herr
    unfold enabledReferenceManifest
    simp only [hq, hc, hn, lt_self_iff_false, if_false]

/-- C12, evaluated on a store without objects: the folder `svc/` is empty and the object
`svc` is missing; both flows still render the manifest with `queue: root.small` and no
`spark.file.count:` line. -/
theorem sizing_failure_degrades_witness :
    CalculateQueueWithMetadata emptyStore "bkt/<<service_id>>".toList "svc/".toList 1000
        "small".toList "large".toList
      = { queue := "small".toList, size := 0, metadata := none, count := 0,
          err := some (.folderWrap (.emptyFolder "svc/".toList) "small".toList) } ∧
    CalculateQueueWithMetadata emptyStore "bkt/<<service_id>>".toList "svc".toList 1000
        "small".toList "large".toList
      = { queue := "small".toList, size := 0, metadata := none, count := 0,
          err := some (.fileWrap (.statFailed "The specified key does not exist.".toList)
            "small".toList) } ∧
    enabledCreateManifest emptyStore (sampleCreate "svc/") (sampleConfig "true" "3")
        "queue: q\nsparkConf:\n  a: b\nexecutor:\n  instances: 1".toList
      = .ok "queue: root.small\nsparkConf:\n  a: b\nexecutor:\n  instances: 3".toList ∧
    enabledReferenceManifest emptyStore (sampleReference "svc") (sampleConfig "true" "3")
        "queue: q\nsparkConf:\n  a: b\nexecutor:\n  instances: 1".toList
      = .ok "queue: root.small\nsparkConf:\n  a: b\nexecutor:\n  instances: 3".toList :=
  ⟨(sizing_failure_degrades emptyStore (sampleCreate "svc/") (sampleReference "svc")
      (sampleConfig "true" "3") [] 3).1 (.emptyFolder "svc/".toList) (by decide) rfl,
   (sizing_failure_degrades emptyStore (sampleCreate "svc") (sampleReference "svc")
      (sampleConfig "true" "3") [] 3).2.1
      (.statFailed "The specified key does not exist.".toList) (by decide) rfl,
   ((sizing_failure_degrades emptyStore (sampleCreate "svc/") (sampleReference "svc")
      (sampleConfig "true" "3")
      "queue: q\nsparkConf:\n  a: b\nexecutor:\n  instances: 1".toList 3).2.2.1
      (by decide) (by decide)).trans (congrArg Except.ok (by decide)),
   ((sizing_failure_degrades emptyStore (sampleCreate "svc/") (sampleReference "svc")
      (sampleConfig "true" "3")
      "queue: q\nsparkConf:\n  a: b\nexecutor:\n  instances: 1".toList 3).2.2.2
      (by decide) (by decide)).trans (congrArg Except.ok (by decide))⟩

/-! ## Mode selection and the object count -/

theorem folderLoop_count_bounds (objs : List ObjectInfo) :
    ∀ t c t2 c2 : Int, folderLoop objs t c = .ok (t2, c2) → 0 ≤ c →
      c + objs.length < 2 ^ 63 → c ≤ c2 ∧ c2 ≤ c + objs.length := by
  induction objs with
  | nil =>
    intro t c t2 c2 h _ _
    simp only [folderLoop, Except.ok.injEq, Prod.mk.injEq] at h
    simp [h.2]
  | cons o os ih =>
    intro t c t2 c2 h hc hlen
    simp only [List.length_cons, Nat.cast_add, Nat.cast_one] at hlen ⊢
    rw [folderLoop] at h
    cases he : o.Err with
    | some e => rw [he] at h; simp at h
    | none =>
      rw [he] at h
      by_cases hs : o.Size > 0
      · simp only [hs, if_true] at h
        rw [wrap64_of_range (c + 1) (by omega) (by omega)] at h
        have := ih _ _ _ _ h (by omega) (by omega)
        omega
      · simp only [hs, if_false] at h
        have := ih _ _ _ _ h hc (by omega)
        omega

theorem folderSizeOf_count_ne_zero (pfx : GoString) (objs : List ObjectInfo) (t c : Int)
    (h : folderSizeOf pfx objs = .ok (t, c)) : c ≠ 0 := by
  unfold folderSizeOf at h
  cases hl : folderLoop objs 0 0 with
  | error e => rw [hl] at h; simp at h
  | ok v =>
    obtain ⟨t2, c2⟩ := v
    rw [hl] at h
    by_cases hc : c2 = 0
    · simp [hc] at h
    · simp only [hc, if_false, Except.ok.injEq, Prod.mk.injEq] at h
      rw [← h.2]; exact hc

theorem folderSizeOf_count_pos (pfx : GoString) (objs : List ObjectInfo) (t c : Int)
    (hlen : objs.length < 2 ^ 63) (h : folderSizeOf pfx objs = .ok (t, c)) : c > 0 := by
  have hne := folderSizeOf_count_ne_zero pfx objs t c h
  unfold folderSizeOf at h
  cases hl : folderLoop objs 0 0 with
  | error e => rw [hl] at h; simp at h
  | ok v =>
    obtain ⟨t2, c2⟩ := v
    rw [hl] at h
    have hb := folderLoop_count_bounds objs 0 0 t2 c2 hl (le_refl _) (by
      have : (objs.length : Int) < 2 ^ 63 := by exact_mod_cast hlen
      omega)
    by_cases hc : c2 = 0
    · simp [hc] at h
    · simp only [hc, if_false, Except.ok.injEq, Prod.mk.injEq] at h
      omega

theorem getMinioFolderSize_ok (st : Store) (p : GoString) (t c : Int)
    (h : getMinioFolderSize st p = .ok (t, c)) :
    ∃ bucket pfx, folderSizeOf pfx (st.listObjects bucket pfx) = .ok (t, c) := by
  unfold getMinioFolderSize at h
  by_cases h1 : st.accessKey = [] ∨ st.secretKey = []
  · simp [h1] at h
  · simp only [h1, if_false] at h
    by_cases h2 : st.clientOk = false
    · simp [h2] at h
    · simp only [h2, if_false] at h
      cases hp : parseMinioPath p with
      | error e => rw [hp] at h; simp at h
      | ok v =>
        obtain ⟨bucket, pfx⟩ := v
        rw [hp] at h
        exact ⟨bucket, _, h⟩

theorem folderLoop_append (xs ys : List ObjectInfo) :
    ∀ t c : Int, folderLoop (xs ++ ys) t c
      = match folderLoop xs t c with
        | .ok (t2, c2) => folderLoop ys t2 c2
        | .error e => .error e := by
  induction xs with
  | nil => intro t c; rfl
  | cons o os ih =>
    intro t c
    rw [List.cons_append, folderLoop, folderLoop]
    cases o.Err with
    | some e => rfl
    | none =>
      by_cases hs : o.Size > 0
      · simp only [hs, if_true]; exact ih _ _
      · simp only [hs, if_false]; exact ih _ _

theorem folderLoop_ones (n : Nat) :
    ∀ t c : Int, 0 ≤ c → c ≤ t → t + n < 2 ^ 63 →
      folderLoop (List.replicate n (ObjectInfo.ofSize 1)) t c = .ok (t + n, c + n) := by
  induction n with
  | zero => intro t c _ _ _; simp [folderLoop]
  | succ n ih =>
    intro t c hc hct hlt
    rw [List.replicate_succ, folderLoop]
    simp only [ObjectInfo.ofSize, gt_iff_lt, zero_lt_one, if_true]
    push_cast at hlt
    rw [wrap64_of_range (t + 1) (by omega) (by omega),
      wrap64_of_range (c + 1) (by omega) (by omega)]
    have := ih (t + 1) (c + 1) (by omega) (by omega) (by omega)
    simp only [ObjectInfo.ofSize] at this
    rw [this]
    congr 2 <;> push_cast <;> omega

theorem folderLoop_ones_wrap (m : Nat) (hm : (m : Int) = 2 ^ 63 - 1) :
    folderLoop (List.replicate (m + 1) (ObjectInfo.ofSize 1)) 0 0
      = .ok (-(2 ^ 63), -(2 ^ 63)) := by
  have hsplit : List.replicate (m + 1) (ObjectInfo.ofSize 1)
      = List.replicate m (ObjectInfo.ofSize 1) ++ [ObjectInfo.ofSize 1] := by
    rw [← List.replicate_one, ← List.replicate_add]
  rw [hsplit, folderLoop_append, folderLoop_ones m 0 0 (le_refl _) (le_refl _) (by omega)]
  simp only [zero_add, folderLoop, ObjectInfo.ofSize, gt_iff_lt, zero_lt_one, if_true, hm]
  have : wrap64 (2 ^ 63 - 1 + 1) = -(2 ^ 63) := by decide
  rw [this]

theorem sampleStore_folder (objs : List ObjectInfo) :
    getMinioFolderSize (sampleStore 0 objs)
        (BuildMinioPath "bkt/<<service_id>>".toList "data/".toList)
      = folderSizeOf "data/".toList objs := rfl

theorem sampleStore_count_wraps (N : Nat) (hN : (N : Int) = 2 ^ 63) :
    CalculateQueueWithMetadata (sampleStore 0 (List.replicate N (ObjectInfo.ofSize 1)))
        "bkt/<<service_id>>".toList "data/".toList 1000 "small".toList "large".toList
      = { queue := "small".toList, size := -(2 ^ 63),
          metadata := some { Path := BuildMinioPath "bkt/<<service_id>>".toList
                               "data/".toList,
                             Size := -(2 ^ 63), ETag := [], LastModified := 0,
                             ContentType := [], StorageClass := [], UserMetadata := [] },
          count := -(2 ^ 63), err := none } := by
  obtain ⟨m, rfl⟩ : ∃ m, N = m + 1 := ⟨N - 1, by omega⟩
  have hloop := folderLoop_ones_wrap m (by push_cast at hN; omega)
  have hsize : folderSizeOf "data/".toList (List.replicate (m + 1) (ObjectInfo.ofSize 1))
      = .ok (-(2 ^ 63), -(2 ^ 63)) := by
    unfold folderSizeOf
    rw [hloop]
    have : ¬ (-(2 ^ 63) : Int) = 0 := by decide
    simp only [this, if_false]
  have hsuf : HasSuffix "data/".toList ['/'] = true := by decide
  unfold CalculateQueueWithMetadata
  simp only [hsuf, if_true, sampleStore_folder, hsize]
  have : (-(2 ^ 63) : Int) < 1000 := by decide
  simp only [this, if_true]

/-- C13 as stated fails for the folder count: the counter is a machine `int`, and a
listing of `2^63` objects of one byte each makes it wrap; sizing succeeds with
`objectCount = -2^63`, which is not `> 0`. -/
theorem objectCount_wraps :
    (CalculateQueueWithMetadata
        (sampleStore 0 (List.replicate (2 ^ 63) (ObjectInfo.ofSize 1)))
        "bkt/<<service_id>>".toList "data/".toList 1000 "small".toList "large".toList).err
      = none ∧
    (CalculateQueueWithMetadata
        (sampleStore 0 (List.replicate (2 ^ 63) (ObjectInfo.ofSize 1)))
        "bkt/<<service_id>>".toList "data/".toList 1000 "small".toList "large".toList).count
      = -(2 ^ 63) ∧
    ¬ (CalculateQueueWithMetadata
        (sampleStore 0 (List.replicate (2 ^ 63) (ObjectInfo.ofSize 1)))
        "bkt/<<service_id>>".toList "data/".toList 1000 "small".toList "large".toList).count
      > 0 := by
  rw [sampleStore_count_wraps (2 ^ 63) (by norm_num)]
  exact ⟨rfl, rfl, by decide⟩

/-- C13 (amended): `CalculateQueueWithMetadata` sizes a folder exactly when the workload
id ends with `/` (a success then comes from `getMinioFolderSize`) and a single object
otherwise (a success then comes from `getMinIOMetadata`). Every single-object result has
`objectCount = 0`; every successful folder result has `objectCount ≠ 0`, and
`objectCount > 0` when every listing of the store has fewer than `2^63` objects; a
returned `objectCount > 0` implies that the workload id ends with `/`. -/
theorem mode_and_count (st : Store) (cfgPath serviceID : GoString) (t : Int)
    (minQueue maxQueue : GoString) :
    (HasSuffix serviceID ['/'] = true →
      (CalculateQueueWithMetadata st cfgPath serviceID t minQueue maxQueue).err = none →
      getMinioFolderSize st (BuildMinioPath cfgPath serviceID)
        = .ok ((CalculateQueueWithMetadata st cfgPath serviceID t minQueue maxQueue).size,
            (CalculateQueueWithMetadata st cfgPath serviceID t minQueue maxQueue).count)) ∧
    (HasSuffix serviceID ['/'] = false →
      (CalculateQueueWithMetadata st cfgPath serviceID t minQueue maxQueue).err = none →
      ∃ m, getMinIOMetadata st (BuildMinioPath cfgPath serviceID) = .ok m ∧
        (CalculateQueueWithMetadata st cfgPath serviceID t minQueue maxQueue).size = m.Size ∧
        (CalculateQueueWithMetadata st cfgPath serviceID t minQueue maxQueue).metadata
          = some m) ∧
    (HasSuffix serviceID ['/'] = false →
      (CalculateQueueWithMetadata st cfgPath serviceID t minQueue maxQueue).count = 0) ∧
    (HasSuffix serviceID ['/'] = true →
      (CalculateQueueWithMetadata st cfgPath serviceID t minQueue maxQueue).err = none →
      (CalculateQueueWithMetadata st cfgPath serviceID t minQueue maxQueue).count ≠ 0) ∧
    (HasSuffix serviceID ['/'] = true →
      (CalculateQueueWithMetadata st cfgPath serviceID t minQueue maxQueue).err = none →
      (∀ bucket pfx, (st.listObjects bucket pfx).length < 2 ^ 63) →
      (CalculateQueueWithMetadata st cfgPath serviceID t minQueue maxQueue).count > 0) ∧
    ((CalculateQueueWithMetadata st cfgPath serviceID t minQueue maxQueue).count > 0 →
      HasSuffix serviceID ['/'] = true) := by
  have hsingle : HasSuffix serviceID ['/'] = false →
      (CalculateQueueWithMetadata st cfgPath serviceID t minQueue maxQueue).count = 0 := by
    intro hs
    unfold CalculateQueueWithMetadata
    simp only [hs, Bool.false_eq_true, if_false]
    cases getMinIOMetadata st (BuildMinioPath cfgPath serviceID) with
    | error e => rfl
    | ok m => by_cases hm : m.Size < t <;> simp [hm]
  have hfolder : HasSuffix serviceID ['/'] = true →
      (CalculateQueueWithMetadata st cfgPath serviceID t minQueue maxQueue).err = none →
      getMinioFolderSize st (BuildMinioPath cfgPath serviceID)
        = .ok ((CalculateQueueWithMetadata st cfgPath serviceID t minQueue maxQueue).size,
            (CalculateQueueWithMetadata st cfgPath serviceID t minQueue maxQueue).count) := by
    intro hs herr
    unfold CalculateQueueWithMetadata at herr ⊢
    simp only [hs, if_true] at herr ⊢
    cases hf : getMinioFolderSize st (BuildMinioPath cfgPath serviceID) with
    | error e => rw [hf] at herr; simp at herr
    | ok v => rfl
  refine ⟨hfolder, ?_, hsingle, ?_, ?_, ?_⟩
  · intro hs herr
    unfold CalculateQueueWithMetadata at herr ⊢
    simp only [hs, Bool.false_eq_true, if_false] at herr ⊢
    cases hf : getMinIOMetadata st (BuildMinioPath cfgPath serviceID) with
    | error e => rw [hf] at herr; simp at herr
    | ok m =>
      refine ⟨m, rfl, ?_⟩
      by_cases hm : m.Size < t <;> simp [hm]
  · intro hs herr
    obtain ⟨bucket, pfx, h⟩ := getMinioFolderSize_ok st _ _ _ (hfolder hs herr)
    exact folderSizeOf_count_ne_zero _ _ _ _ h
  · intro hs herr hlen
    obtain ⟨bucket, pfx, h⟩ := getMinioFolderSize_ok st _ _ _ (hfolder hs herr)
    exact folderSizeOf_count_pos _ _ _ _ (hlen bucket pfx) h
  · intro hpos
    cases hs : HasSuffix serviceID ['/'] with
    | true => rfl
    | false =>
      rw [hsingle hs] at hpos
      exact absurd hpos (by decide)

/-- C13 (amended), evaluated: a folder id with three non-empty objects gives count 3; a
single-object id gives count 0. -/
theorem mode_and_count_witness :
    (CalculateQueueWithMetadata
        (sampleStore 7 [ObjectInfo.ofSize 10, ObjectInfo.ofSize 10, ObjectInfo.ofSize 10,
          ObjectInfo.ofSize 0])
        "bkt/<<service_id>>".toList "data/".toList 1000 "small".toList "large".toList).count
      > 0 ∧
    (CalculateQueueWithMetadata (sampleStore 7 [ObjectInfo.ofSize 10])
        "bkt/<<service_id>>".toList "data".toList 1000 "small".toList "large".toList).count
      = 0 ∧
    HasSuffix "data/".toList ['/'] = true :=
  ⟨(mode_and_count (sampleStore 7 [ObjectInfo.ofSize 10, ObjectInfo.ofSize 10,
        ObjectInfo.ofSize 10, ObjectInfo.ofSize 0])
      "bkt/<<service_id>>".toList "data/".toList 1000 "small".toList "large".toList).2.2.2.2.1
      (by decide) (by decide) (fun _ _ => by simp [sampleStore]),
   (mode_and_count (sampleStore 7 [ObjectInfo.ofSize 10])
      "bkt/<<service_id>>".toList "data".toList 1000 "small".toList "large".toList).2.2.1
      (by decide),
   (mode_and_count (sampleStore 7 [ObjectInfo.ofSize 10, ObjectInfo.ofSize 10,
        ObjectInfo.ofSize 10, ObjectInfo.ofSize 0])
      "bkt/<<service_id>>".toList "data/".toList 1000 "small".toList "large".toList).2.2.2.2.2
      (by decide)⟩

/-! ## Path resolution -/

theorem serviceIdToken_borderless : Borderless serviceIdToken := by decide

theorem Contains_occurrence (old s rest : GoString) :
    Contains (s ++ old ++ rest) old = true := by
  induction s with
  | nil =>
    apply Contains_of_isPrefixOf
    rw [List.isPrefixOf_iff_prefix, List.nil_append]
    exact List.prefix_append _ _
  | cons c cs ih =>
    rw [List.cons_append, List.cons_append, Contains, ih, Bool.or_true]

theorem replaceFirst_occurrence (old new s rest : GoString) (hb : Borderless old)
    (hold : old ≠ []) (h : Contains s old = false) :
    replaceFirst old new (s ++ old ++ rest) = s ++ new ++ rest := by
  induction s with
  | nil =>
    cases old with
    | nil => exact absurd rfl hold
    | cons o os =>
      have hpre : (o :: os).isPrefixOf (o :: (os ++ rest)) = true := by
        rw [List.isPrefixOf_iff_prefix]
        exact List.prefix_append (o :: os) rest
      simp only [List.nil_append, List.cons_append]
      rw [replaceFirst]
      simp only [hpre, if_true, List.length_cons, List.drop_succ_cons, List.drop_left]
  | cons c cs ih =>
    have hc := Contains_cons_false c cs old h
    have hnp := not_prefix_before_occurrence old (c :: cs) rest hb (by simp) hc.1
    simp only [List.cons_append] at hnp ⊢
    rw [replaceFirst]
    simp only [hnp, Bool.false_eq_true, if_false]
    rw [ih hc.2]

/-- C14: if the template is `s ++ "<<service_id>>" ++ rest` where `s` does not contain
the placeholder (so this is its first occurrence; every template containing the
placeholder has this form), `BuildMinioPath` returns `s ++ workloadId ++ rest`, with
`rest`, later occurrences included, left as it is. If the template does not contain the
placeholder, it returns `template ++ "/" ++ workloadId`. -/
theorem path_resolution (template serviceID : GoString) :
    (∀ s rest, template = s ++ serviceIdToken ++ rest →
      Contains s serviceIdToken = false →
      BuildMinioPath template serviceID = s ++ serviceID ++ rest) ∧
    (Contains template serviceIdToken = true →
      ∃ s rest, template = s ++ serviceIdToken ++ rest ∧
        Contains s serviceIdToken = false) ∧
    (Contains template serviceIdToken = false →
      BuildMinioPath template serviceID = template ++ "/".toList ++ serviceID) := by
  refine ⟨?_, ?_, ?_⟩
  · intro s rest ht hs
    unfold BuildMinioPath
    rw [ht, Contains_occurrence]
    simp only [if_true]
    exact replaceFirst_occurrence _ _ _ _ serviceIdToken_borderless (by decide) hs
  · intro h
    exact first_occurrence serviceIdToken (by decide) template h
  · intro h
    unfold BuildMinioPath
    simp [h]

/-- C14, evaluated: the example of the source comment, a template with two placeholders
(only the first is replaced) and a template without placeholder. -/
theorem path_resolution_witness :
    BuildMinioPath "1234/5678/<<service_id>>/input/".toList "1234-wfbm".toList
      = "1234/5678/1234-wfbm/input/".toList ∧
    BuildMinioPath "b/<<service_id>>/x/<<service_id>>".toList "w".toList
      = "b/w/x/<<service_id>>".toList ∧
    BuildMinioPath "bucket/base".toList "svc/".toList = "bucket/base/svc/".toList ∧
    (∃ s rest, "b/<<service_id>>/x".toList = s ++ serviceIdToken ++ rest ∧
      Contains s serviceIdToken = false) :=
  ⟨(path_resolution "1234/5678/<<service_id>>/input/".toList "1234-wfbm".toList).1
      "1234/5678/".toList "/input/".toList (by decide) (by decide),
   (path_resolution "b/<<service_id>>/x/<<service_id>>".toList "w".toList).1
      "b/".toList "/x/<<service_id>>".toList (by decide) (by decide),
   (path_resolution "bucket/base".toList "svc/".toList).2.2 (by decide),
   (path_resolution "b/<<service_id>>/x".toList []).2.1 (by decide)⟩

/-! ## Order of the mutations in the enabled flows -/

/-- C15 as stated fails. (1) Build stamping runs before identity labeling, not after:
with workload id `job-BUILD_NUMBER` the flow keeps `BUILD_NUMBER` inside the identity,
the claimed order replaces it. (2) The file-count annotation runs first, not fourth:
when the `sparkConf:` line also carries the task-groups marker, the inserted
`spark.file.count:` line closes the task-groups section, so the flow leaves the
`"minMember":` line alone while the claimed order rewrites it. -/
theorem enabled_order_differs :
    enabledCreateManifest (sampleStore 500 []) (sampleCreate "job-BUILD_NUMBER")
        (sampleConfig "true" "5") "name: SERVICE_ID_PLACEHOLDER".toList
      = .ok "name: job-BUILD_NUMBER-cat-u7".toList ∧
    mutationsInClaimedOrder "name: SERVICE_ID_PLACEHOLDER".toList "small".toList 0 5
        "42".toList "job-BUILD_NUMBER".toList "cat".toList "u7".toList
      = "name: job-42-cat-u7".toList ∧
    enabledCreateManifest (sampleStore 0 [ObjectInfo.ofSize 10]) (sampleCreate "data/")
        (sampleConfig "true" "5")
        ("sparkConf: # yunikorn.apache.org/task-groups:\n" ++
          "\x7b\"name\": \"spark-executor\", \"minMember\": 1\x7d").toList
      = .ok ("sparkConf: # yunikorn.apache.org/task-groups:\nspark.file.count: 1\n\n" ++
          "\x7b\"name\": \"spark-executor\", \"minMember\": 1\x7d").toList ∧
    mutationsInClaimedOrder
        ("sparkConf: # yunikorn.apache.org/task-groups:\n" ++
          "\x7b\"name\": \"spark-executor\", \"minMember\": 1\x7d").toList
        "small".toList 1 5 "42".toList "data/".toList "cat".toList "u7".toList
      = ("sparkConf: # yunikorn.apache.org/task-groups:\nspark.file.count: 1\n\n" ++
          "\"minMember\": 5,").toList := by
  refine ⟨congrArg Except.ok ?_, ?_, congrArg Except.ok ?_, ?_⟩ <;> decide

/-- C15 (amended): with a parsable executor count `n`, the manifest of the enabled create
flow and of the enabled reference flow is the template with the six mutations applied in
the order file-count annotation (when the sizing count is `> 0`), queue assignment with
the sized queue, gang-scheduling sizing, executor instance count, build stamping, identity
labeling. -/
theorem enabled_order (st : Store) (req : CreateRequest) (rreq : ReferenceRequest)
    (cfg : ConfigSpec) (tpl : GoString) (n : Int) (hn : Atoi cfg.Executor = some n) :
    enabledCreateManifest st req cfg tpl
      = .ok (mutationsInFlowOrder tpl
          (CalculateQueueWithMetadata st cfg.Minio req.ServiceID cfg.Threshold cfg.MinQueue
            cfg.MaxQueue).queue
          (CalculateQueueWithMetadata st cfg.Minio req.ServiceID cfg.Threshold cfg.MinQueue
            cfg.MaxQueue).count
          n cfg.BuildNumber req.ServiceID req.Category req.UID) ∧
    enabledReferenceManifest st rreq cfg tpl
      = .ok (mutationsInFlowOrder tpl
          (CalculateQueueWithMetadata st cfg.Minio rreq.ServiceID cfg.Threshold cfg.MinQueue
            cfg.MaxQueue).queue
          (CalculateQueueWithMetadata st cfg.Minio rreq.ServiceID cfg.Threshold cfg.MinQueue
            cfg.MaxQueue).count
          n cfg.BuildNumber rreq.ServiceID rreq.Category rreq.UID) := by
  constructor
  · unfold enabledCreateManifest GetExecutorInt mutationsInFlowOrder
    simp only [hn]
  · unfold enabledReferenceManifest mutationsInFlowOrder
    simp only [hn]

/-- C15 (amended), evaluated: a folder of three objects totalling 1500 bytes selects
`large` and count 3; every anchor of the template is rewritten. -/
theorem enabled_order_witness :
    enabledCreateManifest
        (sampleStore 0 [ObjectInfo.ofSize 500, ObjectInfo.ofSize 500, ObjectInfo.ofSize 500])
        (sampleCreate "data/") (sampleConfig "true" "5")
        ("name: SERVICE_ID_PLACEHOLDER\nv: BUILD_NUMBER\nqueue: q\nexecutor:\n" ++
          "  instances: 1\nsparkConf:\n  a: b").toList
      = .ok ("name: data-cat-u7\nv: 42\nqueue: root.large\nexecutor:\n" ++
          "  instances: 5\nsparkConf:\n  spark.file.count: 3\n\n  a: b").toList :=
  ((enabled_order
      (sampleStore 0 [ObjectInfo.ofSize 500, ObjectInfo.ofSize 500, ObjectInfo.ofSize 500])
      (sampleCreate "data/") (sampleReference "data/") (sampleConfig "true" "5")
      ("name: SERVICE_ID_PLACEHOLDER\nv: BUILD_NUMBER\nqueue: q\nexecutor:\n" ++
          "  instances: 1\nsparkConf:\n  a: b").toList 5 (by decide)).1).trans
    (congrArg Except.ok (by decide))

/-! ## Create flow against reference flow -/

/-- In enabled mode the create flow and the reference flow render the same manifest for
the same workload id, category and uid. -/
theorem enabled_flows_agree (st : Store) (req : CreateRequest) (rreq : ReferenceRequest)
    (cfg : ConfigSpec) (tpl : GoString) (hid : rreq.ServiceID = req.ServiceID)
    (hcat : rreq.Category = req.Category) (huid : rreq.UID = req.UID) :
    enabledReferenceManifest st rreq cfg tpl = enabledCreateManifest st req cfg tpl := by
  unfold enabledReferenceManifest enabledCreateManifest GetExecutorInt
  rw [hid, hcat, huid]

/-- C16 (failing input): disabled config, template `name: SERVICE_ID_PLACEHOLDER`, build
number `42`, workload id `job-BUILD_NUMBER`. The create flow labels first and stamps the
build number afterwards, so it submits `name: job-42`; the reference flow stamps first
and labels afterwards, so it returns `name: job-BUILD_NUMBER`. -/
theorem disabled_flows_differ :
    createFlowManifest emptyStore (sampleCreate "job-BUILD_NUMBER") (sampleConfig "false" "5")
        "name: SERVICE_ID_PLACEHOLDER".toList
      = .ok "name: job-42".toList ∧
    referenceFlowManifest emptyStore (sampleReference "job-BUILD_NUMBER")
        (sampleConfig "false" "5") "name: SERVICE_ID_PLACEHOLDER".toList
      = .ok "name: job-BUILD_NUMBER".toList ∧
    createFlowManifest emptyStore (sampleCreate "job-BUILD_NUMBER") (sampleConfig "false" "5")
        "name: SERVICE_ID_PLACEHOLDER".toList
      ≠ referenceFlowManifest emptyStore (sampleReference "job-BUILD_NUMBER")
        (sampleConfig "false" "5") "name: SERVICE_ID_PLACEHOLDER".toList := by
  have h1 : createFlowManifest emptyStore (sampleCreate "job-BUILD_NUMBER")
      (sampleConfig "false" "5") "name: SERVICE_ID_PLACEHOLDER".toList
      = .ok "name: job-42".toList := congrArg Except.ok (by decide)
  have h2 : referenceFlowManifest emptyStore (sampleReference "job-BUILD_NUMBER")
      (sampleConfig "false" "5") "name: SERVICE_ID_PLACEHOLDER".toList
      = .ok "name: job-BUILD_NUMBER".toList := congrArg Except.ok (by decide)
  refine ⟨h1, h2, ?_⟩
  rw [h1, h2]
  intro h
  injection h with h
  revert h
  decide

/-! ## Missing anchors -/

theorem queueScan_none (queue : GoString) (lines : List GoString)
    (h : ∀ l ∈ lines, startsWithKey "queue:" l = false) : queueScan queue lines = lines := by
  induction lines with
  | nil => rfl
  | cons l ls ih =>
    rw [queueScan]
    simp only [h l (List.mem_cons_self _ _), Bool.false_eq_true, if_false]
    rw [ih (fun x hx => h x (List.mem_cons_of_mem _ hx))]

theorem minMemberScan_no_marker (n : Int) (lines : List GoString)
    (h : ∀ l ∈ lines, Contains (TrimSpace l) taskGroupsMarker = false) :
    minMemberScan n false false lines = lines := by
  induction lines with
  | nil => rfl
  | cons l ls ih =>
    rw [minMemberScan]
    simp only [h l (List.mem_cons_self _ _), Bool.false_eq_true, if_false, Bool.false_and]
    rw [ih (fun x hx => h x (List.mem_cons_of_mem _ hx))]

theorem instancesScan_no_executor (n : Int) (lines : List GoString)
    (h : ∀ l ∈ lines, startsWithKey "executor:" l = false) :
    instancesScan n false lines = lines := by
  induction lines with
  | nil => rfl
  | cons l ls ih =>
    rw [instancesScan]
    simp only [h l (List.mem_cons_self _ _), Bool.false_eq_true, if_false, Bool.false_and]
    rw [ih (fun x hx => h x (List.mem_cons_of_mem _ hx))]

theorem fileCountLoop_no_sparkConf (lines : List GoString) (count : Int)
    (rem : List GoString) (h : ∀ l ∈ rem, startsWithKey "sparkConf:" l = false) :
    ∀ i, (fileCountLoop lines count i false rem).1 = none := by
  induction rem with
  | nil => intro i; rfl
  | cons l ls ih =>
    intro i
    rw [fileCountLoop]
    by_cases hk : startsWithKey "spark.file.count:" l = true
    · simp only [hk, if_true]
    · simp only [hk, h l (List.mem_cons_self _ _), Bool.false_eq_true, if_false,
        Bool.false_and, Bool.or_self]
      exact ih (fun x hx => h x (List.mem_cons_of_mem _ hx)) (i + 1)

theorem fileCountFallback_no_sparkConf (lines : List GoString) (count : Int)
    (rem : List GoString) (h : ∀ l ∈ rem, startsWithKey "sparkConf:" l = false) :
    ∀ i, fileCountFallback lines count i rem = none := by
  induction rem with
  | nil => intro i; rfl
  | cons l ls ih =>
    intro i
    rw [fileCountFallback]
    simp only [h l (List.mem_cons_self _ _), Bool.false_eq_true, if_false]
    exact ih (fun x hx => h x (List.mem_cons_of_mem _ hx)) (i + 1)

theorem ApplySparkFileCountToYAML_no_sparkConf (y : GoString) (count : Int)
    (h : ∀ l ∈ SplitLines y, startsWithKey "sparkConf:" l = false) :
    ApplySparkFileCountToYAML y count = y := by
  unfold ApplySparkFileCountToYAML
  have h1 := fileCountLoop_no_sparkConf (SplitLines y) count (SplitLines y) h 0
  have h2 := fileCountFallback_no_sparkConf (SplitLines y) count (SplitLines y) h 0
  cases hl : fileCountLoop (SplitLines y) count 0 false (SplitLines y) with
  | mk r found =>
    rw [hl] at h1
    simp only at h1
    subst h1
    cases found <;> simp [h2, hl]

/-- C17: every mutation step is a total function, and a manifest without the step's
anchor is returned unchanged: no `SERVICE_ID_PLACEHOLDER` (both identity functions), no
`BUILD_NUMBER`, no line whose trimmed content starts with `queue:`, no line containing
`yunikorn.apache.org/task-groups:`, no line whose trimmed content starts with
`executor:`, no line whose trimmed content starts with `sparkConf:`. -/
theorem missing_anchor_noop (y : GoString) :
    (Contains y servicePlaceholder = false →
      (∀ serviceID, ApplyServiceIDLabelsToYAML y serviceID = y) ∧
      (∀ serviceID category uid,
        ApplyServiceIDLabelsWithUIDToYAML y serviceID category uid = y)) ∧
    (Contains y buildToken = false → ∀ buildNumber, ApplyBuildNumberToYAML y buildNumber = y) ∧
    ((∀ l ∈ SplitLines y, startsWithKey "queue:" l = false) →
      ∀ queue, updateQueueInYAML y queue = y) ∧
    ((∀ l ∈ SplitLines y, Contains (TrimSpace l) taskGroupsMarker = false) →
      ∀ minMember, updateExecutorMinMemberInYAML y minMember = y) ∧
    ((∀ l ∈ SplitLines y, startsWithKey "executor:" l = false) →
      ∀ instances, UpdateExecutorInstances y instances = y) ∧
    ((∀ l ∈ SplitLines y, startsWithKey "sparkConf:" l = false) →
      ∀ count, ApplySparkFileCountToYAML y count = y) := by
  refine ⟨?_, ?_, ?_, ?_, ?_, ?_⟩
  · intro h
    exact ⟨fun _ => ReplaceAll_free _ _ _ (by decide) h,
      fun _ _ _ => ReplaceAll_free _ _ _ (by decide) h⟩
  · intro h b
    exact ReplaceAll_free _ _ _ (by decide) h
  · intro h q
    unfold updateQueueInYAML
    rw [queueScan_none q _ h, JoinLines_SplitLines]
  · intro h n
    unfold updateExecutorMinMemberInYAML
    rw [minMemberScan_no_marker n _ h, JoinLines_SplitLines]
  · intro h n
    unfold UpdateExecutorInstances
    rw [instancesScan_no_executor n _ h, JoinLines_SplitLines]
  · intro h c
    exact ApplySparkFileCountToYAML_no_sparkConf y c h

/-- C17, evaluated on a manifest that has none of the anchors but has lines that look
close to them (`instances:` outside any executor section, a `"minMember":` line, a
`spark.` entry). -/
theorem missing_anchor_noop_witness :
    ApplyServiceIDLabelsToYAML
        "kind: X\n  instances: 2\n  \"minMember\": 1,\n  spark.a: b\n".toList "svc".toList
      = "kind: X\n  instances: 2\n  \"minMember\": 1,\n  spark.a: b\n".toList ∧
    ApplyServiceIDLabelsWithUIDToYAML
        "kind: X\n  instances: 2\n  \"minMember\": 1,\n  spark.a: b\n".toList "svc".toList
        "cat".toList "u".toList
      = "kind: X\n  instances: 2\n  \"minMember\": 1,\n  spark.a: b\n".toList ∧
    ApplyBuildNumberToYAML
        "kind: X\n  instances: 2\n  \"minMember\": 1,\n  spark.a: b\n".toList "42".toList
      = "kind: X\n  instances: 2\n  \"minMember\": 1,\n  spark.a: b\n".toList ∧
    updateQueueInYAML
        "kind: X\n  instances: 2\n  \"minMember\": 1,\n  spark.a: b\n".toList "small".toList
      = "kind: X\n  instances: 2\n  \"minMember\": 1,\n  spark.a: b\n".toList ∧
    updateExecutorMinMemberInYAML
        "kind: X\n  instances: 2\n  \"minMember\": 1,\n  spark.a: b\n".toList 5
      = "kind: X\n  instances: 2\n  \"minMember\": 1,\n  spark.a: b\n".toList ∧
    UpdateExecutorInstances
        "kind: X\n  instances: 2\n  \"minMember\": 1,\n  spark.a: b\n".toList 5
      = "kind: X\n  instances: 2\n  \"minMember\": 1,\n  spark.a: b\n".toList ∧
    ApplySparkFileCountToYAML
        "kind: X\n  instances: 2\n  \"minMember\": 1,\n  spark.a: b\n".toList 3
      = "kind: X\n  instances: 2\n  \"minMember\": 1,\n  spark.a: b\n".toList :=
  have h := missing_anchor_noop
    "kind: X\n  instances: 2\n  \"minMember\": 1,\n  spark.a: b\n".toList
  ⟨(h.1 (by decide)).1 _, (h.1 (by decide)).2 _ _ _, h.2.1 (by decide) _,
   h.2.2.1 (by decide) _, h.2.2.2.1 (by decide) _, h.2.2.2.2.1 (by decide) _,
   h.2.2.2.2.2 (by decide) _⟩

/-! ## Shape of the gang-scheduling rewrite -/

theorem minMemberScan_shape (n : Int) (lines : List GoString) :
    ∀ inTG started : Bool, minMemberScan n inTG started lines = lines ∨
      ∃ pre line post, lines = pre ++ line :: post ∧
        Contains (TrimSpace line) minMemberText = true ∧
        minMemberScan n inTG started lines = pre ++ minMemberLine line n :: post := by
  induction lines with
  | nil => intro _ _; left; rfl
  | cons l ls ih =>
    intro inTG started
    have hkeep : ∀ a b : Bool, (l :: minMemberScan n a b ls = l :: ls) ∨
        ∃ pre line post, l :: ls = pre ++ line :: post ∧
          Contains (TrimSpace line) minMemberText = true ∧
          l :: minMemberScan n a b ls = pre ++ minMemberLine line n :: post := by
      intro a b
      rcases ih a b with h | ⟨pre, line, post, h1, h2, h3⟩
      · left; rw [h]
      · right
        exact ⟨l :: pre, line, post, by rw [h1]; rfl, h2, by rw [h3]; rfl⟩
    have hstep : ∀ a b : Bool,
        ((if (b && Contains (TrimSpace l) minMemberText) = true then
            minMemberLine l n :: ls
          else l :: minMemberScan n a b ls) = l :: ls) ∨
        ∃ pre line post, l :: ls = pre ++ line :: post ∧
          Contains (TrimSpace line) minMemberText = true ∧
          (if (b && Contains (TrimSpace l) minMemberText) = true then
            minMemberLine l n :: ls
          else l :: minMemberScan n a b ls) = pre ++ minMemberLine line n :: post := by
      intro a b
      by_cases hc : (b && Contains (TrimSpace l) minMemberText) = true
      · right
        simp only [hc, if_true]
        exact ⟨[], l, ls, rfl, (Bool.and_eq_true _ _ ▸ hc).2, rfl⟩
      · simp only [hc, if_false]
        exact hkeep a b
    rw [minMemberScan]
    by_cases hm : Contains (TrimSpace l) taskGroupsMarker = true
    · simp only [hm, if_true]
      exact hkeep true started
    · simp only [hm, Bool.false_eq_true, if_false]
      exact hstep _ _

/-- C18 as stated fails for the comma: with one task group per line, the executor line
`{"name": "spark-executor", "minMember": 2}` does not end with a comma, but the line
written in its place, `"minMember": 5,` behind the same eight spaces, does. -/
theorem minMember_comma_added :
    updateExecutorMinMemberInYAML
      (JoinLines
        [ "    yunikorn.apache.org/task-groups: |".toList,
          "      [".toList,
          "        \x7b\"name\": \"spark-driver\", \"minMember\": 1\x7d,".toList,
          "        \x7b\"name\": \"spark-executor\", \"minMember\": 2\x7d".toList,
          "      ]".toList ]) 5
      = JoinLines
        [ "    yunikorn.apache.org/task-groups: |".toList,
          "      [".toList,
          "        \x7b\"name\": \"spark-driver\", \"minMember\": 1\x7d,".toList,
          "        \"minMember\": 5,".toList,
          "      ]".toList ] ∧
    "        \x7b\"name\": \"spark-executor\", \"minMember\": 2\x7d".toList.getLast?
      ≠ some ',' ∧
    "        \"minMember\": 5,".toList.getLast? = some ',' := by
  refine ⟨by decide, by decide, by decide⟩

/-- C18 (amended): `updateExecutorMinMemberInYAML` either returns the text unchanged or
replaces exactly one line, which contains `"minMember":`, by
`<leading spaces of that line>"minMember": <count>,`; the new line has the leading spaces
of the original line and always ends with a comma, whether or not the original did. -/
theorem minMember_rewrite_shape (y : GoString) (minMember : Int) :
    updateExecutorMinMemberInYAML y minMember = y ∨
    ∃ pre line post, SplitLines y = pre ++ line :: post ∧
      Contains (TrimSpace line) minMemberText = true ∧
      updateExecutorMinMemberInYAML y minMember
        = JoinLines (pre ++ (leadingSpaces line ++ "\"minMember\": ".toList
            ++ fmtInt minMember ++ ",".toList) :: post) ∧
      leadingSpaces (leadingSpaces line ++ "\"minMember\": ".toList
            ++ fmtInt minMember ++ ",".toList) = leadingSpaces line ∧
      (leadingSpaces line ++ "\"minMember\": ".toList
            ++ fmtInt minMember ++ ",".toList).getLast? = some ',' := by
  unfold updateExecutorMinMemberInYAML
  rcases minMemberScan_shape minMember (SplitLines y) false false with
    h | ⟨pre, line, post, h1, h2, h3⟩
  · left
    rw [h, JoinLines_SplitLines]
  · right
    refine ⟨pre, line, post, h1, h2, ?_, ?_, ?_⟩
    · rw [h3, minMemberLine, RepeatSpace_indentWidth]
      rfl
    · rw [List.append_assoc, List.append_assoc]
      exact leadingSpaces_append _ _ (leadingSpaces_all line) (by simp)
    · exact List.getLast?_concat _

/-! ## Provisioning lookup and the enabled flag -/

theorem FindProvisionConfig_at (pre post : List ConfigSpec) (c : ConfigSpec)
    (provisionID : GoString) (hpre : ∀ x ∈ pre, x.ProvisionID ≠ provisionID)
    (hc : c.ProvisionID = provisionID) :
    FindProvisionConfig (pre ++ c :: post) provisionID = .ok c := by
  induction pre with
  | nil => simp [FindProvisionConfig, hc]
  | cons p ps ih =>
    rw [List.cons_append, FindProvisionConfig]
    simp only [hpre p (List.mem_cons_self _ _), if_false]
    exact ih (fun x hx => hpre x (List.mem_cons_of_mem _ hx))

theorem FindProvisionConfig_error_iff (configs : List ConfigSpec) (provisionID : GoString) :
    (∃ e, FindProvisionConfig configs provisionID = .error e) ↔
      ∀ c ∈ configs, c.ProvisionID ≠ provisionID := by
  induction configs with
  | nil => simp [FindProvisionConfig]
  | cons p ps ih =>
    rw [FindProvisionConfig]
    by_cases hp : p.ProvisionID = provisionID
    · simp [hp]
    · simp only [hp, if_false, ih, List.mem_cons, forall_eq_or_imp, ne_eq, not_false_eq_true,
        true_and]

theorem FindProvisionConfig_ok (configs : List ConfigSpec) (provisionID : GoString)
    (c : ConfigSpec) (h : FindProvisionConfig configs provisionID = .ok c) :
    ∃ pre post, configs = pre ++ c :: post ∧ (∀ x ∈ pre, x.ProvisionID ≠ provisionID) ∧
      c.ProvisionID = provisionID := by
  induction configs with
  | nil => simp [FindProvisionConfig] at h
  | cons p ps ih =>
    rw [FindProvisionConfig] at h
    by_cases hp : p.ProvisionID = provisionID
    · simp only [hp, if_true, Except.ok.injEq] at h
      subst h
      exact ⟨[], ps, rfl, by simp, hp⟩
    · simp only [hp, if_false] at h
      obtain ⟨pre, post, h1, h2, h3⟩ := ih h
      refine ⟨p :: pre, post, by rw [h1]; rfl, ?_, h3⟩
      intro x hx
      rcases List.mem_cons.mp hx with hx | hx
      · rw [hx]; exact hp
      · exact h2 x hx

/-- C19: `FindProvisionConfig` returns the first entry, in list order, whose provision id
equals the identifier (every successful result is such a first entry), and it fails if
and only if no entry has that identifier. -/
theorem provision_lookup (configs : List ConfigSpec) (provisionID : GoString) :
    (∀ pre c post, configs = pre ++ c :: post →
      (∀ x ∈ pre, x.ProvisionID ≠ provisionID) → c.ProvisionID = provisionID →
      FindProvisionConfig configs provisionID = .ok c) ∧
    (∀ c, FindProvisionConfig configs provisionID = .ok c →
      ∃ pre post, configs = pre ++ c :: post ∧
        (∀ x ∈ pre, x.ProvisionID ≠ provisionID) ∧ c.ProvisionID = provisionID) ∧
    ((∃ e, FindProvisionConfig configs provisionID = .error e) ↔
      ∀ c ∈ configs, c.ProvisionID ≠ provisionID) := by
  refine ⟨?_, FindProvisionConfig_ok configs provisionID,
    FindProvisionConfig_error_iff configs provisionID⟩
  intro pre c post hsplit hpre hc
  rw [hsplit]
  exact FindProvisionConfig_at pre post c provisionID hpre hc

/-- C19, evaluated: of two entries with id `p2` the first one is returned; an id that
differs only in case is not found. -/
theorem provision_lookup_witness :
    FindProvisionConfig
        [ { sampleConfig "true" "1" with ProvisionID := "p1".toList },
          sampleConfig "true" "2", sampleConfig "false" "3" ] "p2".toList
      = .ok (sampleConfig "true" "2") ∧
    (∃ e, FindProvisionConfig
        [ { sampleConfig "true" "1" with ProvisionID := "p1".toList },
          sampleConfig "true" "2", sampleConfig "false" "3" ] "P2".toList = .error e) ∧
    (∃ pre post,
      [ { sampleConfig "true" "1" with ProvisionID := "p1".toList },
        sampleConfig "true" "2", sampleConfig "false" "3" ]
        = pre ++ sampleConfig "true" "2" :: post ∧
      (∀ x ∈ pre, x.ProvisionID ≠ "p2".toList) ∧
      (sampleConfig "true" "2").ProvisionID = "p2".toList) :=
  have h := provision_lookup
    [ { sampleConfig "true" "1" with ProvisionID := "p1".toList },
      sampleConfig "true" "2", sampleConfig "false" "3" ] "p2".toList
  have h1 := h.1 [ { sampleConfig "true" "1" with ProvisionID := "p1".toList } ]
    (sampleConfig "true" "2") [sampleConfig "false" "3"] rfl (by decide) (by decide)
  ⟨h1,
   (provision_lookup
      [ { sampleConfig "true" "1" with ProvisionID := "p1".toList },
        sampleConfig "true" "2", sampleConfig "false" "3" ] "P2".toList).2.2.mpr (by decide),
   h.2.1 _ h1⟩

/-- C20: `IsProvisionEnabled` is true if and only if the `enabled` string is exactly
`true`; the empty string, `True`, `TRUE`, ` true`, `1` and `yes` are all disabled. -/
theorem enabled_flag (spec : ConfigSpec) :
    (IsProvisionEnabled spec = true ↔ spec.Enabled = "true".toList) ∧
    (IsProvisionEnabled spec = false ↔ spec.Enabled ≠ "true".toList) ∧
    (∀ v ∈ ["", "True", "TRUE", " true", "1", "yes", "true ", "false"],
      IsProvisionEnabled { spec with Enabled := String.toList v } = false) ∧
    IsProvisionEnabled { spec with Enabled := "true".toList } = true := by
  refine ⟨?_, ?_, ?_, ?_⟩
  · unfold IsProvisionEnabled
    exact decide_eq_true_iff
  · unfold IsProvisionEnabled
    exact decide_eq_false_iff_not
  · intro v hv
    unfold IsProvisionEnabled
    simp only [List.mem_cons, List.mem_singleton, List.not_mem_nil, or_false] at hv
    rcases hv with h | h | h | h | h | h | h | h <;> subst h <;>
      refine decide_eq_false ?_ <;> dsimp only <;> decide
  · unfold IsProvisionEnabled
    refine decide_eq_true ?_
    dsimp only

/-! ## Executor count -/

theorem digitValue_of_digit (c : Char) (h : decimalDigits.contains c = true) :
    digitValue c = some (decimalDigits.indexOf c) := by
  have hm : c ∈ decimalDigits := by simpa using h
  simp only [decimalDigits, String.toList, List.mem_cons, List.mem_singleton,
    List.not_mem_nil, or_false] at hm
  rcases hm with h | h | h | h | h | h | h | h | h | h <;> subst h <;> decide

theorem digitValue_of_not_digit (c : Char) (h : decimalDigits.contains c = false) :
    digitValue c = none := by
  unfold digitValue
  by_cases hr : 48 ≤ c.toNat ∧ c.toNat ≤ 57
  · exfalso
    have hc : c = Char.ofNat c.toNat := (Char.ofNat_toNat c).symm
    have hmem : c ∈ decimalDigits := by
      obtain ⟨h1, h2⟩ := hr
      rw [hc]
      generalize c.toNat = k at h1 h2
      interval_cases k
      · exact (show ('0' : Char) ∈ decimalDigits by decide)
      · exact (show ('1' : Char) ∈ decimalDigits by decide)
      · exact (show ('2' : Char) ∈ decimalDigits by decide)
      · exact (show ('3' : Char) ∈ decimalDigits by decide)
      · exact (show ('4' : Char) ∈ decimalDigits by decide)
      · exact (show ('5' : Char) ∈ decimalDigits by decide)
      · exact (show ('6' : Char) ∈ decimalDigits by decide)
      · exact (show ('7' : Char) ∈ decimalDigits by decide)
      · exact (show ('8' : Char) ∈ decimalDigits by decide)
      · exact (show ('9' : Char) ∈ decimalDigits by decide)
    have : decimalDigits.contains c = true := by simpa using hmem
    rw [h] at this
    exact absurd this (by decide)
  · simp [hr]

theorem parseDigits_spec (ds : GoString) :
    ∀ acc : Nat, parseDigits acc ds
      = if ds.all (fun c => decimalDigits.contains c) = true then
          some (ds.foldl (fun a c => a * 10 + decimalDigits.indexOf c) acc)
        else none := by
  induction ds with
  | nil => intro acc; simp [parseDigits]
  | cons c cs ih =>
    intro acc
    rw [parseDigits]
    cases hc : decimalDigits.contains c with
    | true =>
      rw [digitValue_of_digit c hc]
      simp only [List.all_cons, hc, Bool.true_and, List.foldl_cons]
      exact ih _
    | false =>
      rw [digitValue_of_not_digit c hc]
      simp only [List.all_cons, hc, Bool.false_and, Bool.false_eq_true, if_false]

theorem Atoi_digits_eq (s : GoString) :
    (if s.head? = some '-' ∨ s.head? = some '+' then s.tail else s) = unsignedPart s := by
  cases s with
  | nil => rfl
  | cons c cs =>
    by_cases h1 : c = '-'
    · subst h1; rfl
    · by_cases h2 : c = '+'
      · subst h2; rfl
      · have : unsignedPart (c :: cs) = c :: cs := by
          unfold unsignedPart
          split
          · rename_i h; simp at h; exact absurd h.1 h2
          · rename_i h; simp at h; exact absurd h.1 h1
          · rfl
        rw [this]
        simp [h1, h2]

theorem Atoi_unfold (s : GoString) :
    Atoi s
      = if unsignedPart s = [] then none
        else match parseDigits 0 (unsignedPart s) with
          | none => none
          | some n =>
            if -(2 ^ 63) ≤ (if s.head? = some '-' then -(n : Int) else (n : Int)) ∧
                (if s.head? = some '-' then -(n : Int) else (n : Int)) < 2 ^ 63 then
              some (if s.head? = some '-' then -(n : Int) else (n : Int))
            else none := by
  unfold Atoi
  simp only [Atoi_digits_eq]

theorem Atoi_spec (s : GoString) :
    (ValidExecutorCount s → Atoi s = some (decimalValue s)) ∧
    (¬ ValidExecutorCount s → Atoi s = none) := by
  rw [Atoi_unfold, parseDigits_spec]
  unfold ValidExecutorCount IsDecimalInteger decimalValue
  by_cases h0 : unsignedPart s = []
  · simp [h0]
  · by_cases hall : (unsignedPart s).all (fun c => decimalDigits.contains c) = true
    · simp only [h0, if_false, hall, if_true, bne_iff_ne, ne_eq, not_false_eq_true,
        Bool.and_self, true_and, Bool.and_true, decide_True]
      constructor
      · intro h
        simp only [h, and_self, if_true]
      · intro h
        simp only [h, if_false]
    · simp only [h0, if_false, hall, Bool.false_eq_true, Bool.and_false, false_and,
        not_false_eq_true, true_implies, false_implies, and_self]

theorem enabledCreateManifest_of_Atoi (st : Store) (req : CreateRequest) (cfg : ConfigSpec)
    (tpl : GoString) :
    enabledCreateManifest st req cfg tpl
      = match Atoi cfg.Executor with
        | none => .error (.executorConfig cfg.Executor)
        | some n => .ok (mutationsInFlowOrder tpl
            (CalculateQueueWithMetadata st cfg.Minio req.ServiceID cfg.Threshold
              cfg.MinQueue cfg.MaxQueue).queue
            (CalculateQueueWithMetadata st cfg.Minio req.ServiceID cfg.Threshold
              cfg.MinQueue cfg.MaxQueue).count
            n cfg.BuildNumber req.ServiceID req.Category req.UID) := by
  unfold enabledCreateManifest GetExecutorInt mutationsInFlowOrder
  cases Atoi cfg.Executor <;> rfl

theorem enabledReferenceManifest_of_Atoi (st : Store) (req : ReferenceRequest)
    (cfg : ConfigSpec) (tpl : GoString) :
    enabledReferenceManifest st req cfg tpl
      = match Atoi cfg.Executor with
        | none => .error (.executorConfig cfg.Executor)
        | some n => .ok (mutationsInFlowOrder tpl
            (CalculateQueueWithMetadata st cfg.Minio req.ServiceID cfg.Threshold
              cfg.MinQueue cfg.MaxQueue).queue
            (CalculateQueueWithMetadata st cfg.Minio req.ServiceID cfg.Threshold
              cfg.MinQueue cfg.MaxQueue).count
            n cfg.BuildNumber req.ServiceID req.Category req.UID) := by
  unfold enabledReferenceManifest mutationsInFlowOrder
  cases Atoi cfg.Executor <;> rfl

theorem validateRequest_of_bound (req : CreateRequest) (h : ShouldBindJSON req = false) :
    validateRequest req = false := by
  unfold ShouldBindJSON at h
  unfold validateRequest
  simp only [Bool.or_eq_false_iff] at h ⊢
  exact ⟨⟨⟨h.1.1.1.1, h.1.1.1.2⟩, h.1.1.2⟩, h.1.2⟩

/-- C21 as stated fails in one direction: `9223372036854775808` is a decimal integer,
but it does not fit a 64-bit `int`, so `strconv.Atoi` rejects it and both enabled flows
end with the executor configuration error. -/
theorem executor_count_out_of_range :
    IsDecimalInteger "9223372036854775808".toList = true ∧
    enabledCreateManifest emptyStore (sampleCreate "svc")
        (sampleConfig "true" "9223372036854775808") "queue: q".toList
      = .error (.executorConfig "9223372036854775808".toList) ∧
    enabledReferenceManifest emptyStore (sampleReference "svc")
        (sampleConfig "true" "9223372036854775808") "queue: q".toList
      = .error (.executorConfig "9223372036854775808".toList) := by
  refine ⟨by decide, ?_, ?_⟩
  · rw [enabledCreateManifest_of_Atoi]
    have : Atoi (sampleConfig "true" "9223372036854775808").Executor = none := by decide
    rw [this]
    rfl
  · rw [enabledReferenceManifest_of_Atoi]
    have : Atoi (sampleConfig "true" "9223372036854775808").Executor = none := by decide
    rw [this]
    rfl

/-- C21 (amended): an enabled flow (create and reference) fails if and only if the
executor count string is not a decimal integer (optional sign, digits) that fits a 64-bit
`int`. When it is one, its value is used for both the `minMember` and the `instances`
rewrite. When it is not, the create handler answers every request that passes binding
with the executor configuration error and sends nothing to the control plane, and the
reference handler returns no manifest. In the disabled path the string is never parsed
and the flow succeeds. -/
theorem executor_count_terminal (env : Env) (req : CreateRequest) (rreq : ReferenceRequest)
    (config : List ConfigSpec) (cfg : ConfigSpec) (tpl : GoString) :
    ((∃ e, enabledCreateManifest env.store req cfg tpl = .error e)
      ↔ ¬ ValidExecutorCount cfg.Executor) ∧
    ((∃ e, enabledReferenceManifest env.store rreq cfg tpl = .error e)
      ↔ ¬ ValidExecutorCount cfg.Executor) ∧
    (ValidExecutorCount cfg.Executor →
      enabledCreateManifest env.store req cfg tpl
        = .ok (mutationsInFlowOrder tpl
            (CalculateQueueWithMetadata env.store cfg.Minio req.ServiceID cfg.Threshold
              cfg.MinQueue cfg.MaxQueue).queue
            (CalculateQueueWithMetadata env.store cfg.Minio req.ServiceID cfg.Threshold
              cfg.MinQueue cfg.MaxQueue).count
            (decimalValue cfg.Executor) cfg.BuildNumber req.ServiceID req.Category
            req.UID)) ∧
    (IsProvisionEnabled cfg = true → ¬ ValidExecutorCount cfg.Executor →
      ShouldBindJSON req = false → env.loadConfig = .ok config →
      FindProvisionConfig config req.ProvisionID = .ok cfg →
      env.loadTemplate req.ProvisionID = .ok tpl →
      CreateSparkApplication env req
        = (.error (.executorConfig (.executorConfig cfg.Executor)), [])) ∧
    (IsProvisionEnabled cfg = true → ¬ ValidExecutorCount cfg.Executor →
      validateReferenceRequest rreq = false → env.loadConfig = .ok config →
      FindProvisionConfig config rreq.ProvisionID = .ok cfg →
      env.loadTemplate rreq.ProvisionID = .ok tpl →
      GetSparkReference env rreq
        = .error (.executorConfig (.executorConfig cfg.Executor))) ∧
    (IsProvisionEnabled cfg = false →
      createFlowManifest env.store req cfg tpl
        = .ok (disabledCreateManifest req cfg tpl) ∧
      referenceFlowManifest env.store rreq cfg tpl
        = .ok (disabledReferenceManifest rreq cfg tpl)) := by
  have hspec := Atoi_spec cfg.Executor
  refine ⟨?_, ?_, ?_, ?_, ?_, ?_⟩
  · rw [enabledCreateManifest_of_Atoi]
    by_cases hv : ValidExecutorCount cfg.Executor
    · rw [hspec.1 hv]; simp [hv]
    · rw [hspec.2 hv]; simp [hv]
  · rw [enabledReferenceManifest_of_Atoi]
    by_cases hv : ValidExecutorCount cfg.Executor
    · rw [hspec.1 hv]; simp [hv]
    · rw [hspec.2 hv]; simp [hv]
  · intro hv
    rw [enabledCreateManifest_of_Atoi, hspec.1 hv]
  · intro hen hv hbind hcfg hfind htpl
    have hval := validateRequest_of_bound req hbind
    unfold CreateSparkApplication
    simp only [hbind, hval, Bool.false_eq_true, if_false, hcfg, hfind, htpl,
      createFlowManifest, hen, Bool.not_true]
    rw [enabledCreateManifest_of_Atoi, hspec.2 hv]
  · intro hen hv hval hcfg hfind htpl
    unfold GetSparkReference
    simp only [hval, Bool.false_eq_true, if_false, hcfg, hfind, htpl, referenceFlowManifest,
      hen, Bool.not_true]
    rw [enabledReferenceManifest_of_Atoi, hspec.2 hv]
  · intro hen
    simp [createFlowManifest, referenceFlowManifest, hen]

/-- C21 (amended), evaluated: executor count `5` rewrites both lines with 5; executor
count `x` ends the enabled create handler without any control-plane call and the enabled
reference handler without a manifest; with `enabled = "false"` the same `x` is harmless. -/
theorem executor_count_terminal_witness :
    enabledCreateManifest emptyStore (sampleCreate "svc") (sampleConfig "true" "5")
        ("yunikorn.apache.org/task-groups: |\n" ++
          "  \x7b\"name\": \"spark-executor\", \"minMember\": 1\x7d\nexecutor:\n" ++
          "  instances: 1").toList
      = .ok ("yunikorn.apache.org/task-groups: |\n  \"minMember\": 5,\nexecutor:\n" ++
          "  instances: 5").toList ∧
    CreateSparkApplication (sampleEnv (sampleConfig "true" "x") "queue: q" sampleControlPlane)
        (sampleCreate "svc")
      = (.error (.executorConfig (.executorConfig "x".toList)), []) ∧
    GetSparkReference (sampleEnv (sampleConfig "true" "x") "queue: q" sampleControlPlane)
        (sampleReference "svc")
      = .error (.executorConfig (.executorConfig "x".toList)) ∧
    createFlowManifest emptyStore (sampleCreate "svc") (sampleConfig "false" "x")
        "queue: q".toList
      = .ok "queue: q".toList ∧
    (∃ e, enabledReferenceManifest emptyStore (sampleReference "svc")
        (sampleConfig "true" "x") "queue: q".toList = .error e) :=
  have hx : ¬ ValidExecutorCount (sampleConfig "true" "x").Executor :=
    fun h => absurd h.1 (by decide)
  have h5 : ValidExecutorCount (sampleConfig "true" "5").Executor :=
    ⟨by decide, by decide, by decide⟩
  ⟨((executor_count_terminal
        (sampleEnv (sampleConfig "true" "5") "" sampleControlPlane) (sampleCreate "svc")
        (sampleReference "svc") [sampleConfig "true" "5"] (sampleConfig "true" "5")
        ("yunikorn.apache.org/task-groups: |\n" ++
          "  \x7b\"name\": \"spark-executor\", \"minMember\": 1\x7d\nexecutor:\n" ++
          "  instances: 1").toList).2.2.1 h5).trans
      (congrArg Except.ok (by decide)),
   (executor_count_terminal
        (sampleEnv (sampleConfig "true" "x") "queue: q" sampleControlPlane)
        (sampleCreate "svc") (sampleReference "svc") [sampleConfig "true" "x"]
        (sampleConfig "true" "x") "queue: q".toList).2.2.2.1
      (by decide) hx (by decide) rfl rfl rfl,
   (executor_count_terminal
        (sampleEnv (sampleConfig "true" "x") "queue: q" sampleControlPlane)
        (sampleCreate "svc") (sampleReference "svc") [sampleConfig "true" "x"]
        (sampleConfig "true" "x") "queue: q".toList).2.2.2.2.1
      (by decide) hx (by decide) rfl rfl rfl,
   ((executor_count_terminal
        (sampleEnv (sampleConfig "false" "x") "queue: q" sampleControlPlane)
        (sampleCreate "svc") (sampleReference "svc") [sampleConfig "false" "x"]
        (sampleConfig "false" "x") "queue: q".toList).2.2.2.2.2 (by decide)).1.trans
      (congrArg Except.ok (by decide)),
   (executor_count_terminal
        (sampleEnv (sampleConfig "true" "x") "queue: q" sampleControlPlane)
        (sampleCreate "svc") (sampleReference "svc") [sampleConfig "true" "x"]
        (sampleConfig "true" "x") "queue: q".toList).2.1.mpr hx⟩

/-! ## Submission to the control plane -/

theorem submit_unfold (cp : ControlPlane) (yamlStr : GoString) (u : Resource)
    (hinit : cp.initError = none) (hparse : cp.parse yamlStr = .ok u) (hname : u.name ≠ []) :
    CreateSparkApplicationCRFromYAML cp yamlStr
      = match cp.get [] u.name (submittedNamespace u) with
        | .ok existing =>
          match cp.delete [Call.get u.name (submittedNamespace u)] existing with
          | some e =>
            (.error (.deleteFailed e),
              [Call.get u.name (submittedNamespace u), Call.delete existing])
          | none =>
            match cp.create [Call.get u.name (submittedNamespace u), Call.delete existing]
                (submittedResource u) with
            | some e =>
              (.error (.createFailed e),
                [Call.get u.name (submittedNamespace u), Call.delete existing,
                  Call.create (submittedResource u)])
            | none =>
              (.ok { Name := u.name, Namespace := submittedNamespace u },
                [Call.get u.name (submittedNamespace u), Call.delete existing,
                  Call.create (submittedResource u)])
        | .error _ =>
          match cp.create [Call.get u.name (submittedNamespace u)] (submittedResource u) with
          | some e =>
            (.error (.createFailed e),
              [Call.get u.name (submittedNamespace u), Call.create (submittedResource u)])
          | none =>
            (.ok { Name := u.name, Namespace := submittedNamespace u },
              [Call.get u.name (submittedNamespace u), Call.create (submittedResource u)]) := by
  have hu : (if (setSparkGVK u).ns = [] then
        ({ apiVersion := (setSparkGVK u).apiVersion, kind := (setSparkGVK u).kind,
           name := u.name, ns := submittedNamespace u, body := (setSparkGVK u).body }
          : Resource)
      else setSparkGVK u) = submittedResource u := by
    unfold submittedResource submittedNamespace setSparkGVK
    by_cases h : u.ns = [] <;> simp [h]
  have hn : (if (setSparkGVK u).ns = [] then "default".toList else (setSparkGVK u).ns)
      = submittedNamespace u := rfl
  have hname2 : (setSparkGVK u).name = u.name := rfl
  unfold CreateSparkApplicationCRFromYAML
  simp only [hinit, hparse, hname2, hname, if_false, hn, List.singleton_append,
    List.cons_append, List.nil_append]
  rw [hu]

/-- C22: when `Get` finds an existing resource with the manifest's name and namespace,
the submitter issues `Delete` on it; if that fails it returns the delete error and the
calls are `Get`, `Delete` only; otherwise the calls are exactly `Get`, `Delete`, `Create`
in this order (no other kind of request exists in the submitter) and the submission
succeeds if and only if `Create` does. -/
theorem replace_if_exists (cp : ControlPlane) (yamlStr : GoString) (u existing : Resource)
    (hinit : cp.initError = none) (hparse : cp.parse yamlStr = .ok u) (hname : u.name ≠ [])
    (hget : cp.get [] u.name (submittedNamespace u) = .ok existing) :
    (∀ e, cp.delete [Call.get u.name (submittedNamespace u)] existing = some e →
      CreateSparkApplicationCRFromYAML cp yamlStr
        = (.error (.deleteFailed e),
            [Call.get u.name (submittedNamespace u), Call.delete existing])) ∧
    (cp.delete [Call.get u.name (submittedNamespace u)] existing = none →
      (CreateSparkApplicationCRFromYAML cp yamlStr).2
        = [Call.get u.name (submittedNamespace u), Call.delete existing,
            Call.create (submittedResource u)] ∧
      ((CreateSparkApplicationCRFromYAML cp yamlStr).1
          = .ok { Name := u.name, Namespace := submittedNamespace u }
        ↔ cp.create [Call.get u.name (submittedNamespace u), Call.delete existing]
            (submittedResource u) = none)) := by
  rw [submit_unfold cp yamlStr u hinit hparse hname]
  simp only [hget]
  constructor
  · intro e he
    simp only [he]
  · intro hd
    simp only [hd]
    cases hc : cp.create [Call.get u.name (submittedNamespace u), Call.delete existing]
      (submittedResource u) with
    | none => simp
    | some e => simp

/-- C22, evaluated: `job` exists in `default`; with a working `Delete` the calls are
`Get`, `Delete`, `Create`; with a failing `Delete` no `Create` is sent. -/
theorem replace_if_exists_witness :
    CreateSparkApplicationCRFromYAML
        (controlPlaneWith "job" "" (.ok existingJob) none none) "new".toList
      = (.ok { Name := "job".toList, Namespace := "default".toList },
          [Call.get "job".toList "default".toList, Call.delete existingJob,
            Call.create { apiVersion := "sparkoperator.k8s.io/v1beta2".toList,
                          kind := "SparkApplication".toList, name := "job".toList,
                          ns := "default".toList, body := "new".toList }]) ∧
    CreateSparkApplicationCRFromYAML
        (controlPlaneWith "job" "" (.ok existingJob) (some "forbidden".toList) none)
        "new".toList
      = (.error (.deleteFailed "forbidden".toList),
          [Call.get "job".toList "default".toList, Call.delete existingJob]) :=
  have h1 := (replace_if_exists (controlPlaneWith "job" "" (.ok existingJob) none none)
    "new".toList
    { apiVersion := [], kind := [], name := "job".toList, ns := [], body := "new".toList }
    existingJob rfl rfl (by decide) rfl).2 rfl
  ⟨Prod.ext (h1.2.mpr rfl) h1.1,
   (replace_if_exists
      (controlPlaneWith "job" "" (.ok existingJob) (some "forbidden".toList) none)
      "new".toList
      { apiVersion := [], kind := [], name := "job".toList, ns := [], body := "new".toList }
      existingJob rfl rfl (by decide) rfl).1 "forbidden".toList rfl⟩

/-- Whatever the reason `Get` fails for, the submitter goes on to `Create`. -/
theorem get_failure_still_creates (cp : ControlPlane) (yamlStr : GoString) (u : Resource)
    (f : GetFailure) (hinit : cp.initError = none) (hparse : cp.parse yamlStr = .ok u)
    (hname : u.name ≠ []) (hget : cp.get [] u.name (submittedNamespace u) = .error f) :
    (CreateSparkApplicationCRFromYAML cp yamlStr).2
      = [Call.get u.name (submittedNamespace u), Call.create (submittedResource u)] := by
  rw [submit_unfold cp yamlStr u hinit hparse hname]
  simp only [hget]
  cases cp.create [Call.get u.name (submittedNamespace u)] (submittedResource u) <;> rfl

/-- C23 (failing input): `Get` fails with a connectivity error and `Create` then
succeeds. The submitter does not stop: it sends `Create` and reports success. -/
theorem get_unavailable_still_creates :
    CreateSparkApplicationCRFromYAML
        (controlPlaneWith "job" "" (.error (.unavailable "connection refused".toList))
          none none) "new".toList
      = (.ok { Name := "job".toList, Namespace := "default".toList },
          [Call.get "job".toList "default".toList,
            Call.create { apiVersion := "sparkoperator.k8s.io/v1beta2".toList,
                          kind := "SparkApplication".toList, name := "job".toList,
                          ns := "default".toList, body := "new".toList }]) := by
  rfl

/-- C24: if the parsed manifest has an empty (or absent) `metadata.name`, the submitter
returns an error, no result, and sends no request to the control plane. -/
theorem missing_name_rejected (cp : ControlPlane) (yamlStr : GoString) (u : Resource)
    (hparse : cp.parse yamlStr = .ok u) (hname : u.name = []) :
    (∃ e, (CreateSparkApplicationCRFromYAML cp yamlStr).1 = .error e) ∧
    (CreateSparkApplicationCRFromYAML cp yamlStr).2 = [] ∧
    (cp.initError = none →
      CreateSparkApplicationCRFromYAML cp yamlStr = (.error .noName, [])) := by
  have hname2 : (setSparkGVK u).name = [] := hname
  unfold CreateSparkApplicationCRFromYAML
  cases hi : cp.initError with
  | some e => simp
  | none => simp [hparse, hname2]

/-- C24, evaluated: a manifest without name, against a control plane that would answer
every request. -/
theorem missing_name_rejected_witness :
    CreateSparkApplicationCRFromYAML (controlPlaneWith "" "spark" (.ok existingJob) none none)
        "kind: SparkApplication".toList
      = (.error .noName, []) :=
  (missing_name_rejected (controlPlaneWith "" "spark" (.ok existingJob) none none)
    "kind: SparkApplication".toList
    { apiVersion := [], kind := [], name := [], ns := "spark".toList,
      body := "kind: SparkApplication".toList } rfl rfl).2.2 rfl

/-- C25: a successful submission of a manifest with a name returns that name; the
namespace of the result, of the `Get` (the first call) and of the created resource (the
last call) is `default` when the manifest gives none, and the manifest's namespace
otherwise. -/
theorem namespace_default (cp : ControlPlane) (yamlStr : GoString) (u : Resource)
    (res : CreateResult) (hparse : cp.parse yamlStr = .ok u) (hname : u.name ≠ [])
    (hok : (CreateSparkApplicationCRFromYAML cp yamlStr).1 = .ok res) :
    res.Name = u.name ∧
    (u.ns = [] → res.Namespace = "default".toList ∧
      (CreateSparkApplicationCRFromYAML cp yamlStr).2.head?
        = some (Call.get u.name "default".toList) ∧
      (CreateSparkApplicationCRFromYAML cp yamlStr).2.getLast?
        = some (Call.create { u with apiVersion := "sparkoperator.k8s.io/v1beta2".toList,
                                     kind := "SparkApplication".toList,
                                     ns := "default".toList })) ∧
    (u.ns ≠ [] → res.Namespace = u.ns ∧
      (CreateSparkApplicationCRFromYAML cp yamlStr).2.head? = some (Call.get u.name u.ns) ∧
      (CreateSparkApplicationCRFromYAML cp yamlStr).2.getLast?
        = some (Call.create { u with apiVersion := "sparkoperator.k8s.io/v1beta2".toList,
                                     kind := "SparkApplication".toList })) := by
  have hinit : cp.initError = none := by
    cases hi : cp.initError with
    | none => rfl
    | some e =>
      unfold CreateSparkApplicationCRFromYAML at hok
      simp [hi] at hok
  have hmain : res = { Name := u.name, Namespace := submittedNamespace u } ∧
      (CreateSparkApplicationCRFromYAML cp yamlStr).2.head?
        = some (Call.get u.name (submittedNamespace u)) ∧
      (CreateSparkApplicationCRFromYAML cp yamlStr).2.getLast?
        = some (Call.create (submittedResource u)) := by
    rw [submit_unfold cp yamlStr u hinit hparse hname] at hok ⊢
    cases hg : cp.get [] u.name (submittedNamespace u) with
    | ok existing =>
      simp only [hg] at hok ⊢
      cases hd : cp.delete [Call.get u.name (submittedNamespace u)] existing with
      | some e => simp [hd] at hok
      | none =>
        simp only [hd] at hok ⊢
        cases hc : cp.create [Call.get u.name (submittedNamespace u), Call.delete existing]
          (submittedResource u) with
        | some e => simp [hc] at hok
        | none =>
          simp only [hc, Except.ok.injEq] at hok ⊢
          exact ⟨hok.symm, rfl, rfl⟩
    | error f =>
      simp only [hg] at hok ⊢
      cases hc : cp.create [Call.get u.name (submittedNamespace u)] (submittedResource u) with
      | some e => simp [hc] at hok
      | none =>
        simp only [hc, Except.ok.injEq] at hok ⊢
        exact ⟨hok.symm, rfl, rfl⟩
  obtain ⟨hres, hhead, hlast⟩ := hmain
  refine ⟨by rw [hres], ?_, ?_⟩
  · intro hns
    rw [hres, hhead, hlast]
    simp [submittedNamespace, submittedResource, hns]
  · intro hns
    rw [hres, hhead, hlast]
    simp [submittedNamespace, submittedResource, hns]

/-- C25, evaluated: `job` without namespace is queried and created in `default`; `job` in
namespace `spark` is queried and created there. -/
theorem namespace_default_witness :
    ((CreateSparkApplicationCRFromYAML sampleControlPlane "y".toList).2.head?
        = some (Call.get "job".toList "default".toList) ∧
      (CreateSparkApplicationCRFromYAML sampleControlPlane "y".toList).2.getLast?
        = some (Call.create { apiVersion := "sparkoperator.k8s.io/v1beta2".toList,
                              kind := "SparkApplication".toList, name := "job".toList,
                              ns := "default".toList, body := "y".toList })) ∧
    ((CreateSparkApplicationCRFromYAML
          (controlPlaneWith "job" "spark" (.error .notFound) none none) "y".toList).2.head?
        = some (Call.get "job".toList "spark".toList) ∧
      (CreateSparkApplicationCRFromYAML
          (controlPlaneWith "job" "spark" (.error .notFound) none none) "y".toList).2.getLast?
        = some (Call.create { apiVersion := "sparkoperator.k8s.io/v1beta2".toList,
                              kind := "SparkApplication".toList, name := "job".toList,
                              ns := "spark".toList, body := "y".toList })) :=
  ⟨((namespace_default sampleControlPlane "y".toList
      { apiVersion := [], kind := [], name := "job".toList, ns := [], body := "y".toList }
      { Name := "job".toList, Namespace := "default".toList } rfl (by decide) rfl).2.1
      rfl).2,
   ((namespace_default (controlPlaneWith "job" "spark" (.error .notFound) none none)
      "y".toList
      { apiVersion := [], kind := [], name := "job".toList, ns := "spark".toList,
        body := "y".toList }
      { Name := "job".toList, Namespace := "spark".toList } rfl (by decide) rfl).2.2
      (by decide)).2⟩

/-! ## Gate of the file-count annotation -/

/-- C26: with a parsable executor count, an enabled flow applies
`ApplySparkFileCountToYAML` (with the sizing count) if and only if sizing returned
`objectCount > 0`: then the manifest is the five later steps applied to the annotated
template, otherwise it is the five later steps applied to the template itself, so no
line comes from the file-count step. The step is skipped for every workload id that does
not end with `/` and for every failed sizing. -/
theorem file_count_gate (st : Store) (req : CreateRequest) (rreq : ReferenceRequest)
    (cfg : ConfigSpec) (tpl : GoString) (n : Int) (hn : Atoi cfg.Executor = some n) :
    ((CalculateQueueWithMetadata st cfg.Minio req.ServiceID cfg.Threshold cfg.MinQueue
          cfg.MaxQueue).count > 0 →
      enabledCreateManifest st req cfg tpl
        = .ok (mutationsInFlowOrder
            (ApplySparkFileCountToYAML tpl
              (CalculateQueueWithMetadata st cfg.Minio req.ServiceID cfg.Threshold
                cfg.MinQueue cfg.MaxQueue).count)
            (CalculateQueueWithMetadata st cfg.Minio req.ServiceID cfg.Threshold cfg.MinQueue
              cfg.MaxQueue).queue
            0 n cfg.BuildNumber req.ServiceID req.Category req.UID)) ∧
    ((¬ (CalculateQueueWithMetadata st cfg.Minio req.ServiceID cfg.Threshold cfg.MinQueue
          cfg.MaxQueue).count > 0 ∨ HasSuffix req.ServiceID ['/'] = false ∨
        (CalculateQueueWithMetadata st cfg.Minio req.ServiceID cfg.Threshold cfg.MinQueue
          cfg.MaxQueue).err ≠ none) →
      enabledCreateManifest st req cfg tpl
        = .ok (mutationsInFlowOrder tpl
            (CalculateQueueWithMetadata st cfg.Minio req.ServiceID cfg.Threshold cfg.MinQueue
              cfg.MaxQueue).queue
            0 n cfg.BuildNumber req.ServiceID req.Category req.UID)) ∧
    ((CalculateQueueWithMetadata st cfg.Minio rreq.ServiceID cfg.Threshold cfg.MinQueue
          cfg.MaxQueue).count > 0 →
      enabledReferenceManifest st rreq cfg tpl
        = .ok (mutationsInFlowOrder
            (ApplySparkFileCountToYAML tpl
              (CalculateQueueWithMetadata st cfg.Minio rreq.ServiceID cfg.Threshold
                cfg.MinQueue cfg.MaxQueue).count)
            (CalculateQueueWithMetadata st cfg.Minio rreq.ServiceID cfg.Threshold
              cfg.MinQueue cfg.MaxQueue).queue
            0 n cfg.BuildNumber rreq.ServiceID rreq.Category rreq.UID)) ∧
    ((¬ (CalculateQueueWithMetadata st cfg.Minio rreq.ServiceID cfg.Threshold cfg.MinQueue
          cfg.MaxQueue).count > 0 ∨ HasSuffix rreq.ServiceID ['/'] = false ∨
        (CalculateQueueWithMetadata st cfg.Minio rreq.ServiceID cfg.Threshold cfg.MinQueue
          cfg.MaxQueue).err ≠ none) →
      enabledReferenceManifest st rreq cfg tpl
        = .ok (mutationsInFlowOrder tpl
            (CalculateQueueWithMetadata st cfg.Minio rreq.ServiceID cfg.Threshold
              cfg.MinQueue cfg.MaxQueue).queue
            0 n cfg.BuildNumber rreq.ServiceID rreq.Category rreq.UID)) := by
  have hskip : ∀ id : GoString,
      (¬ (CalculateQueueWithMetadata st cfg.Minio id cfg.Threshold cfg.MinQueue
          cfg.MaxQueue).count > 0 ∨ HasSuffix id ['/'] = false ∨
        (CalculateQueueWithMetadata st cfg.Minio id cfg.Threshold cfg.MinQueue
          cfg.MaxQueue).err ≠ none) →
      ¬ (CalculateQueueWithMetadata st cfg.Minio id cfg.Threshold cfg.MinQueue
          cfg.MaxQueue).count > 0 := by
    intro id h
    rcases h with h | h | h
    · exact h
    · have hc : (CalculateQueueWithMetadata st cfg.Minio id cfg.Threshold cfg.MinQueue
          cfg.MaxQueue).count = 0 := by
        unfold CalculateQueueWithMetadata
        simp only [h, Bool.false_eq_true, if_false]
        cases getMinIOMetadata st (BuildMinioPath cfg.Minio id) with
        | error e => rfl
        | ok m => by_cases hm : m.Size < cfg.Threshold <;> simp [hm]
      rw [hc]; decide
    · rw [(CalculateQueueWithMetadata_failed st cfg.Minio id cfg.Threshold cfg.MinQueue
        cfg.MaxQueue h).2.2.2]
      decide
  refine ⟨?_, ?_, ?_, ?_⟩
  · intro hpos
    rw [enabledCreateManifest_of_Atoi, hn]
    simp [mutationsInFlowOrder, hpos]
  · intro h
    rw [enabledCreateManifest_of_Atoi, hn]
    simp [mutationsInFlowOrder, hskip _ h]
  · intro hpos
    rw [enabledReferenceManifest_of_Atoi, hn]
    simp [mutationsInFlowOrder, hpos]
  · intro h
    rw [enabledReferenceManifest_of_Atoi, hn]
    simp [mutationsInFlowOrder, hskip _ h]

/-- C26, evaluated: the folder `data/` with two objects gets `spark.file.count: 2`; the
single object `data` and the empty folder `none/` (failed sizing) get no such line. -/
theorem file_count_gate_witness :
    enabledCreateManifest (sampleStore 10 [ObjectInfo.ofSize 5, ObjectInfo.ofSize 6])
        (sampleCreate "data/") (sampleConfig "true" "2") "sparkConf:\n  a: b".toList
      = .ok "sparkConf:\n  spark.file.count: 2\n\n  a: b".toList ∧
    enabledCreateManifest (sampleStore 10 [ObjectInfo.ofSize 5, ObjectInfo.ofSize 6])
        (sampleCreate "data") (sampleConfig "true" "2") "sparkConf:\n  a: b".toList
      = .ok "sparkConf:\n  a: b".toList ∧
    enabledReferenceManifest (sampleStore 10 [ObjectInfo.ofSize 5, ObjectInfo.ofSize 6])
        (sampleReference "data/") (sampleConfig "true" "2") "sparkConf:\n  a: b".toList
      = .ok "sparkConf:\n  spark.file.count: 2\n\n  a: b".toList ∧
    enabledReferenceManifest emptyStore (sampleReference "none/") (sampleConfig "true" "2")
        "sparkConf:\n  a: b".toList
      = .ok "sparkConf:\n  a: b".toList :=
  ⟨((file_count_gate (sampleStore 10 [ObjectInfo.ofSize 5, ObjectInfo.ofSize 6])
        (sampleCreate "data/") (sampleReference "data/") (sampleConfig "true" "2")
        "sparkConf:\n  a: b".toList 2 (by decide)).1 (by decide)).trans
      (congrArg Except.ok (by decide)),
   ((file_count_gate (sampleStore 10 [ObjectInfo.ofSize 5, ObjectInfo.ofSize 6])
        (sampleCreate "data") (sampleReference "data/") (sampleConfig "true" "2")
        "sparkConf:\n  a: b".toList 2 (by decide)).2.1 (Or.inr (Or.inl (by decide)))).trans
      (congrArg Except.ok (by decide)),
   ((file_count_gate (sampleStore 10 [ObjectInfo.ofSize 5, ObjectInfo.ofSize 6])
        (sampleCreate "data/") (sampleReference "data/") (sampleConfig "true" "2")
        "sparkConf:\n  a: b".toList 2 (by decide)).2.2.1 (by decide)).trans
      (congrArg Except.ok (by decide)),
   ((file_count_gate emptyStore (sampleCreate "data/") (sampleReference "none/")
        (sampleConfig "true" "2") "sparkConf:\n  a: b".toList 2 (by decide)).2.2.2
        (Or.inr (Or.inr (by decide)))).trans
      (congrArg Except.ok (by decide))⟩

/-! ## Required request fields -/

theorem CreateSparkApplication_not_validation (env : Env) (req : CreateRequest)
    (calls : List Call) : CreateSparkApplication env req ≠ (.error .validation, calls) := by
  unfold CreateSparkApplication
  by_cases hbind : ShouldBindJSON req = true
  · simp [hbind]
  · have hb2 : ShouldBindJSON req = false := Bool.eq_false_iff.mpr hbind
    have hval := validateRequest_of_bound req hb2
    simp only [hb2, hval, Bool.false_eq_true, if_false]
    split
    · simp
    · split
      · simp
      · split
        · simp
        · split
          · simp
          · split <;> simp

/-- C28: `validateRequest` rejects exactly the create requests in which provision id,
service id, category or region is empty, and `validateReferenceRequest` exactly the
reference requests in which provision id, service id, category or uid is empty. The
reference handler answers a rejected request with the validation error before anything
else, so whenever it returns a manifest the uid is non-empty and the identity written by
an enabled flow has the form `<id>-<category>-<uid>`. In the create handler the binding
of the body comes first and also requires the uid: every request that `validateRequest`
would reject, and every request with an empty uid, is answered with the binding error
and nothing is sent to the control plane. -/
theorem required_fields (env : Env) (req : CreateRequest) (rreq : ReferenceRequest) :
    (validateRequest req = true ↔
      (req.ProvisionID = [] ∨ req.ServiceID = [] ∨ req.Category = [] ∨ req.Region = [])) ∧
    (validateReferenceRequest rreq = true ↔
      (rreq.ProvisionID = [] ∨ rreq.ServiceID = [] ∨ rreq.Category = [] ∨ rreq.UID = [])) ∧
    (validateReferenceRequest rreq = true → GetSparkReference env rreq = .error .validation) ∧
    (ShouldBindJSON req = true ↔
      (req.ProvisionID = [] ∨ req.ServiceID = [] ∨ req.Category = [] ∨ req.Region = []
        ∨ req.UID = [])) ∧
    (validateRequest req = true ∨ req.UID = [] →
      CreateSparkApplication env req = (.error .binding, [])) ∧
    (∀ calls, CreateSparkApplication env req ≠ (.error .validation, calls)) ∧
    (∀ y, GetSparkReference env rreq = .ok y →
      rreq.UID ≠ [] ∧
      uidReplacement rreq.ServiceID rreq.Category rreq.UID
        = TrimRightSlash rreq.ServiceID ++ '-' :: rreq.Category ++ '-' :: rreq.UID) := by
  have hv : validateReferenceRequest rreq = true ↔
      (rreq.ProvisionID = [] ∨ rreq.ServiceID = [] ∨ rreq.Category = [] ∨ rreq.UID = []) := by
    simp [validateReferenceRequest, or_assoc]
  have hc : validateRequest req = true ↔
      (req.ProvisionID = [] ∨ req.ServiceID = [] ∨ req.Category = [] ∨ req.Region = []) := by
    simp [validateRequest, or_assoc]
  have hb : ShouldBindJSON req = true ↔
      (req.ProvisionID = [] ∨ req.ServiceID = [] ∨ req.Category = [] ∨ req.Region = []
        ∨ req.UID = []) := by
    simp [ShouldBindJSON, or_assoc]
  refine ⟨hc, hv, ?_, hb, ?_, ?_, ?_⟩
  · intro h
    simp [GetSparkReference, h]
  · intro h
    have hbind : ShouldBindJSON req = true := by
      rcases h with h | h
      · rcases hc.mp h with h1 | h1 | h1 | h1
        · exact hb.mpr (Or.inl h1)
        · exact hb.mpr (Or.inr (Or.inl h1))
        · exact hb.mpr (Or.inr (Or.inr (Or.inl h1)))
        · exact hb.mpr (Or.inr (Or.inr (Or.inr (Or.inl h1))))
      · exact hb.mpr (Or.inr (Or.inr (Or.inr (Or.inr h))))
    simp [CreateSparkApplication, hbind]
  · intro calls
    exact CreateSparkApplication_not_validation env req calls
  · intro y hy
    have hu : rreq.UID ≠ [] := by
      intro hempty
      have hrej : validateReferenceRequest rreq = true := hv.mpr (Or.inr (Or.inr (Or.inr hempty)))
      simp [GetSparkReference, hrej] at hy
    refine ⟨hu, ?_⟩
    simp [uidReplacement, hu]

/-- C28, evaluated: a reference request without uid is rejected by validation before the
config is read; a create request without region and a create request without uid (which
`validateRequest` alone would let pass) are both rejected by the binding, with no call
to the control plane. -/
theorem required_fields_witness :
    GetSparkReference (sampleEnv (sampleConfig "true" "2") "queue: q" sampleControlPlane)
        { ProvisionID := "p2".toList, ServiceID := "svc".toList, Category := "cat".toList,
          UID := [] }
      = .error .validation ∧
    CreateSparkApplication (sampleEnv (sampleConfig "true" "2") "queue: q" sampleControlPlane)
        { ProvisionID := "p2".toList, ServiceID := "svc".toList, Category := "cat".toList,
          Region := [], UID := "u7".toList }
      = (.error .binding, []) ∧
    validateRequest
        { ProvisionID := "p2".toList, ServiceID := "svc".toList, Category := "cat".toList,
          Region := "ic".toList, UID := [] } = false ∧
    CreateSparkApplication (sampleEnv (sampleConfig "true" "2") "queue: q" sampleControlPlane)
        { ProvisionID := "p2".toList, ServiceID := "svc".toList, Category := "cat".toList,
          Region := "ic".toList, UID := [] }
      = (.error .binding, []) ∧
    (sampleReference "svc").UID ≠ [] :=
  have h := required_fields
    (sampleEnv (sampleConfig "true" "2") "queue: q" sampleControlPlane)
    { ProvisionID := "p2".toList, ServiceID := "svc".toList, Category := "cat".toList,
      Region := [], UID := "u7".toList }
    { ProvisionID := "p2".toList, ServiceID := "svc".toList, Category := "cat".toList,
      UID := [] }
  ⟨h.2.2.1 (by decide), h.2.2.2.2.1 (Or.inl (by decide)), by decide,
   (required_fields (sampleEnv (sampleConfig "true" "2") "queue: q" sampleControlPlane)
      { ProvisionID := "p2".toList, ServiceID := "svc".toList, Category := "cat".toList,
        Region := "ic".toList, UID := [] }
      (sampleReference "svc")).2.2.2.2.1 (Or.inr rfl),
   ((required_fields (sampleEnv (sampleConfig "true" "2") "queue: q" sampleControlPlane)
      (sampleCreate "svc") (sampleReference "svc")).2.2.2.2.2.2
      "queue: root.small".toList rfl).1⟩

/-! ## Bucket and object -/

theorem joinFold_append (ps : List GoString) :
    ∀ a b : GoString, ps.foldl (fun acc q => acc ++ '/' :: q) (a ++ b)
      = a ++ ps.foldl (fun acc q => acc ++ '/' :: q) b := by
  induction ps with
  | nil => intro a b; rfl
  | cons q qs ih =>
    intro a b
    simp only [List.foldl_cons, List.append_assoc]
    exact ih a (b ++ '/' :: q)

theorem joinPath_cons_cons (p q : GoString) (qs : List GoString) :
    joinPath (p :: q :: qs) = p ++ '/' :: joinPath (q :: qs) := by
  unfold joinPath
  simp only [List.foldl_cons]
  have h : p ++ '/' :: q = (p ++ ['/']) ++ q := by simp
  rw [h, joinFold_append]
  simp

theorem splitPathGo_ne_nil (s : GoString) : ∀ cur, splitPathGo '/' cur s ≠ [] := by
  induction s with
  | nil => intro cur; simp [splitPathGo]
  | cons c cs ih =>
    intro cur
    rw [splitPathGo]
    by_cases hc : c = '/'
    · simp [hc]
    · simp only [hc, if_false]
      exact ih _

theorem joinPath_splitPathGo (s : GoString) :
    ∀ cur, joinPath (splitPathGo '/' cur s) = cur.reverse ++ s := by
  induction s with
  | nil => intro cur; simp [splitPathGo, joinPath]
  | cons c cs ih =>
    intro cur
    rw [splitPathGo]
    by_cases hc : c = '/'
    · simp only [hc, if_true]
      cases hs : splitPathGo '/' [] cs with
      | nil => exact absurd hs (splitPathGo_ne_nil cs [])
      | cons q qs =>
        rw [joinPath_cons_cons, ← hs, ih []]
        simp
    · simp only [hc, if_false]
      rw [ih (c :: cur)]
      simp

theorem splitPathGo_no_slash (s : GoString) (h : '/' ∉ s) :
    ∀ cur, splitPathGo '/' cur s = [cur.reverse ++ s] := by
  induction s with
  | nil => intro cur; simp [splitPathGo]
  | cons c cs ih =>
    intro cur
    have hc : c ≠ '/' := fun e => h (by simp [e])
    rw [splitPathGo]
    simp only [hc, if_false]
    rw [ih (fun e => h (List.mem_cons_of_mem _ e)) (c :: cur)]
    simp

theorem splitPathGo_first_slash (a rest : GoString) (h : '/' ∉ a) :
    ∀ cur, splitPathGo '/' cur (a ++ '/' :: rest)
      = (cur.reverse ++ a) :: splitPathGo '/' [] rest := by
  induction a with
  | nil => intro cur; simp [splitPathGo]
  | cons c cs ih =>
    intro cur
    have hc : c ≠ '/' := fun e => h (by simp [e])
    rw [List.cons_append, splitPathGo]
    simp only [hc, if_false]
    rw [ih (fun e => h (List.mem_cons_of_mem _ e)) (c :: cur)]
    simp

theorem parseMinioPath_split (a rest : GoString) (h : '/' ∉ a) :
    parseMinioPath (a ++ '/' :: rest) = .ok (a, rest) := by
  unfold parseMinioPath splitPath
  have hne : a ++ '/' :: rest ≠ [] := by simp
  simp only [hne, if_false]
  rw [splitPathGo_first_slash a rest h []]
  cases hs : splitPathGo '/' [] rest with
  | nil => exact absurd hs (splitPathGo_ne_nil rest [])
  | cons q qs =>
    simp only [List.reverse_nil, List.nil_append]
    rw [← hs, joinPath_splitPathGo]
    simp

theorem parseMinioPath_no_slash (path : GoString) (h : '/' ∉ path) :
    parseMinioPath path = .error (.badPath path) := by
  unfold parseMinioPath splitPath
  by_cases hp : path = []
  · simp [hp]
  · simp only [hp, if_false]
    rw [splitPathGo_no_slash path h []]

theorem first_slash (path : GoString) (h : '/' ∈ path) :
    ∃ a rest, path = a ++ '/' :: rest ∧ '/' ∉ a := by
  induction path with
  | nil => simp at h
  | cons c cs ih =>
    by_cases hc : c = '/'
    · exact ⟨[], cs, by simp [hc], by simp⟩
    · have hcs : '/' ∈ cs := by
        rcases List.mem_cons.mp h with e | e
        · exact absurd e.symm hc
        · exact e
      obtain ⟨a, rest, h1, h2⟩ := ih hcs
      refine ⟨c :: a, rest, by rw [h1]; rfl, ?_⟩
      intro hm
      rcases List.mem_cons.mp hm with e | e
      · exact hc e.symm
      · exact h2 e

/-- C30: `parseMinioPath` fails if and only if the path contains no `/`. When it
succeeds, the bucket contains no `/` and the path is bucket, `/`, object: the bucket is
the part before the first `/` and the object everything after it. `joinPath` undoes
`splitPath` on every path. -/
theorem bucket_object_split (path : GoString) :
    ((∃ e, parseMinioPath path = .error e) ↔ '/' ∉ path) ∧
    (∀ bucket object, parseMinioPath path = .ok (bucket, object) →
      '/' ∉ bucket ∧ path = bucket ++ "/".toList ++ object) ∧
    (∀ bucket object, '/' ∉ bucket → path = bucket ++ "/".toList ++ object →
      parseMinioPath path = .ok (bucket, object)) ∧
    joinPath (splitPath path) = path := by
  refine ⟨?_, ?_, ?_, ?_⟩
  · constructor
    · rintro ⟨e, he⟩ hmem
      obtain ⟨a, rest, h1, h2⟩ := first_slash path hmem
      rw [h1, parseMinioPath_split a rest h2] at he
      simp at he
    · intro h
      exact ⟨_, parseMinioPath_no_slash path h⟩
  · intro bucket object hok
    by_cases hmem : '/' ∈ path
    · obtain ⟨a, rest, h1, h2⟩ := first_slash path hmem
      rw [h1, parseMinioPath_split a rest h2] at hok
      simp only [Except.ok.injEq, Prod.mk.injEq] at hok
      rw [← hok.1, ← hok.2, h1]
      exact ⟨h2, by simp⟩
    · rw [parseMinioPath_no_slash path hmem] at hok
      simp at hok
  · intro bucket object hb hp
    rw [hp]
    have : bucket ++ "/".toList ++ object = bucket ++ '/' :: object := by simp
    rw [this]
    exact parseMinioPath_split bucket object hb
  · by_cases hne : path = []
    · rw [hne]; rfl
    · unfold splitPath
      simp only [hne, if_false]
      rw [joinPath_splitPathGo]
      simp

/-- C30, evaluated: `bkt/a/b` splits into `bkt` and `a/b`; `/x` has the empty bucket;
`plain` fails. -/
theorem bucket_object_split_witness :
    parseMinioPath "bkt/a/b".toList = .ok ("bkt".toList, "a/b".toList) ∧
    parseMinioPath "/x".toList = .ok ([], "x".toList) ∧
    (∃ e, parseMinioPath "plain".toList = .error e) ∧
    ('/' ∉ "bkt".toList ∧ "bkt/a/".toList = "bkt".toList ++ "/".toList ++ "a/".toList) ∧
    joinPath (splitPath "a//b/".toList) = "a//b/".toList :=
  ⟨(bucket_object_split "bkt/a/b".toList).2.2.1 "bkt".toList "a/b".toList (by decide)
      (by decide),
   (bucket_object_split "/x".toList).2.2.1 [] "x".toList (by decide) (by decide),
   (bucket_object_split "plain".toList).1.mpr (by decide),
   (bucket_object_split "bkt/a/".toList).2.1 "bkt".toList "a/".toList rfl,
   (bucket_object_split "a//b/".toList).2.2.2⟩

/-! ## Printed integers and trimmed keys -/

theorem digitChar_ne_newline (d : Nat) (h : d < 10) : Nat.digitChar d ≠ '\n' := by
  interval_cases d <;> decide

theorem toDigitsCore_no_newline (fuel : Nat) :
    ∀ (n : Nat) (ds : List Char), '\n' ∉ ds → '\n' ∉ Nat.toDigitsCore 10 fuel n ds := by
  induction fuel with
  | zero => intro n ds h; simpa [Nat.toDigitsCore] using h
  | succ fuel ih =>
    intro n ds h
    have hd : '\n' ∉ Nat.digitChar (n % 10) :: ds := by
      intro hm
      rcases List.mem_cons.mp hm with e | e
      · exact digitChar_ne_newline _ (Nat.mod_lt _ (by decide)) e.symm
      · exact h e
    rw [Nat.toDigitsCore]
    split
    · exact hd
    · exact ih _ _ hd

theorem fmtInt_no_newline (n : Int) : '\n' ∉ fmtInt n := by
  cases n with
  | ofNat k => exact toDigitsCore_no_newline _ _ _ (by simp)
  | negSucc k =>
    intro hm
    rcases List.mem_cons.mp hm with e | e
    · exact absurd e (by decide)
    · exact toDigitsCore_no_newline _ _ _ (by simp) e

theorem dropWhile_keeps_suffix (p : Char → Bool) (a b : GoString)
    (hb : (b.head?.map p) = some false) : ∃ a2, (a ++ b).dropWhile p = a2 ++ b := by
  induction a with
  | nil =>
    cases b with
    | nil => simp at hb
    | cons x xs =>
      simp only [List.head?_cons, Option.map_some', Option.some.injEq] at hb
      exact ⟨[], by simp [List.dropWhile_cons, hb]⟩
  | cons c cs ih =>
    obtain ⟨a2, h2⟩ := ih
    by_cases hc : p c = true
    · exact ⟨a2, by rw [List.cons_append, List.dropWhile_cons]; simp [hc, h2]⟩
    · exact ⟨c :: cs, by rw [List.cons_append, List.dropWhile_cons]; simp [hc]⟩

theorem dropWhile_spaces_append (sp t : GoString) (hsp : ∀ c ∈ sp, isSpace c = true)
    (ht : (t.head?.map isSpace) = some false) : (sp ++ t).dropWhile isSpace = t := by
  induction sp with
  | nil =>
    cases t with
    | nil => simp at ht
    | cons x xs =>
      simp only [List.head?_cons, Option.map_some', Option.some.injEq] at ht
      simp [List.dropWhile_cons, ht]
  | cons c cs ih =>
    rw [List.cons_append, List.dropWhile_cons]
    simp only [hsp c (List.mem_cons_self _ _), if_true]
    exact ih (fun x hx => hsp x (List.mem_cons_of_mem _ hx))

/-- A line made of spaces, then a key that neither starts nor ends with white space,
then anything, has trimmed content starting with the key. -/
theorem startsWithKey_indented (key : String) (sp rest : GoString)
    (hsp : ∀ c ∈ sp, isSpace c = true)
    (h1 : (key.toList.head?.map isSpace) = some false)
    (h2 : (key.toList.reverse.head?.map isSpace) = some false) :
    startsWithKey key (sp ++ key.toList ++ rest) = true := by
  unfold startsWithKey TrimSpace HasPrefix
  have hhead : ((key.toList ++ rest).head?.map isSpace) = some false := by
    cases hk : key.toList with
    | nil => rw [hk] at h1; simp at h1
    | cons x xs => rw [hk] at h1; simpa using h1
  rw [List.append_assoc, dropWhile_spaces_append sp _ hsp hhead, List.reverse_append]
  obtain ⟨a2, ha⟩ := dropWhile_keeps_suffix isSpace rest.reverse key.toList.reverse h2
  rw [ha, List.reverse_append, List.reverse_reverse, List.isPrefixOf_iff_prefix]
  exact List.prefix_append _ _

theorem isSpace_of_space (sp : GoString) (h : ∀ c ∈ sp, c = ' ') :
    ∀ c ∈ sp, isSpace c = true := by
  intro c hc
  rw [h c hc]
  decide

theorem fileCountLine_is_key (line : GoString) (count : Int) :
    startsWithKey "spark.file.count:" (fileCountLine (leadingSpaces line) count) = true := by
  have h : fileCountLine (leadingSpaces line) count
      = leadingSpaces line ++ "spark.file.count:".toList ++ (' ' :: fmtInt count) := by
    unfold fileCountLine
    have : "spark.file.count: ".toList = "spark.file.count:".toList ++ [' '] := by decide
    rw [this]
    simp
  rw [h]
  exact startsWithKey_indented "spark.file.count:" _ _
    (isSpace_of_space _ (leadingSpaces_all line)) (by decide) (by decide)

theorem fileCountLine_no_newline (line : GoString) (count : Int) :
    '\n' ∉ fileCountLine (leadingSpaces line) count := by
  unfold fileCountLine
  intro hm
  rcases List.mem_append.mp hm with h | h
  · rcases List.mem_append.mp h with h | h
    · exact leadingSpaces_no_newline line h
    · revert h; decide
  · exact fmtInt_no_newline count h

/-! ## Re-applying the file-count annotation -/

theorem fileCountLoop_cases (lines : List GoString) (count : Int) :
    ∀ rem pre : List GoString, lines = pre ++ rem →
      (∀ l ∈ pre, startsWithKey "spark.file.count:" l = false ∧
        startsWithKey "sparkConf:" l = false) →
      fileCountLoop lines count pre.length false rem = (none, true) ∨
      (fileCountLoop lines count pre.length false rem = (none, false) ∧
        ∀ l ∈ lines, startsWithKey "sparkConf:" l = false) ∨
      ∃ pre2 sc nxt post, lines = pre2 ++ sc :: nxt :: post ∧
        (∀ l ∈ pre2, startsWithKey "spark.file.count:" l = false ∧
          startsWithKey "sparkConf:" l = false) ∧
        startsWithKey "sparkConf:" sc = true ∧
        startsWithKey "spark.file.count:" sc = false ∧
        startsWithKey "spark.file.count:" nxt = false := by
  intro rem
  induction rem with
  | nil =>
    intro pre hl hpre
    right; left
    refine ⟨rfl, ?_⟩
    intro l hmem
    rw [hl, List.append_nil] at hmem
    exact (hpre l hmem).2
  | cons l rest ih =>
    intro pre hl hpre
    by_cases hs : startsWithKey "spark.file.count:" l = true
    · left
      rw [fileCountLoop]
      simp only [hs, if_true]
    · have hs2 : startsWithKey "spark.file.count:" l = false := Bool.eq_false_iff.mpr hs
      by_cases hc : startsWithKey "sparkConf:" l = true
      · cases rest with
        | nil =>
          left
          rw [fileCountLoop]
          simp only [hs2, hc, Bool.false_eq_true, if_false, Bool.false_and, Bool.false_or]
          rfl
        | cons nxt post =>
          by_cases hn : startsWithKey "spark.file.count:" nxt = true
          · left
            rw [fileCountLoop]
            simp only [hs2, hc, Bool.false_eq_true, if_false, Bool.false_and, Bool.false_or]
            rw [fileCountLoop]
            simp only [hn, if_true]
          · right; right
            exact ⟨pre, l, nxt, post, hl, hpre, hc, hs2, Bool.eq_false_iff.mpr hn⟩
      · have hc2 : startsWithKey "sparkConf:" l = false := Bool.eq_false_iff.mpr hc
        have hstep : fileCountLoop lines count pre.length false (l :: rest)
            = fileCountLoop lines count (pre ++ [l]).length false rest := by
          rw [fileCountLoop]
          simp only [hs2, hc2, Bool.false_eq_true, if_false, Bool.false_and, Bool.or_self,
            List.length_append, List.length_singleton]
        rw [hstep]
        apply ih (pre ++ [l]) (by rw [hl]; simp)
        intro x hx
        rcases List.mem_append.mp hx with h | h
        · exact hpre x h
        · simp only [List.mem_singleton] at h
          rw [h]; exact ⟨hs2, hc2⟩

theorem ApplySparkFileCountToYAML_cases (y : GoString) :
    (∀ c, ApplySparkFileCountToYAML y c = y) ∨
    ∃ pre sc nxt post, SplitLines y = pre ++ sc :: nxt :: post ∧
      (∀ l ∈ pre, startsWithKey "spark.file.count:" l = false ∧
        startsWithKey "sparkConf:" l = false) ∧
      startsWithKey "sparkConf:" sc = true ∧
      startsWithKey "spark.file.count:" sc = false ∧
      startsWithKey "spark.file.count:" nxt = false := by
  by_cases hex : ∃ pre sc nxt post, SplitLines y = pre ++ sc :: nxt :: post ∧
      (∀ l ∈ pre, startsWithKey "spark.file.count:" l = false ∧
        startsWithKey "sparkConf:" l = false) ∧
      startsWithKey "sparkConf:" sc = true ∧
      startsWithKey "spark.file.count:" sc = false ∧
      startsWithKey "spark.file.count:" nxt = false
  · right; exact hex
  · left
    intro c
    have h := fileCountLoop_cases (SplitLines y) c (SplitLines y) [] rfl (by simp)
    simp only [List.length_nil] at h
    unfold ApplySparkFileCountToYAML
    rcases h with h | ⟨h, hall⟩ | h
    · simp [h]
    · simp [h, fileCountFallback_no_sparkConf (SplitLines y) c (SplitLines y) hall 0]
    · exact absurd h hex

theorem ApplySparkFileCountToYAML_existing_first (y : GoString) (count : Int)
    (pre rest : List GoString) (sc e : GoString)
    (hsplit : SplitLines y = pre ++ sc :: e :: rest)
    (hpre : ∀ l ∈ pre, startsWithKey "spark.file.count:" l = false ∧
      startsWithKey "sparkConf:" l = false)
    (hsc : startsWithKey "sparkConf:" sc = true)
    (hsc2 : startsWithKey "spark.file.count:" sc = false)
    (he : startsWithKey "spark.file.count:" e = true) :
    ApplySparkFileCountToYAML y count = y := by
  have hloop : fileCountLoop (pre ++ sc :: e :: rest) count 0 false (pre ++ sc :: e :: rest)
      = (none, true) := by
    rw [fileCountLoop_skip _ _ pre _ hpre 0, fileCountLoop]
    simp only [hsc2, hsc, Bool.false_eq_true, if_false, Bool.false_and, Bool.false_or]
    rw [fileCountLoop]
    simp only [he, if_true]
  unfold ApplySparkFileCountToYAML
  simp only [hsplit, hloop, if_true]

/-- C27: for every manifest `y` and all counts `c`, `c2`, applying the file-count
annotation to an annotated manifest returns it unchanged:
`ApplySparkFileCountToYAML (ApplySparkFileCountToYAML y c) c2 = ApplySparkFileCountToYAML y c`. -/
theorem file_count_reapply (y : GoString) (c c2 : Int) :
    ApplySparkFileCountToYAML (ApplySparkFileCountToYAML y c) c2
      = ApplySparkFileCountToYAML y c := by
  rcases ApplySparkFileCountToYAML_cases y with h | ⟨pre, sc, nxt, post, hs, hpre, hsc, hsc2, hn⟩
  · rw [h c, h c2]
  · have hall := SplitLines_no_newline y
    rw [hs] at hall
    have hins := ApplySparkFileCountToYAML_inserts y c pre post sc nxt hs hpre hsc hsc2 hn
    have hshape : pre ++ sc :: fileCountLine (leadingSpaces nxt) c
          :: List.replicate (post.length + 1) [] ++ nxt :: post
        = pre ++ sc :: fileCountLine (leadingSpaces nxt) c
          :: (List.replicate (post.length + 1) [] ++ nxt :: post) := by
      simp
    rw [hshape] at hins
    rw [hins]
    apply ApplySparkFileCountToYAML_existing_first _ c2 pre
      (List.replicate (post.length + 1) [] ++ nxt :: post) sc
      (fileCountLine (leadingSpaces nxt) c) _ hpre hsc hsc2 (fileCountLine_is_key nxt c)
    apply SplitLines_JoinLines _ (by simp)
    intro l hl
    rcases List.mem_append.mp hl with h | h
    · exact hall l (List.mem_append_left _ h)
    · rcases List.mem_cons.mp h with h | h
      · rw [h]; exact hall sc (by simp)
      · rcases List.mem_cons.mp h with h | h
        · rw [h]; exact fileCountLine_no_newline nxt c
        · rcases List.mem_append.mp h with h | h
          · rw [(List.mem_replicate.mp h).2]; simp
          · exact hall l (by
              rcases List.mem_cons.mp h with h | h
              · simp [h]
              · simp [h])

/-! ## One line at most -/

theorem queueScan_shape (queue : GoString) (lines : List GoString) :
    queueScan queue lines = lines ∨
      ∃ pre line post, lines = pre ++ line :: post ∧
        queueScan queue lines = pre ++ queueLine line queue :: post := by
  induction lines with
  | nil => left; rfl
  | cons l ls ih =>
    rw [queueScan]
    by_cases h : startsWithKey "queue:" l = true
    · right
      simp only [h, if_true]
      exact ⟨[], l, ls, rfl, rfl⟩
    · have h2 : startsWithKey "queue:" l = false := Bool.eq_false_iff.mpr h
      simp only [h2, Bool.false_eq_true, if_false]
      rcases ih with h1 | ⟨pre, line, post, h1, h3⟩
      · left; rw [h1]
      · right
        exact ⟨l :: pre, line, post, by rw [h1]; rfl, by rw [h3]; rfl⟩

theorem instancesScan_shape (n : Int) (lines : List GoString) :
    ∀ b : Bool, instancesScan n b lines = lines ∨
      ∃ pre line post, lines = pre ++ line :: post ∧
        instancesScan n b lines = pre ++ instancesLine line n :: post := by
  induction lines with
  | nil => intro _; left; rfl
  | cons l ls ih =>
    intro b
    have hkeep : ∀ a : Bool, (l :: instancesScan n a ls = l :: ls) ∨
        ∃ pre line post, l :: ls = pre ++ line :: post ∧
          l :: instancesScan n a ls = pre ++ instancesLine line n :: post := by
      intro a
      rcases ih a with h | ⟨pre, line, post, h1, h2⟩
      · left; rw [h]
      · right
        exact ⟨l :: pre, line, post, by rw [h1]; rfl, by rw [h2]; rfl⟩
    have hstep : ∀ a : Bool,
        ((if (a && startsWithKey "instances:" l) = true then instancesLine l n :: ls
          else l :: instancesScan n a ls) = l :: ls) ∨
        ∃ pre line post, l :: ls = pre ++ line :: post ∧
          (if (a && startsWithKey "instances:" l) = true then instancesLine l n :: ls
          else l :: instancesScan n a ls) = pre ++ instancesLine line n :: post := by
      intro a
      by_cases hc : (a && startsWithKey "instances:" l) = true
      · right
        simp only [hc, if_true]
        exact ⟨[], l, ls, rfl, rfl⟩
      · simp only [hc, if_false]
        exact hkeep a
    rw [instancesScan]
    by_cases he : startsWithKey "executor:" l = true
    · simp only [he, if_true]
      exact hkeep true
    · have he2 : startsWithKey "executor:" l = false := Bool.eq_false_iff.mpr he
      simp only [he2, Bool.false_eq_true, if_false]
      exact hstep _

theorem differs_refl (y : GoString) : DiffersInAtMostOneLine y y :=
  ⟨rfl, 0, fun _ _ => rfl⟩

theorem differs_of_replaced_line (y : GoString) (pre post : List GoString)
    (old new : GoString) (hs : SplitLines y = pre ++ old :: post) (hnew : '\n' ∉ new) :
    DiffersInAtMostOneLine y (JoinLines (pre ++ new :: post)) := by
  have hall := SplitLines_no_newline y
  rw [hs] at hall
  have hsplit : SplitLines (JoinLines (pre ++ new :: post)) = pre ++ new :: post := by
    apply SplitLines_JoinLines _ (by simp)
    intro l hl
    rcases List.mem_append.mp hl with h | h
    · exact hall l (List.mem_append_left _ h)
    · rcases List.mem_cons.mp h with h | h
      · rw [h]; exact hnew
      · exact hall l (List.mem_append_right _ (List.mem_cons_of_mem _ h))
  unfold DiffersInAtMostOneLine
  rw [hsplit, hs]
  refine ⟨by simp, pre.length, ?_⟩
  intro j hj
  by_cases hlt : j < pre.length
  · rw [List.getElem?_append_left hlt, List.getElem?_append_left hlt]
  · have hge : pre.length ≤ j := by omega
    rw [List.getElem?_append_right hge, List.getElem?_append_right hge]
    obtain ⟨k, hk⟩ : ∃ k, j - pre.length = k + 1 := ⟨j - pre.length - 1, by omega⟩
    rw [hk, List.getElem?_cons_succ, List.getElem?_cons_succ]

theorem RepeatSpace_no_newline (n : Nat) : '\n' ∉ RepeatSpace n := by
  unfold RepeatSpace
  intro h
  have := (List.mem_replicate.mp h).2
  revert this
  decide

/-- C29: for every manifest, every queue name without a newline and every integer
count, the text returned by `updateQueueInYAML`, by `updateExecutorMinMemberInYAML` and by
`UpdateExecutorInstances` has as many lines as the input and differs from it in at most
one line. -/
theorem line_scan_frame (y queue : GoString) (count : Int) (hq : '\n' ∉ queue) :
    DiffersInAtMostOneLine y (updateQueueInYAML y queue) ∧
    DiffersInAtMostOneLine y (updateExecutorMinMemberInYAML y count) ∧
    DiffersInAtMostOneLine y (UpdateExecutorInstances y count) := by
  refine ⟨?_, ?_, ?_⟩
  · unfold updateQueueInYAML
    rcases queueScan_shape queue (SplitLines y) with h | ⟨pre, line, post, h1, h2⟩
    · rw [h, JoinLines_SplitLines]; exact differs_refl y
    · rw [h2]
      apply differs_of_replaced_line y pre post line _ h1
      unfold queueLine
      intro hm
      rcases List.mem_append.mp hm with h | h
      · rcases List.mem_append.mp h with h | h
        · exact RepeatSpace_no_newline _ h
        · revert h; decide
      · exact hq h
  · unfold updateExecutorMinMemberInYAML
    rcases minMemberScan_shape count (SplitLines y) false false with
      h | ⟨pre, line, post, h1, _, h2⟩
    · rw [h, JoinLines_SplitLines]; exact differs_refl y
    · rw [h2]
      apply differs_of_replaced_line y pre post line _ h1
      unfold minMemberLine
      intro hm
      rcases List.mem_append.mp hm with h | h
      · rcases List.mem_append.mp h with h | h
        · rcases List.mem_append.mp h with h | h
          · exact RepeatSpace_no_newline _ h
          · revert h; decide
        · exact fmtInt_no_newline count h
      · revert h; decide
  · unfold UpdateExecutorInstances
    rcases instancesScan_shape count (SplitLines y) false with h | ⟨pre, line, post, h1, h2⟩
    · rw [h, JoinLines_SplitLines]; exact differs_refl y
    · rw [h2]
      apply differs_of_replaced_line y pre post line _ h1
      unfold instancesLine
      intro hm
      rcases List.mem_append.mp hm with h | h
      · rcases List.mem_append.mp h with h | h
        · exact RepeatSpace_no_newline _ h
        · revert h; decide
      · exact fmtInt_no_newline count h

/-- C29, evaluated on a three-line manifest: the queue rewrite keeps three lines and
changes only the second. -/
theorem line_scan_frame_witness :
    DiffersInAtMostOneLine "spec:\n  queue: q\nexecutor:".toList
      (updateQueueInYAML "spec:\n  queue: q\nexecutor:".toList "small".toList) ∧
    updateQueueInYAML "spec:\n  queue: q\nexecutor:".toList "small".toList
      = "spec:\n  queue: root.small\nexecutor:".toList :=
  ⟨(line_scan_frame "spec:\n  queue: q\nexecutor:".toList "small".toList 3 (by decide)).1,
   by decide⟩

end Hynix
